import Mathlib

/-!
# led3d slave firmware: frame ingestion, ring buffer and render step

A shallow embedding of `src/embedded/slave/src/main.cpp`.  Global variables of
the translation unit become the fields of `State`; every C function becomes a
function from `State` to `State`.  C `int` values are `Int`, `size_t` /
`unsigned long` values are natural numbers reduced modulo `2 ^ 32` where the
code can wrap, and `uint8_t` values are `Fin 256`.
-/

namespace Led3d

/-- One `uint8_t`. -/
abbrev Byte := Fin 256

/-- The constants that `main.cpp` takes from `voxel.h` and `comm.h`.  The two
headers are not part of the sources at hand, so the values are parameters.  The
three packet tags label the cases of one `switch`, hence are pairwise
different. -/
structure Config where
  VOXEL_MODULE_X_SIZE : Nat
  MAX_VOXEL_Y_SIZE : Nat
  VOXEL_MODULE_Z_SIZE : Nat
  WELCOME_HEADER : Byte
  VOXEL_DATA_ALL_TYPE : Byte
  VOXEL_DATA_CLEAR_TYPE : Byte
  welcome_ne_all : WELCOME_HEADER ≠ VOXEL_DATA_ALL_TYPE
  welcome_ne_clear : WELCOME_HEADER ≠ VOXEL_DATA_CLEAR_TYPE
  all_ne_clear : VOXEL_DATA_ALL_TYPE ≠ VOXEL_DATA_CLEAR_TYPE

/-- Width of `size_t` and of `unsigned long` on the target: values live in
`[0, 2 ^ 32)`. -/
def WORD : Nat := 4294967296

/-- Conversion of an integer to `size_t` / `unsigned long` (reduction modulo
`2 ^ 32`). -/
def toSizeT (v : Int) : Nat := (v % 4294967296).toNat

/-- The cast `static_cast<int>(size)` of an unsigned 32-bit value: two's
complement reinterpretation. -/
def toInt (n : Nat) : Int :=
  if n % 4294967296 < 2147483648 then ((n % 4294967296 : Nat) : Int)
  else ((n % 4294967296 : Nat) : Int) - 4294967296

/-- The expression `size - bufferIdx` with `size` a `size_t` and `bufferIdx` an
`int`: unsigned subtraction, wrapping below zero. -/
def sizeSub (size : Nat) (bufferIdx : Int) : Nat := toSizeT ((size : Int) - bufferIdx)

/-- `REFRESH_RATE_HZ`. -/
def REFRESH_RATE_HZ : Nat := 30

/-- `numMicroSecsPerRefresh = 1e6 / REFRESH_RATE_HZ`, truncated to
`unsigned long`. -/
def numMicroSecsPerRefresh : Nat := 1000000 / REFRESH_RATE_HZ

/-- `SLAVE_PING_MICROSECS` (`10e6`). -/
def SLAVE_PING_MICROSECS : Nat := 10000000

/-- `LED_BUFFER_QUEUE_SIZE`. -/
def LED_BUFFER_QUEUE_SIZE : Int := 6

/-- `MY_SLAVE_ID`. -/
def MY_SLAVE_ID : Int := 0

/-- The gamma table `gamma8`. -/
def gamma8 : List Nat := [
    0,  0,  0,  0,  0,  0,  0,  0,  0,  0,  0,  0,  0,  0,  0,  0,
    0,  0,  0,  0,  0,  0,  0,  0,  0,  0,  0,  0,  1,  1,  1,  1,
    1,  1,  1,  1,  1,  1,  1,  1,  1,  2,  2,  2,  2,  2,  2,  2,
    2,  3,  3,  3,  3,  3,  3,  3,  4,  4,  4,  4,  4,  5,  5,  5,
    5,  6,  6,  6,  6,  7,  7,  7,  7,  8,  8,  8,  9,  9,  9, 10,
   10, 10, 11, 11, 11, 12, 12, 13, 13, 13, 14, 14, 15, 15, 16, 16,
   17, 17, 18, 18, 19, 19, 20, 20, 21, 21, 22, 22, 23, 24, 24, 25,
   25, 26, 27, 27, 28, 29, 29, 30, 31, 32, 32, 33, 34, 35, 35, 36,
   37, 38, 39, 39, 40, 41, 42, 43, 44, 45, 46, 47, 48, 49, 50, 50,
   51, 52, 54, 55, 56, 57, 58, 59, 60, 61, 62, 63, 64, 66, 67, 68,
   69, 70, 72, 73, 74, 75, 77, 78, 79, 81, 82, 83, 85, 86, 87, 89,
   90, 92, 93, 95, 96, 98, 99,101,102,104,105,107,109,110,112,114,
  115,117,119,120,122,124,126,127,129,131,133,135,137,138,140,142,
  144,146,148,150,152,154,156,158,160,162,164,167,169,171,173,175,
  177,180,182,184,186,189,191,193,196,198,200,203,205,208,210,213,
  215,218,220,223,225,228,231,233,236,239,241,244,247,249,252,255]

/-- The read `pgm_read_byte(&gamma8[i])`. -/
def pgm_read_gamma8 (i : Nat) : Nat := gamma8.getD i 0

/-- The index expression `colour >> k & 0x0000FF` on a two's complement `int`:
the arithmetic right shift is the floor division by `2 ^ k`, the mask keeps
the residue modulo 256. -/
def shiftMask (colour : Int) (k : Nat) : Nat := ((colour / (2 ^ k : Nat)) % 256).toNat

/-- `gammaMapColour`. -/
def gammaMapColour (colour : Int) : Int :=
  (((pgm_read_gamma8 (shiftMask colour 16) <<< 16) |||
    (pgm_read_gamma8 (shiftMask colour 8) <<< 8) |||
     pgm_read_gamma8 (shiftMask colour 0) : Nat) : Int)

/-- `colourFromBuffer`. -/
def colourFromBuffer (buffer : Nat → Byte) (startIdx : Nat) : Int :=
  gammaMapColour
    ((((((buffer startIdx).val &&& 0x0000FF) <<< 16) +
       (((buffer (startIdx + 1)).val &&& 0x0000FF) <<< 8) +
       ((buffer (startIdx + 2)).val &&& 0x0000FF) : Nat)) : Int)

/-- The strip driver object `leds` (OctoWS2811, an external library), seen
through the interface the firmware uses: `begin` records the strip length,
`setPixel` stores a colour at a pixel index of the drawing memory, `show`
flushes the drawing memory to the strips. -/
structure Leds where
  stripLen : Int
  pixels : Int → Int
  shows : Nat

/-- `leds.begin(ledsPerStrip, displayMemory, drawingMemory, octoConfig)`. -/
def Leds.begin (l : Leds) (ledsPerStrip : Int) : Leds := { l with stripLen := ledsPerStrip }

/-- `leds.setPixel(num, colour)`. -/
def Leds.setPixel (l : Leds) (num : Int) (colour : Int) : Leds :=
  { l with pixels := fun i => if i = num then colour else l.pixels i }

/-- `leds.show()`. -/
def Leds.show (l : Leds) : Leds := { l with shows := l.shows + 1 }

/-- The global variables of the slave firmware.  `tempLedBufferQueue i k` is
byte `k` of slot `i` of the ring buffer, each slot an array of its own: this
matches the C array for slot indices in `[0, 6)` and byte offsets below the slot
size `VOXEL_MODULE_X_SIZE * MAX_VOXEL_Y_SIZE * VOXEL_MODULE_Z_SIZE * 3`, which is
where the firmware stays while `voxelModuleYSize <= MAX_VOXEL_Y_SIZE`.
`lastTimeInMicroSecs` is the function-local static of `loop` (`none` before the
first iteration). -/
structure State where
  ledDrawTimeCounterMicroSecs : Nat
  slaveInfoPingTimeCounterMicroSecs : Nat
  lastKnownFrameId : Int
  voxelModuleYSize : Int
  ledsPerStrip : Int
  ledsPerModule : Int
  tempLedBufferQueue : Int → Nat → Byte
  queueCount : Int
  queueStartIdx : Int
  leds : Leds
  lastTimeInMicroSecs : Option Nat

/-- `clearQueue`. -/
def clearQueue (s : State) : State :=
  { s with queueCount := 0, queueStartIdx := 0 }

/-- `updateQueue`.  The C operator `%` on `int` truncates towards zero. -/
def updateQueue (s : State) : State :=
  let s1 := { s with queueCount := s.queueCount + 1 }
  if s1.queueCount > LED_BUFFER_QUEUE_SIZE then
    { s1 with queueStartIdx := Int.tmod (s1.queueStartIdx + 1) LED_BUFFER_QUEUE_SIZE,
              queueCount := LED_BUFFER_QUEUE_SIZE }
  else s1

/-- `reinit`. -/
def reinit (cfg : Config) (ySize : Byte) (s : State) : State :=
  let s1 := clearQueue { s with lastKnownFrameId := -1 }
  if (ySize.val : Int) ≠ s1.voxelModuleYSize ∧ ySize.val ≤ cfg.MAX_VOXEL_Y_SIZE then
    let s2 := { s1 with voxelModuleYSize := (ySize.val : Int) }
    let s3 := { s2 with ledsPerStrip := s2.voxelModuleYSize * cfg.VOXEL_MODULE_Z_SIZE }
    let s4 := { s3 with ledsPerModule :=
                  cfg.VOXEL_MODULE_X_SIZE * s3.voxelModuleYSize * cfg.VOXEL_MODULE_Z_SIZE }
    { s4 with leds := (s4.leds.begin s4.ledsPerStrip).show }
  else s1

/-- `readWelcomeHeader`. -/
def readWelcomeHeader (cfg : Config) (buffer : Nat → Byte) (size : Nat) (startIdx : Nat)
    (s : State) : State :=
  let s1 :=
    if size ≥ 1 then
      let newYSize := buffer startIdx
      if newYSize.val > 0 then reinit cfg newYSize s else s
    else s
  clearQueue { s1 with lastKnownFrameId := -1 }

/-- `getFrameId`. -/
def getFrameId (buffer : Nat → Byte) (size : Nat) : Int :=
  if size > 3 then ((((buffer 2).val <<< 8) + (buffer 3).val) % 65536 : Nat) else 0

/-- The call `memcpy(dest, &src[startIdx], n)`. -/
def memcpy (dest : Nat → Byte) (src : Nat → Byte) (startIdx : Nat) (n : Nat) : Nat → Byte :=
  fun k => if k < n then src (startIdx + k) else dest k

/-- Replaces slot `idx` of the ring buffer memory. -/
def setSlot (q : Int → Nat → Byte) (idx : Int) (slot : Nat → Byte) : Int → Nat → Byte :=
  fun i => if i = idx then slot else q i

/-- `readFullVoxelData`. -/
def readFullVoxelData (buffer : Nat → Byte) (size : Nat) (startIdx : Nat) (frameId : Int)
    (s : State) : State :=
  if toInt size ≥ 3 * s.ledsPerModule ∧
      ((frameId > 0 ∧ frameId < 256) ∨ frameId > s.lastKnownFrameId) then
    let idx := Int.tmod (s.queueStartIdx + s.queueCount) LED_BUFFER_QUEUE_SIZE
    let slot := memcpy (s.tempLedBufferQueue idx) buffer startIdx (toSizeT (3 * s.ledsPerModule))
    let s1 := { s with tempLedBufferQueue := setSlot s.tempLedBufferQueue idx slot }
    let s2 := updateQueue s1
    { s2 with lastKnownFrameId := frameId }
  else s

/-- The `for (int i = 0; i < ledsPerModule; i += 3)` loop of
`readWipeVoxelData`, entered at counter value `i`; `fuel` bounds the number of
iterations. -/
def wipeLoop (buffer : Nat → Byte) (startIdx : Nat) (ledsPerModule : Int) :
    Nat → Nat → (Nat → Byte) → (Nat → Byte)
  | 0, _, currFrameBuffer => currFrameBuffer
  | fuel + 1, i, currFrameBuffer =>
    if (i : Int) < ledsPerModule then
      let b0 : Nat → Byte := fun k => if k = i then buffer startIdx else currFrameBuffer k
      let b1 : Nat → Byte := fun k => if k = i + 1 then buffer (startIdx + 1) else b0 k
      let b2 : Nat → Byte := fun k => if k = i + 2 then buffer (startIdx + 2) else b1 k
      wipeLoop buffer startIdx ledsPerModule fuel (i + 3) b2
    else currFrameBuffer

/-- `readWipeVoxelData`.  The loop counter grows by 3 per iteration, so
`ledsPerModule` iterations of fuel always suffice. -/
def readWipeVoxelData (buffer : Nat → Byte) (size : Nat) (startIdx : Nat) (frameId : Int)
    (s : State) : State :=
  if size > 2 ∧ ((frameId > 0 ∧ frameId < 256) ∨ frameId > s.lastKnownFrameId) then
    let idx := Int.tmod (s.queueStartIdx + s.queueCount) LED_BUFFER_QUEUE_SIZE
    let currFrameBuffer := s.tempLedBufferQueue idx
    let slot := wipeLoop buffer startIdx s.ledsPerModule s.ledsPerModule.toNat 0 currFrameBuffer
    let s1 := { s with tempLedBufferQueue := setSlot s.tempLedBufferQueue idx slot }
    let s2 := updateQueue s1
    { s2 with lastKnownFrameId := frameId }
  else s

/-- `onSerialPacketReceived`.  `senderIsMyPacketSerial` is the outcome of the
pointer test `sender == &myPacketSerial`; `size` is a `size_t`. -/
def onSerialPacketReceived (cfg : Config) (senderIsMyPacketSerial : Bool)
    (buffer : Nat → Byte) (size : Nat) (s : State) : State :=
  if senderIsMyPacketSerial = true ∧ size > 2 then
    let slaveId := buffer 0
    if (slaveId.val : Int) ≠ MY_SLAVE_ID then s
    else
      let tag := buffer 1
      if tag = cfg.WELCOME_HEADER then
        readWelcomeHeader cfg buffer (sizeSub size 2) 2 s
      else if tag = cfg.VOXEL_DATA_ALL_TYPE then
        readFullVoxelData buffer (sizeSub size 4) 4 (getFrameId buffer size) s
      else if tag = cfg.VOXEL_DATA_CLEAR_TYPE then
        readWipeVoxelData buffer (sizeSub size 4) 4 (getFrameId buffer size) s
      else s
  else s

/-- The body of the innermost loop of `updateLedsFromQueue` at voxel
`(x, y, z)`: the accumulator is `bufferIdx` and the strip driver. -/
def renderVoxel (cfg : Config) (s : State) (x y : Nat) (acc : Nat × Leds) (z : Nat) :
    Nat × Leds :=
  let currColour := colourFromBuffer (s.tempLedBufferQueue s.queueStartIdx) acc.1
  (acc.1 + 3,
   acc.2.setPixel
     ((x : Int) * s.voxelModuleYSize * cfg.VOXEL_MODULE_Z_SIZE + (z : Int) * s.voxelModuleYSize
       + y) currColour)

/-- The `z` loop of `updateLedsFromQueue`. -/
def renderZ (cfg : Config) (s : State) (x : Nat) (acc : Nat × Leds) (y : Nat) : Nat × Leds :=
  (List.range cfg.VOXEL_MODULE_Z_SIZE).foldl (renderVoxel cfg s x y) acc

/-- The `y` loop of `updateLedsFromQueue`. -/
def renderY (cfg : Config) (s : State) (acc : Nat × Leds) (x : Nat) : Nat × Leds :=
  (List.range s.voxelModuleYSize.toNat).foldl (renderZ cfg s x) acc

/-- The `x` loop of `updateLedsFromQueue`, from `bufferIdx = 0`. -/
def renderX (cfg : Config) (s : State) : Nat × Leds :=
  (List.range cfg.VOXEL_MODULE_X_SIZE).foldl (renderY cfg s) (0, s.leds)

/-- `updateLedsFromQueue`: the new state and the returned `bool`. -/
def updateLedsFromQueue (cfg : Config) (s : State) : State × Bool :=
  if s.queueCount > 0 then
    let s1 := { s with leds := (renderX cfg s).2 }
    let s2 := { s1 with leds := s1.leds.show }
    let s3 := { s2 with queueCount := s2.queueCount - 1 }
    ({ s3 with queueStartIdx := Int.tmod (s3.queueStartIdx + 1) LED_BUFFER_QUEUE_SIZE }, true)
  else (s, false)

/-- One packet handed to the packet handler by `myPacketSerial.update()`. -/
structure Packet where
  buffer : Nat → Byte
  size : Nat

/-- `myPacketSerial.update()`: the packet handler runs on every packet the
serial link completed since the last call. -/
def packetSerialUpdate (cfg : Config) (packets : List Packet) (s : State) : State :=
  packets.foldl (fun st p => onSerialPacketReceived cfg true p.buffer p.size st) s

/-- The render-cadence part of `loop`: the counter is advanced by
`dtMicroSecs` (unsigned 32-bit) and a frame is drawn when it is due. -/
def loopRender (cfg : Config) (dtMicroSecs : Nat) (s : State) : State :=
  let s1 := { s with ledDrawTimeCounterMicroSecs :=
                (s.ledDrawTimeCounterMicroSecs + dtMicroSecs) % WORD }
  if s1.ledDrawTimeCounterMicroSecs ≥ numMicroSecsPerRefresh then
    let r := updateLedsFromQueue cfg s1
    if r.2 = true then { r.1 with ledDrawTimeCounterMicroSecs := 0 } else r.1
  else s1

/-- The slave-id ping part of `loop`. -/
def loopPing (dtMicroSecs : Nat) (s : State) : State :=
  let s1 := { s with slaveInfoPingTimeCounterMicroSecs :=
                (s.slaveInfoPingTimeCounterMicroSecs + dtMicroSecs) % WORD }
  if s1.slaveInfoPingTimeCounterMicroSecs > SLAVE_PING_MICROSECS then
    { s1 with slaveInfoPingTimeCounterMicroSecs := 0 }
  else s1

/-- The elapsed time `dtMicroSecs` computed by `loop` from the reading
`currTimeMicroSecs` of `micros()`; `firstReading` is the reading that
initialises the static `lastTimeInMicroSecs` in the first iteration. -/
def loopDt (firstReading currTimeMicroSecs : Nat) (s : State) : Nat :=
  toSizeT ((currTimeMicroSecs : Int) - ((s.lastTimeInMicroSecs.getD firstReading : Nat) : Int))

/-- `loop`: one iteration of the main loop. -/
def loop (cfg : Config) (packets : List Packet) (firstReading currTimeMicroSecs : Nat)
    (s : State) : State :=
  let s1 := packetSerialUpdate cfg packets s
  let dtMicroSecs := loopDt firstReading currTimeMicroSecs s1
  let s2 := { s1 with lastTimeInMicroSecs := some currTimeMicroSecs }
  loopPing dtMicroSecs (loopRender cfg dtMicroSecs s2)

/-- The globals as the C++ runtime initialises them before `setup` runs:
everything is zero and `leds` is constructed with `ledsPerStrip = 0`. -/
def initState : State :=
  { ledDrawTimeCounterMicroSecs := 0
    slaveInfoPingTimeCounterMicroSecs := 0
    lastKnownFrameId := 0
    voxelModuleYSize := 0
    ledsPerStrip := 0
    ledsPerModule := 0
    tempLedBufferQueue := fun _ _ => 0
    queueCount := 0
    queueStartIdx := 0
    leds := { stripLen := 0, pixels := fun _ => 0, shows := 0 }
    lastTimeInMicroSecs := none }

/-- `setup` (the serial configuration has no effect on the globals). -/
def setup (cfg : Config) (s : State) : State :=
  let s1 := { s with lastKnownFrameId := 0 }
  let s2 := { s1 with slaveInfoPingTimeCounterMicroSecs := 0 }
  let s3 := { s2 with ledDrawTimeCounterMicroSecs := 0 }
  reinit cfg (Fin.ofNat cfg.VOXEL_MODULE_X_SIZE) s3

/-- A call of one of the two frame readers, with its arguments. -/
inductive FrameCall where
  | full (buffer : Nat → Byte) (size startIdx : Nat) (frameId : Int)
  | wipe (buffer : Nat → Byte) (size startIdx : Nat) (frameId : Int)

/-- The `frameId` argument of the call. -/
def FrameCall.frameId : FrameCall → Int
  | .full _ _ _ frameId => frameId
  | .wipe _ _ _ frameId => frameId

/-- Runs the call: `readFullVoxelData` or `readWipeVoxelData`. -/
def FrameCall.run : FrameCall → State → State
  | .full buffer size startIdx frameId, s => readFullVoxelData buffer size startIdx frameId s
  | .wipe buffer size startIdx frameId, s => readWipeVoxelData buffer size startIdx frameId s

/-- The call is accepted in state `s`: the `if` of the reader holds, so the
frame is written to the ring buffer. -/
def FrameCall.accepted : FrameCall → State → Prop
  | .full _ size _ frameId, s =>
    toInt size ≥ 3 * s.ledsPerModule ∧
      ((frameId > 0 ∧ frameId < 256) ∨ frameId > s.lastKnownFrameId)
  | .wipe _ size _ frameId, s =>
    size > 2 ∧ ((frameId > 0 ∧ frameId < 256) ∨ frameId > s.lastKnownFrameId)

/-- The contents the call gives to the slot it writes (`memcpy` for a full
frame, the wipe loop for a wipe frame), in state `s`. -/
def FrameCall.written : FrameCall → State → (Nat → Byte)
  | .full buffer _ startIdx _, s =>
    memcpy (s.tempLedBufferQueue
        (Int.tmod (s.queueStartIdx + s.queueCount) LED_BUFFER_QUEUE_SIZE))
      buffer startIdx (toSizeT (3 * s.ledsPerModule))
  | .wipe buffer _ startIdx _, s =>
    wipeLoop buffer startIdx s.ledsPerModule s.ledsPerModule.toNat 0
      (s.tempLedBufferQueue (Int.tmod (s.queueStartIdx + s.queueCount) LED_BUFFER_QUEUE_SIZE))

/-- The enqueue step both readers perform on an accepted frame: the slot at
`(queueStartIdx + queueCount) % LED_BUFFER_QUEUE_SIZE` receives `slot`, then
`updateQueue` runs. -/
def enqueue (s : State) (slot : Nat → Byte) : State :=
  let idx := Int.tmod (s.queueStartIdx + s.queueCount) LED_BUFFER_QUEUE_SIZE
  updateQueue { s with tempLedBufferQueue := setSlot s.tempLedBufferQueue idx slot }

/-- Runs a sequence of frame reader calls, no dequeue in between. -/
def runFrames (s : State) (calls : List FrameCall) : State :=
  calls.foldl (fun st c => c.run st) s

/-- Every call of the sequence is accepted in the state it is made in. -/
def acceptedRun : State → List FrameCall → Prop
  | _, [] => True
  | s, c :: cs => c.accepted s ∧ acceptedRun (c.run s) cs

instance FrameCall.decAccepted (c : FrameCall) (s : State) : Decidable (c.accepted s) :=
  match c with
  | .full _ size _ frameId =>
    inferInstanceAs (Decidable (toInt size ≥ 3 * s.ledsPerModule ∧
      ((frameId > 0 ∧ frameId < 256) ∨ frameId > s.lastKnownFrameId)))
  | .wipe _ size _ frameId =>
    inferInstanceAs (Decidable
      (size > 2 ∧ ((frameId > 0 ∧ frameId < 256) ∨ frameId > s.lastKnownFrameId)))

instance decAcceptedRun : (s : State) → (calls : List FrameCall) →
    Decidable (acceptedRun s calls)
  | _, [] => isTrue trivial
  | s, c :: cs =>
    @instDecidableAnd (c.accepted s) (acceptedRun (c.run s) cs) (FrameCall.decAccepted c s)
      (decAcceptedRun (c.run s) cs)

/-- The slot contents written by the calls of the sequence, in arrival order. -/
def slotsWritten : State → List FrameCall → List (Nat → Byte)
  | _, [] => []
  | s, c :: cs => c.written s :: slotsWritten (c.run s) cs

/-- The frames read by `k` successive calls of `updateLedsFromQueue`: a call
that returns `true` has read the slot `tempLedBufferQueue[queueStartIdx]`; the
sequence stops at the first call that returns `false`. -/
def dequeueReads (cfg : Config) : Nat → State → List (Nat → Byte)
  | 0, _ => []
  | k + 1, s =>
    if (updateLedsFromQueue cfg s).2 = true then
      s.tempLedBufferQueue s.queueStartIdx :: dequeueReads cfg k (updateLedsFromQueue cfg s).1
    else []

/-- Example values for the constants of `voxel.h` and `comm.h`: an 8 x 8
module base, at most 32 layers, and the tags `W`, `A`, `C`. -/
def exampleConfig : Config :=
  { VOXEL_MODULE_X_SIZE := 8
    MAX_VOXEL_Y_SIZE := 32
    VOXEL_MODULE_Z_SIZE := 8
    WELCOME_HEADER := 87
    VOXEL_DATA_ALL_TYPE := 65
    VOXEL_DATA_CLEAR_TYPE := 67
    welcome_ne_all := by decide
    welcome_ne_clear := by decide
    all_ne_clear := by decide }

/-- The state after `setup` under `exampleConfig`: `voxelModuleYSize = 8`,
`ledsPerModule = 512`, `lastKnownFrameId = -1`, empty queue. -/
def exampleState : State := setup exampleConfig initState

/-- A full-size frame whose payload bytes all equal `v`, with frame id `v`
(`3 * 512` payload bytes under `exampleConfig`). -/
def exampleFull (v : Byte) : FrameCall :=
  .full (fun _ => v) 1536 0 (v.val : Int)

/-- Eight full frames, numbered 1 to 8. -/
def exampleCalls : List FrameCall :=
  [exampleFull 1, exampleFull 2, exampleFull 3, exampleFull 4,
   exampleFull 5, exampleFull 6, exampleFull 7, exampleFull 8]

/-- A full-frame packet for slave 0 under `exampleConfig`: tag `A`, frame id 7
(bytes 0 and 7), then `3 * 512` payload bytes; payload byte `k` is `k % 251`. -/
def exampleFullPacket : Nat → Byte :=
  fun i => if i = 0 then 0 else if i = 1 then 65 else if i = 2 then 0 else if i = 3 then 7
    else Fin.ofNat ((i - 4) % 251)

/-- A wipe packet for slave 0 under `exampleConfig`: tag `C`, frame id 1
(bytes 0 and 1), then the colour bytes 255, 255, 255. -/
def exampleWipePacket : Nat → Byte :=
  fun i => if i = 0 then 0 else if i = 1 then 67 else if i = 2 then 0 else if i = 3 then 1
    else 255

/-- A wipe packet cut after its third byte: slave 0, tag `C`, one more byte. -/
def exampleShortWipePacket : Nat → Byte :=
  fun i => if i = 0 then 0 else if i = 1 then 67 else 9

/-- A welcome packet for slave 0 under `exampleConfig` carrying the y-size
byte `y`. -/
def exampleWelcomePacket (y : Byte) : Nat → Byte :=
  fun i => if i = 0 then 0 else if i = 1 then 87 else y

/-- The state of `exampleState` after the packet `exampleFullPacket` (frame id
7) has been received and enqueued: one frame waits in slot 0. -/
def exampleQueuedState : State :=
  onSerialPacketReceived exampleConfig true exampleFullPacket 1540 exampleState

/-- Ring buffer index invariant: `0 <= queueCount <= 6` and
`0 <= queueStartIdx < 6`. -/
def QueueInv (s : State) : Prop :=
  0 ≤ s.queueCount ∧ s.queueCount ≤ 6 ∧ 0 ≤ s.queueStartIdx ∧ s.queueStartIdx < 6

/-- Geometry invariant: `voxelModuleYSize <= MAX_VOXEL_Y_SIZE` and the two led
counts are the products the firmware derives from `voxelModuleYSize`. -/
def GeometryInv (cfg : Config) (s : State) : Prop :=
  s.voxelModuleYSize ≤ cfg.MAX_VOXEL_Y_SIZE ∧
  s.ledsPerStrip = s.voxelModuleYSize * cfg.VOXEL_MODULE_Z_SIZE ∧
  s.ledsPerModule = cfg.VOXEL_MODULE_X_SIZE * s.voxelModuleYSize * cfg.VOXEL_MODULE_Z_SIZE

/-- The operations of the firmware that touch the queue or the geometry. -/
inductive SlaveOp where
  | clearQueue
  | updateQueue
  | reinit (ySize : Byte)
  | packet (senderIsMyPacketSerial : Bool) (buffer : Nat → Byte) (size : Nat)
  | updateLedsFromQueue

/-- Runs one operation. -/
def SlaveOp.run (cfg : Config) : SlaveOp → State → State
  | .clearQueue, s => Led3d.clearQueue s
  | .updateQueue, s => Led3d.updateQueue s
  | .reinit ySize, s => Led3d.reinit cfg ySize s
  | .packet sender buffer size, s => onSerialPacketReceived cfg sender buffer size s
  | .updateLedsFromQueue, s => (Led3d.updateLedsFromQueue cfg s).1

/-- Runs a sequence of operations, first to last. -/
def runOps (cfg : Config) (s : State) (ops : List SlaveOp) : State :=
  ops.foldl (fun st op => op.run cfg st) s

/-! ## The master client

An embedding of `MasterClient` (`_old/master/src/MasterClient.cpp` and
`embeded/src/MasterClient.h`).  The UDP and TCP sockets are library objects;
they appear as records holding what the client can observe of them. -/

/-- `IPAddress`: four octets. -/
structure IPAddress where
  o0 : Byte
  o1 : Byte
  o2 : Byte
  o3 : Byte
  deriving DecidableEq

/-- `MasterClient::StateType`. -/
inductive StateType where
  | DISCOVERING
  | CONNECTING
  | CONNECTED
  deriving DecidableEq

/-- One datagram waiting in the UDP socket: the sender and the payload. -/
structure Datagram where
  remoteIP : IPAddress
  data : List Byte

/-- The `UDP` member `udp`: the datagrams not yet parsed, the unread bytes of
the current packet (what `available()` counts and `read()` consumes) and the
sender of the current packet (`remoteIP()`). -/
structure Udp where
  incoming : List Datagram
  rx : List Byte
  remote : IPAddress

/-- `udp.parsePacket()`: makes the next waiting datagram current and returns its
size, or returns 0 when none waits. -/
def Udp.parsePacket (u : Udp) : Int × Udp :=
  match u.incoming with
  | [] => (0, { u with rx := [] })
  | d :: ds => ((d.data.length : Int), { incoming := ds, rx := d.data, remote := d.remoteIP })

/-- `udp.available()`. -/
def Udp.available (u : Udp) : Int := (u.rx.length : Int)

/-- `udp.read()`: the next unread byte as an `int`, or -1 when none is left. -/
def Udp.read (u : Udp) : Int × Udp :=
  match u.rx with
  | [] => (-1, u)
  | c :: rest => ((c.val : Int), { u with rx := rest })

/-- Conversion of an `int` to `char` (as `push_back(udp.read())` does). -/
def toChar (v : Int) : Byte := Fin.ofNat (v % 256).toNat

/-- The cast `static_cast<uint8_t>` of an `int`. -/
def toUInt8 (v : Int) : Byte := Fin.ofNat (v % 256).toNat

/-- The cast `static_cast<uint16_t>` of an `int`. -/
def toUInt16 (v : Int) : Nat := (v % 65536).toNat

/-- The `while (udp.available())` loop of `readUntil` over the unread bytes,
with the output vector `buffer`: the result is the vector and the bytes left
unread. -/
def readUntilLoop (untilChar : Byte) : List Byte → List Byte → List Byte × List Byte
  | [], buffer => (buffer, [])
  | c :: rest, buffer =>
    let buffer1 := buffer ++ [c]
    if buffer1.getLast? = some untilChar then (buffer1.dropLast, rest)
    else readUntilLoop untilChar rest buffer1

/-- `std::vector<char>::clear()`. -/
def vectorClear (_buffer : List Byte) : List Byte := []

/-- `MasterClient::readUntil`: the socket afterwards and the output vector.
The vector passed in is cleared first. -/
def readUntil (u : Udp) (buffer : List Byte) (untilChar : Byte) : Udp × List Byte :=
  let r := readUntilLoop untilChar u.rx (vectorClear buffer)
  ({ u with rx := r.2 }, r.1)

/-- The C library predicate `isspace` on the characters `atoi` skips. -/
def isSpace (c : Byte) : Bool := c.val = 32 || (9 ≤ c.val && c.val ≤ 13)

/-- The C library predicate `isdigit`. -/
def isDigit (c : Byte) : Bool := 48 ≤ c.val && c.val ≤ 57

/-- The largest value of the C type `long` when it is `longBits` bits wide
(`LONG_MAX`). -/
def LONG_MAX (longBits : Nat) : Int := ((2 ^ (longBits - 1) : Nat) : Int) - 1

/-- The magnitude of the smallest value of the C type `long` when it is
`longBits` bits wide (`-LONG_MIN`). -/
def LONG_MIN_MAGNITUDE (longBits : Nat) : Int := ((2 ^ (longBits - 1) : Nat) : Int)

/-- The cast `(int)` of a `long`: the low 32 bits, read in two's complement. -/
def longToInt (v : Int) : Int := toInt (v % 4294967296).toNat

/-- The digit loop of `strtol`, which `atoi` calls: it accumulates decimal
digits and stops at the first other character; `limit` is the largest magnitude
a `long` of the sign at hand can hold, and once the digits read exceed it the
result stays at `limit` (the out-of-range case of `strtol`). -/
def atoiDigits (limit : Int) : List Byte → Int → Int
  | [], acc => acc
  | c :: rest, acc =>
    if isDigit c = true then atoiDigits limit rest (min limit (acc * 10 + ((c.val : Int) - 48)))
    else acc

/-- The C library function `std::atoi` on the characters of a string, as the C
libraries define it: `(int) strtol(str, NULL, 10)`.  Leading white space is
skipped, an optional sign is read, then the decimal digits; the result is 0
when no digit follows.  A value beyond the range of `long` becomes `LONG_MAX`
or `LONG_MIN`, and the `long` is then cut to the 32 bits of `int`.  `longBits`
is the width of `long` on the platform (32 on the device, 64 on a 64-bit
host). -/
def atoi (longBits : Nat) (str : List Byte) : Int :=
  match str.dropWhile isSpace with
  | [] => 0
  | c :: rest =>
    if c.val = 45 then longToInt (- atoiDigits (LONG_MIN_MAGNITUDE longBits) rest 0)
    else if c.val = 43 then longToInt (atoiDigits (LONG_MAX longBits) rest 0)
    else longToInt (atoiDigits (LONG_MAX longBits) (c :: rest) 0)

/-- The constants the master client takes from `comm.h`, which is not among the
sources at hand; their values are parameters.  `LONG_BITS` is the width of the
C type `long` on the platform the client is built for, at least 32 by the C
standard; it decides where `atoi` saturates. -/
structure MasterConfig where
  UDP_DISCOVERY_PORT : Int
  DISCOVERY_ACK : List Byte
  DISCOVERY_ACK_PACKET_MIN_SIZE : Int
  LONG_BITS : Nat
  long_bits_ge : 32 ≤ LONG_BITS

/-- The addresses `WiFi.localIP()` and `Ethernet.localIP()` of the device. -/
structure LocalNet where
  wifiLocalIP : IPAddress
  ethernetLocalIP : IPAddress

/-- The `TCPClient` member `tcp`: what `connected()` and `status()` report. -/
structure Tcp where
  connected : Bool
  status : Bool

/-- `tcp.stop()`: afterwards `connected()` and `status()` report false. -/
def Tcp.stop (_t : Tcp) : Tcp := { connected := false, status := false }

/-- `tcp.connect(address, port)`: `ok` is the outcome the network gives. -/
def Tcp.connect (_t : Tcp) (ok : Bool) : Bool × Tcp := (ok, { connected := ok, status := ok })

/-- The two operations the client calls on its `packetReader`.  The classes
`PacketReader`, `VoxelModel` and the slave packet writer are not among the
sources at hand: `R` is their joint state, and `reset` (for
`packetReader.reset(voxelModel)`) and `readUDP` (for
`packetReader.readUDP(udp, voxelModel, dtMicroSecs)`) are parameters.  Neither
call is handed the client, so neither can reach its `state`, `tcp`,
`serverAddr`, `serverPort` or timer. -/
structure Relay (R : Type) where
  reset : R → R
  readUDP : R → Udp → Nat → Bool × R × Udp

/-- The members of `MasterClient`. -/
structure MasterClient (R : Type) where
  relay : R
  state : StateType
  udp : Udp
  tcp : Tcp
  serverAddr : IPAddress
  serverPort : Nat
  discoveryPacketTimerMicroSecs : Nat

/-- `MasterClient::setState`. -/
def setState {R : Type} (rl : Relay R) (nextState : StateType) (m : MasterClient R) :
    MasterClient R :=
  match nextState with
  | .DISCOVERING =>
    let m1 := { m with discoveryPacketTimerMicroSecs := 0 }
    let m2 := if m1.tcp.connected = true then { m1 with tcp := m1.tcp.stop } else m1
    { m2 with state := nextState }
  | .CONNECTING => { m with state := nextState }
  | .CONNECTED =>
    let m1 := { m with relay := rl.reset m.relay }
    { m1 with state := nextState }

/-- The `for (int i = 0; i < 4; i++)` loop of `receiveDiscoveryAck` that reads
the address, entered at index `i` with `n` iterations to go: the result is
`none` when the function returns from inside the loop (empty token), else the
array `addressParts`; then the socket and the vector `tempBuffer`. -/
def readAddressLoop (longBits : Nat) : Nat → Nat → Udp → List Byte → (Nat → Byte) →
    Option (Nat → Byte) × Udp × List Byte
  | 0, _, u, tempBuffer, addressParts => (some addressParts, u, tempBuffer)
  | n + 1, i, u, tempBuffer, addressParts =>
    let r := readUntil u tempBuffer 32
    if r.2 ≠ [] then
      readAddressLoop longBits n (i + 1) r.1 r.2
        (fun k => if k = i then toUInt8 (atoi longBits r.2) else addressParts k)
    else (none, r.1, r.2)

/-- The constructor `IPAddress(addressParts)`. -/
def IPAddress.ofParts (addressParts : Nat → Byte) : IPAddress :=
  { o0 := addressParts 0, o1 := addressParts 1, o2 := addressParts 2, o3 := addressParts 3 }

/-- The part of `receiveDiscoveryAck` that runs once the separating space has
been read: the address loop, the discovery port, the comparison with the local
address and port, and the server port; `tempBuffer` is the vector that held the
header. -/
def readAckFields {R : Type} (cfg : MasterConfig) (net : LocalNet) (rl : Relay R)
    (tempBuffer : List Byte) (m : MasterClient R) : MasterClient R :=
  let a := readAddressLoop cfg.LONG_BITS 4 0 m.udp tempBuffer (fun _ => 0)
  match a.1 with
  | none => { m with udp := a.2.1 }
  | some addressParts =>
    let p := readUntil a.2.1 a.2.2 32
    if p.2 ≠ [] then
      let readPort := toUInt16 (atoi cfg.LONG_BITS p.2)
      let readAddress := IPAddress.ofParts addressParts
      if (readAddress = net.wifiLocalIP ∨ readAddress = net.ethernetLocalIP) ∧
          (readPort : Int) = cfg.UDP_DISCOVERY_PORT then
        let q := readUntil p.1 p.2 59
        if q.2 ≠ [] then
          let readPort2 := toUInt16 (atoi cfg.LONG_BITS q.2)
          let m1 := { m with udp := q.1 }
          let m2 := { m1 with serverAddr := m1.udp.remote }
          let m3 := { m2 with serverPort := readPort2 }
          setState rl .CONNECTING m3
        else { m with udp := q.1 }
      else { m with udp := p.1 }
    else { m with udp := p.1 }

/-- The part of `receiveDiscoveryAck` that runs once the header equals
`DISCOVERY_ACK`: the test `udp.available() && udp.read() == ' '` and what
follows it. -/
def readAckBody {R : Type} (cfg : MasterConfig) (net : LocalNet) (rl : Relay R)
    (tempBuffer : List Byte) (m : MasterClient R) : MasterClient R :=
  if m.udp.available ≠ 0 ∧ m.udp.read.1 = 32 then
    readAckFields cfg net rl tempBuffer { m with udp := m.udp.read.2 }
  else
    { m with udp := if m.udp.available ≠ 0 then m.udp.read.2 else m.udp }

/-- `MasterClient::receiveDiscoveryAck`. -/
def receiveDiscoveryAck {R : Type} (cfg : MasterConfig) (net : LocalNet) (rl : Relay R)
    (m : MasterClient R) : MasterClient R :=
  if m.state ≠ .DISCOVERING then m
  else
    let p := m.udp.parsePacket
    if p.1 ≥ cfg.DISCOVERY_ACK_PACKET_MIN_SIZE then
      let r1 := p.2.read
      let r2 := r1.2.read
      let r3 := r2.2.read
      let tempBuffer := [toChar r1.1, toChar r2.1, toChar r3.1]
      if tempBuffer = cfg.DISCOVERY_ACK then
        readAckBody cfg net rl tempBuffer { m with udp := r3.2 }
      else { m with udp := r3.2 }
    else { m with udp := p.2 }

/-- `MasterClient::initiateConnectionWithServer`; `connectOk` is the outcome of
the TCP connect. -/
def initiateConnectionWithServer {R : Type} (rl : Relay R) (connectOk : Bool)
    (m : MasterClient R) : MasterClient R :=
  if m.state ≠ .CONNECTING then m
  else
    let c := m.tcp.connect connectOk
    let m1 := { m with tcp := c.2 }
    if c.1 = true then
      let m2 := { m1 with relay := rl.reset m1.relay }
      setState rl .CONNECTED m2
    else setState rl .DISCOVERING m1

/-- `MasterClient::receiveServerPacket`. -/
def receiveServerPacket {R : Type} (rl : Relay R) (dtMicroSecs : Nat) (m : MasterClient R) :
    MasterClient R :=
  if m.state ≠ .CONNECTED then m
  else if m.tcp.status = false ∧ m.tcp.connected = false then setState rl .CONNECTING m
  else
    let r := rl.readUDP m.relay m.udp dtMicroSecs
    { m with relay := r.2.1, udp := r.2.2 }

/-- The decimal value of a string of digits. -/
def decimalValue (token : List Byte) : Int :=
  token.foldl (fun acc c => acc * 10 + ((c.val : Int) - 48)) 0

/-- A decimal field of the ack packet: a non-empty string of digits. -/
def IsDecimal (token : List Byte) : Prop :=
  token ≠ [] ∧ ∀ c ∈ token, isDigit c = true

/-- The fields `tokens` written one after the other, each followed by a
space. -/
def spaced : List (List Byte) → List Byte
  | [] => []
  | t :: ts => t ++ 32 :: spaced ts

/-- A field that `readUntil(' ')` returns as a token: not empty and without a
space. -/
def IsField (token : List Byte) : Prop := token ≠ [] ∧ (32 : Byte) ∉ token

/-- The bytes of an ASCII text. -/
def ascii (text : String) : List Byte :=
  text.toList.map (fun c => Fin.ofNat c.toNat)

/-- Example values for the constants of `comm.h`: discovery port 20000, header
`ACK`, minimum ack size 13; `long` is 32 bits wide, as on the device. -/
def exampleMasterConfig : MasterConfig :=
  { UDP_DISCOVERY_PORT := 20000
    DISCOVERY_ACK := [65, 67, 75]
    DISCOVERY_ACK_PACKET_MIN_SIZE := 13
    LONG_BITS := 32
    long_bits_ge := Nat.le_refl 32 }

/-- The example constants on a host where `long` is 64 bits wide. -/
def exampleHostConfig : MasterConfig :=
  { exampleMasterConfig with LONG_BITS := 64, long_bits_ge := by decide }

/-- An example device: WiFi address 10.0.0.5, no Ethernet address. -/
def exampleNet : LocalNet :=
  { wifiLocalIP := ⟨10, 0, 0, 5⟩, ethernetLocalIP := ⟨0, 0, 0, 0⟩ }

/-- An example packet reader: its state counts the packets read since the last
reset. -/
def exampleRelay : Relay Nat :=
  { reset := fun _ => 0
    readUDP := fun r u _ => (true, r + 1, u) }

/-- The address 10.0.0.1 of an example server. -/
def exampleServerIP : IPAddress := ⟨10, 0, 0, 1⟩

/-- An example client in state `DISCOVERING` with the datagram `data` from
`exampleServerIP` waiting in its UDP socket, the TCP socket closed, and the
server fields holding 0.0.0.0 and 0. -/
def exampleMaster (data : List Byte) : MasterClient Nat :=
  { relay := 7
    state := .DISCOVERING
    udp := { incoming := [⟨exampleServerIP, data⟩], rx := [], remote := ⟨0, 0, 0, 0⟩ }
    tcp := { connected := false, status := false }
    serverAddr := ⟨0, 0, 0, 0⟩
    serverPort := 0
    discoveryPacketTimerMicroSecs := 500 }

/-- What `MasterClient::begin` needs beyond the client: the constants
`UDP_DATA_PORT` and the multicast data address (from `comm.h`, not among the
sources at hand) and the two socket set-up calls of the UDP library,
`udp.begin(port)` and `udp.joinMulticast(address)`; all four are parameters. -/
structure UdpSetup where
  UDP_DATA_PORT : Int
  dataIP : IPAddress
  begin : Udp → Int → Udp
  joinMulticast : Udp → IPAddress → Udp

/-- `MasterClient::begin`. -/
def MasterClient.begin {R : Type} (us : UdpSetup) (m : MasterClient R) : MasterClient R :=
  let m1 := { m with state := .DISCOVERING }
  let m2 := { m1 with udp := us.begin m1.udp us.UDP_DATA_PORT }
  { m2 with udp := us.joinMulticast m2.udp us.dataIP }

/-- `MasterClient::run`: the only statement that is not commented out is the
call of `packetReader.readUDP`, whose result is only printed. -/
def MasterClient.run {R : Type} (rl : Relay R) (dtMicroSecs : Nat) (m : MasterClient R) :
    MasterClient R :=
  let r := rl.readUDP m.relay m.udp dtMicroSecs
  { m with relay := r.2.1, udp := r.2.2 }

/-- The globals of `master.cpp` that `setup` and `loop` use: the client and the
function-local static `lastTimeInMicroSecs` of `loop` (`none` before the first
iteration). -/
structure MasterSketch (R : Type) where
  client : MasterClient R
  lastTimeInMicroSecs : Option Nat

/-- `setup` of `master.cpp`, as far as the client is concerned: `client.begin()`. -/
def masterSetup {R : Type} (us : UdpSetup) (sk : MasterSketch R) : MasterSketch R :=
  { sk with client := sk.client.begin us }

/-- `loop` of `master.cpp`: `currTimeMicroSecs` is the reading of `micros()`,
`firstReading` the reading that initialises the static in the first iteration. -/
def masterLoop {R : Type} (rl : Relay R) (firstReading currTimeMicroSecs : Nat)
    (sk : MasterSketch R) : MasterSketch R :=
  let lastTimeInMicroSecs := sk.lastTimeInMicroSecs.getD firstReading
  let dtMicroSecs := toSizeT ((currTimeMicroSecs : Int) - (lastTimeInMicroSecs : Int))
  { client := sk.client.run rl dtMicroSecs, lastTimeInMicroSecs := some currTimeMicroSecs }

/-- Any number of iterations of `loop`, one per reading of `micros()`. -/
def masterLoops {R : Type} (rl : Relay R) (firstReading : Nat) (readings : List Nat)
    (sk : MasterSketch R) : MasterSketch R :=
  readings.foldl (fun st t => masterLoop rl firstReading t st) sk

/-- An example UDP set-up: data port 20002, multicast address 239.0.0.2, and
library calls that drop the unread bytes of the current packet. -/
def exampleUdpSetup : UdpSetup :=
  { UDP_DATA_PORT := 20002
    dataIP := ⟨239, 0, 0, 2⟩
    begin := fun u _ => { u with rx := [] }
    joinMulticast := fun u _ => u }


/-- The pixel index that `updateLedsFromQueue` passes to `leds.setPixel` at
voxel `(x, y, z)`:
`x*voxelModuleYSize*VOXEL_MODULE_Z_SIZE + z*voxelModuleYSize + y`. -/
def pixelIndex (cfg : Config) (s : State) (x y z : Nat) : Int :=
  (x : Int) * s.voxelModuleYSize * cfg.VOXEL_MODULE_Z_SIZE + (z : Int) * s.voxelModuleYSize + y

/-- The buffer indices that `colourFromBuffer(buffer, startIdx)` reads:
`buffer[startIdx]`, `buffer[startIdx+1]`, `buffer[startIdx+2]`. -/
def colourFromBufferReads (startIdx : Nat) : List Nat := [startIdx, startIdx + 1, startIdx + 2]

/-- One iteration of the innermost loop of `updateLedsFromQueue`, recorded:
`startIdx` is the `bufferIdx` passed to `colourFromBuffer`, `num` the pixel
index passed to `leds.setPixel`. -/
structure RenderCall where
  num : Int
  startIdx : Nat
  deriving DecidableEq

/-- The body of the innermost loop of `updateLedsFromQueue`, recording the call
instead of performing it: the accumulator is `bufferIdx` and the calls made so
far, oldest first. -/
def traceVoxel (cfg : Config) (s : State) (x y : Nat) (acc : Nat × List RenderCall) (z : Nat) :
    Nat × List RenderCall :=
  (acc.1 + 3, acc.2 ++ [⟨pixelIndex cfg s x y z, acc.1⟩])

/-- The `z` loop of `updateLedsFromQueue`, recording. -/
def traceZ (cfg : Config) (s : State) (x : Nat) (acc : Nat × List RenderCall) (y : Nat) :
    Nat × List RenderCall :=
  (List.range cfg.VOXEL_MODULE_Z_SIZE).foldl (traceVoxel cfg s x y) acc

/-- The `y` loop of `updateLedsFromQueue`, recording. -/
def traceY (cfg : Config) (s : State) (acc : Nat × List RenderCall) (x : Nat) :
    Nat × List RenderCall :=
  (List.range s.voxelModuleYSize.toNat).foldl (traceZ cfg s x) acc

/-- The `x` loop of `updateLedsFromQueue`, recording, from `bufferIdx = 0`. -/
def traceX (cfg : Config) (s : State) : Nat × List RenderCall :=
  (List.range cfg.VOXEL_MODULE_X_SIZE).foldl (traceY cfg s) (0, [])

/-- The calls one render makes, in order. -/
def renderTrace (cfg : Config) (s : State) : List RenderCall := (traceX cfg s).2

/-- Performing recorded calls on the strip driver: each call computes the
colour with `colourFromBuffer` at its `startIdx` and stores it with
`leds.setPixel` at its `num`. -/
def replay (buffer : Nat → Byte) (l : Leds) (calls : List RenderCall) : Leds :=
  calls.foldl (fun acc c => acc.setPixel c.num (colourFromBuffer buffer c.startIdx)) l

/-- The pixel indices one render writes, in order. -/
def pixelsWritten (cfg : Config) (s : State) : List Int :=
  (renderTrace cfg s).map (fun c => c.num)

/-- The payload bytes one render reads, in order. -/
def bytesRead (cfg : Config) (s : State) : List Nat :=
  (renderTrace cfg s).flatMap (fun c => colourFromBufferReads c.startIdx)

/-- A small module for examples: 2 x 2 x 2 voxels. -/
def smallConfig : Config :=
  { exampleConfig with VOXEL_MODULE_X_SIZE := 2, VOXEL_MODULE_Z_SIZE := 2 }

/-- The example state after a welcome with `ySize = 2` on the small module. -/
def smallState : State := reinit smallConfig 2 exampleState


/-! ## Properties -/

theorem tmod_six_of_nonneg (a : Int) (h : 0 ≤ a) :
    Int.tmod a LED_BUFFER_QUEUE_SIZE = a % 6 :=
  Int.tmod_eq_emod h (by decide)

/-- An accepted call writes its slot, runs `updateQueue` and records the frame id. -/
theorem run_of_accepted (c : FrameCall) (s : State) (h : c.accepted s) :
    c.run s = { enqueue s (c.written s) with lastKnownFrameId := c.frameId } := by
  cases c with
  | full b sz st f =>
    simp only [FrameCall.accepted] at h
    simp only [FrameCall.run, readFullVoxelData, FrameCall.written, FrameCall.frameId, if_pos h,
      enqueue]
  | wipe b sz st f =>
    simp only [FrameCall.accepted] at h
    simp only [FrameCall.run, readWipeVoxelData, FrameCall.written, FrameCall.frameId, if_pos h,
      enqueue]

theorem runFrames_concat (s : State) (l : List FrameCall) (c : FrameCall) :
    runFrames s (l ++ [c]) = c.run (runFrames s l) := by
  simp [runFrames, List.foldl_append]

theorem runFrames_cons (s : State) (l : List FrameCall) (c : FrameCall) :
    runFrames s (c :: l) = runFrames (c.run s) l := rfl

theorem acceptedRun_concat (s : State) (l : List FrameCall) (c : FrameCall) :
    acceptedRun s (l ++ [c]) ↔ acceptedRun s l ∧ c.accepted (runFrames s l) := by
  induction l generalizing s with
  | nil => simp [acceptedRun, runFrames]
  | cons d l ih =>
    rw [List.cons_append]
    simp only [acceptedRun, ih, runFrames_cons, and_assoc]

theorem slotsWritten_concat (s : State) (l : List FrameCall) (c : FrameCall) :
    slotsWritten s (l ++ [c]) = slotsWritten s l ++ [c.written (runFrames s l)] := by
  induction l generalizing s with
  | nil => simp [slotsWritten, runFrames]
  | cons d l ih =>
    rw [List.cons_append]
    simp only [slotsWritten, ih, runFrames_cons, List.cons_append]

theorem slotsWritten_length (s : State) (l : List FrameCall) :
    (slotsWritten s l).length = l.length := by
  induction l generalizing s with
  | nil => rfl
  | cons d l ih => simp [slotsWritten, ih]

/-- One enqueue step on a ring of `n` frames. -/
theorem enqueue_step (t : State) (w : Nat → Byte) (n : Nat)
    (hc : t.queueCount = ((min n 6 : Nat) : Int))
    (hs : t.queueStartIdx = (((n - min n 6) % 6 : Nat) : Int)) :
    (enqueue t w).queueCount = ((min (n + 1) 6 : Nat) : Int) ∧
    (enqueue t w).queueStartIdx = (((n + 1 - min (n + 1) 6) % 6 : Nat) : Int) ∧
    (enqueue t w).tempLedBufferQueue =
      setSlot t.tempLedBufferQueue ((n % 6 : Nat) : Int) w := by
  have hidx : Int.tmod (t.queueStartIdx + t.queueCount) LED_BUFFER_QUEUE_SIZE
      = ((n % 6 : Nat) : Int) := by
    rw [tmod_six_of_nonneg _ (by rw [hc, hs]; omega), hc, hs]
    rcases Nat.lt_or_ge n 6 with h | h
    · rw [Nat.min_eq_left (by omega)]; omega
    · rw [Nat.min_eq_right h]; omega
  rcases Nat.lt_or_ge n 6 with h | h
  · rw [Nat.min_eq_left (by omega)] at hc hs
    rw [Nat.min_eq_left (by omega : n + 1 ≤ 6)]
    have hle : ¬ (t.queueCount + 1 > LED_BUFFER_QUEUE_SIZE) := by
      rw [hc]; unfold LED_BUFFER_QUEUE_SIZE; omega
    simp only [enqueue, updateQueue, hle, if_false, hidx]
    refine ⟨by rw [hc]; omega, by rw [hs]; omega, trivial⟩
  · rw [Nat.min_eq_right h] at hc hs
    rw [Nat.min_eq_right (by omega : 6 ≤ n + 1)]
    have hgt : t.queueCount + 1 > LED_BUFFER_QUEUE_SIZE := by
      rw [hc]; unfold LED_BUFFER_QUEUE_SIZE; omega
    simp only [enqueue, updateQueue, hgt, if_true, hidx]
    refine ⟨rfl, ?_, trivial⟩
    rw [tmod_six_of_nonneg _ (by rw [hs]; omega), hs]; omega

/-- Ring buffer invariant after a run of accepted calls from an empty queue. -/
theorem ring_after_run (s : State) (hc : s.queueCount = 0) (hs : s.queueStartIdx = 0)
    (l : List FrameCall) (hacc : acceptedRun s l) :
    (runFrames s l).queueCount = ((min l.length 6 : Nat) : Int) ∧
    (runFrames s l).queueStartIdx = (((l.length - min l.length 6) % 6 : Nat) : Int) ∧
    ∀ j, j < l.length → l.length - min l.length 6 ≤ j →
      (slotsWritten s l)[j]? = some ((runFrames s l).tempLedBufferQueue ((j % 6 : Nat) : Int)) := by
  induction l using List.reverseRecOn with
  | nil => simp [runFrames, hc, hs]
  | append_singleton l c ih =>
    rw [acceptedRun_concat] at hacc
    obtain ⟨hl, hcacc⟩ := hacc
    obtain ⟨ihc, ihs, ihq⟩ := ih hl
    rw [runFrames_concat, run_of_accepted c _ hcacc, slotsWritten_concat]
    have hlen : (l ++ [c]).length = l.length + 1 := by simp
    rw [hlen]
    obtain ⟨ec, es, eq⟩ := enqueue_step (runFrames s l) (c.written (runFrames s l)) l.length ihc ihs
    refine ⟨ec, es, ?_⟩
    intro j hj hlo
    show _ = some ((enqueue (runFrames s l) (c.written (runFrames s l))).tempLedBufferQueue _)
    rw [eq]
    rcases Nat.lt_or_ge j l.length with hjl | hjl
    · rw [List.getElem?_append_left (by rw [slotsWritten_length]; exact hjl)]
      have hne : ((j % 6 : Nat) : Int) ≠ ((l.length % 6 : Nat) : Int) := by
        rcases Nat.lt_or_ge (l.length + 1) 6 with h | h
        · rw [Nat.min_eq_left (by omega)] at hlo; omega
        · rw [Nat.min_eq_right h] at hlo; omega
      simp only [setSlot, if_neg hne]
      apply ihq j hjl
      rcases Nat.lt_or_ge l.length 6 with h | h
      · rw [Nat.min_eq_left (by omega)]; omega
      · rw [Nat.min_eq_right h]
        rw [Nat.min_eq_right (by omega)] at hlo; omega
    · have hjeq : j = l.length := by omega
      subst hjeq
      rw [← slotsWritten_length s l, List.getElem?_concat_length]
      simp [setSlot, slotsWritten_length]

theorem updateLedsFromQueue_nonempty (cfg : Config) (t : State) (h : t.queueCount > 0) :
    (updateLedsFromQueue cfg t).2 = true ∧
    (updateLedsFromQueue cfg t).1.queueCount = t.queueCount - 1 ∧
    (updateLedsFromQueue cfg t).1.queueStartIdx =
      Int.tmod (t.queueStartIdx + 1) LED_BUFFER_QUEUE_SIZE ∧
    (updateLedsFromQueue cfg t).1.tempLedBufferQueue = t.tempLedBufferQueue := by
  simp [updateLedsFromQueue, h]

/-- What `k` dequeues read from a ring holding at least `k` frames. -/
theorem dequeueReads_eq (cfg : Config) (k : Nat) (t : State) (a : Nat)
    (hs : t.queueStartIdx = ((a % 6 : Nat) : Int)) (hk : (k : Int) ≤ t.queueCount) :
    dequeueReads cfg k t =
      (List.range k).map (fun i => t.tempLedBufferQueue (((a + i) % 6 : Nat) : Int)) := by
  induction k generalizing t a with
  | zero => rfl
  | succ k ih =>
    obtain ⟨h1, h2, h3, h4⟩ := updateLedsFromQueue_nonempty cfg t (by omega)
    rw [dequeueReads, if_pos h1, List.range_succ_eq_map, List.map_cons, List.map_map]
    have hs2 : (updateLedsFromQueue cfg t).1.queueStartIdx = (((a + 1) % 6 : Nat) : Int) := by
      rw [h3, tmod_six_of_nonneg _ (by omega), hs]; omega
    rw [ih _ (a + 1) hs2 (by omega), h4, hs]
    have hfun : ((fun i => t.tempLedBufferQueue (((a + i) % 6 : Nat) : Int)) ∘ Nat.succ)
        = fun i => t.tempLedBufferQueue (((a + 1 + i) % 6 : Nat) : Int) := by
      funext i
      simp only [Function.comp, Nat.succ_eq_add_one]
      rw [show a + (i + 1) = a + 1 + i by omega]
    rw [hfun]
    rfl

/-- C1: ring buffer FIFO with oldest-eviction.  From an emptied queue
(`clearQueue`), after any sequence of `n` accepted frame reader calls with no
dequeue in between, `queueCount = min n 6`, and the next `min n 6` calls of
`updateLedsFromQueue` all return `true` and read, in arrival order, exactly the
slot contents written by the last `min n 6` calls. -/
theorem ring_buffer_fifo (cfg : Config) (s : State) (calls : List FrameCall)
    (hacc : acceptedRun (clearQueue s) calls) :
    (runFrames (clearQueue s) calls).queueCount = ((min calls.length 6 : Nat) : Int) ∧
    dequeueReads cfg (min calls.length 6) (runFrames (clearQueue s) calls) =
      (slotsWritten (clearQueue s) calls).drop (calls.length - min calls.length 6) := by
  obtain ⟨hc, hs, hq⟩ := ring_after_run (clearQueue s) rfl rfl calls hacc
  refine ⟨hc, ?_⟩
  have hs2 : (runFrames (clearQueue s) calls).queueStartIdx
      = ((((calls.length - min calls.length 6)) % 6 : Nat) : Int) := hs
  rw [dequeueReads_eq cfg _ _ (calls.length - min calls.length 6) hs2 (by rw [hc])]
  apply List.ext_getElem?
  intro i
  rw [List.getElem?_drop, List.getElem?_map]
  rcases Nat.lt_or_ge i (min calls.length 6) with hi | hi
  · rw [List.getElem?_range hi, hq _ (by omega) (by omega)]
    rfl
  · rw [List.getElem?_eq_none (by simpa using hi),
      List.getElem?_eq_none (by rw [slotsWritten_length]; omega)]
    rfl

/-- C1 witness: eight accepted full frames numbered 1..8 leave `queueCount = 6`,
and the six dequeues read the frames 3, 4, 5, 6, 7, 8. -/
theorem ring_buffer_fifo_witness :
    (runFrames (clearQueue exampleState) exampleCalls).queueCount = 6 ∧
    (dequeueReads exampleConfig 6 (runFrames (clearQueue exampleState) exampleCalls)).map
      (fun slot => (slot 0, slot 1535)) = [(3, 3), (4, 4), (5, 5), (6, 6), (7, 7), (8, 8)] := by
  have hacc : acceptedRun (clearQueue exampleState) exampleCalls := by
    decide
  have h := ring_buffer_fifo exampleConfig exampleState exampleCalls hacc
  refine ⟨h.1, ?_⟩
  have h2 : dequeueReads exampleConfig 6 (runFrames (clearQueue exampleState) exampleCalls) =
      List.drop 2 (slotsWritten (clearQueue exampleState) exampleCalls) := h.2
  rw [h2]
  decide

theorem tmod_succ_ne (a : Int) : Int.tmod (a + 1) LED_BUFFER_QUEUE_SIZE ≠ a := by
  intro h
  have := Int.tmod_add_tdiv (a + 1) LED_BUFFER_QUEUE_SIZE
  unfold LED_BUFFER_QUEUE_SIZE at *
  omega

/-- `updateQueue` always moves the ring: the count or the start index changes. -/
theorem updateQueue_moves (t : State) :
    (updateQueue t).queueCount ≠ t.queueCount ∨ (updateQueue t).queueStartIdx ≠ t.queueStartIdx := by
  unfold updateQueue
  by_cases h : t.queueCount + 1 > LED_BUFFER_QUEUE_SIZE
  · right
    simp only [h, if_true]
    exact tmod_succ_ne _
  · left
    simp only [h, if_false]
    omega

theorem enqueue_moves (s : State) (slot : Nat → Byte) :
    (enqueue s slot).queueCount ≠ s.queueCount ∨
      (enqueue s slot).queueStartIdx ≠ s.queueStartIdx := by
  unfold enqueue
  exact updateQueue_moves _

theorem enqueue_ne (s : State) (slot : Nat → Byte) (f : Int) :
    ({ enqueue s slot with lastKnownFrameId := f } : State) ≠ s := by
  intro h
  have hc : (enqueue s slot).queueCount = s.queueCount := by
    have := congrArg State.queueCount h
    exact this
  have hs : (enqueue s slot).queueStartIdx = s.queueStartIdx := by
    have := congrArg State.queueStartIdx h
    exact this
  rcases enqueue_moves s slot with h1 | h1
  · exact h1 hc
  · exact h1 hs

/-- C2: frame sequencer acceptance rule.  When the size test of the reader
holds, a frame with id `f` is enqueued if and only if `(f > 0 and f < 256)` or
`f > lastKnownFrameId`; an accepted frame is written to the slot
`(queueStartIdx + queueCount) % 6`, `updateQueue` runs and `lastKnownFrameId`
becomes `f`; a rejected frame leaves the whole state unchanged.  This holds for
`readFullVoxelData` and for `readWipeVoxelData`. -/
theorem frame_sequencer_rule (buffer : Nat → Byte) (size startIdx : Nat) (f : Int) (s : State) :
    (toInt size ≥ 3 * s.ledsPerModule →
      (readFullVoxelData buffer size startIdx f s ≠ s ↔
        ((f > 0 ∧ f < 256) ∨ f > s.lastKnownFrameId)) ∧
      (((f > 0 ∧ f < 256) ∨ f > s.lastKnownFrameId) →
        readFullVoxelData buffer size startIdx f s =
          { enqueue s (FrameCall.written (.full buffer size startIdx f) s)
            with lastKnownFrameId := f } ∧
        (readFullVoxelData buffer size startIdx f s).lastKnownFrameId = f) ∧
      (¬ ((f > 0 ∧ f < 256) ∨ f > s.lastKnownFrameId) →
        readFullVoxelData buffer size startIdx f s = s)) ∧
    (size > 2 →
      (readWipeVoxelData buffer size startIdx f s ≠ s ↔
        ((f > 0 ∧ f < 256) ∨ f > s.lastKnownFrameId)) ∧
      (((f > 0 ∧ f < 256) ∨ f > s.lastKnownFrameId) →
        readWipeVoxelData buffer size startIdx f s =
          { enqueue s (FrameCall.written (.wipe buffer size startIdx f) s)
            with lastKnownFrameId := f } ∧
        (readWipeVoxelData buffer size startIdx f s).lastKnownFrameId = f) ∧
      (¬ ((f > 0 ∧ f < 256) ∨ f > s.lastKnownFrameId) →
        readWipeVoxelData buffer size startIdx f s = s)) := by
  constructor
  · intro hsize
    have hacc : ((f > 0 ∧ f < 256) ∨ f > s.lastKnownFrameId) →
        readFullVoxelData buffer size startIdx f s =
          { enqueue s (FrameCall.written (.full buffer size startIdx f) s)
            with lastKnownFrameId := f } :=
      fun hr => run_of_accepted (.full buffer size startIdx f) s ⟨hsize, hr⟩
    have hrej : ¬ ((f > 0 ∧ f < 256) ∨ f > s.lastKnownFrameId) →
        readFullVoxelData buffer size startIdx f s = s := by
      intro hr
      simp only [readFullVoxelData, hr, and_false, if_false]
    refine ⟨⟨fun hne => ?_, fun hr => ?_⟩, fun hr => ⟨hacc hr, ?_⟩, hrej⟩
    · by_contra hr
      exact hne (hrej hr)
    · rw [hacc hr]
      exact enqueue_ne _ _ _
    · rw [hacc hr]
  · intro hsize
    have hacc : ((f > 0 ∧ f < 256) ∨ f > s.lastKnownFrameId) →
        readWipeVoxelData buffer size startIdx f s =
          { enqueue s (FrameCall.written (.wipe buffer size startIdx f) s)
            with lastKnownFrameId := f } :=
      fun hr => run_of_accepted (.wipe buffer size startIdx f) s ⟨hsize, hr⟩
    have hrej : ¬ ((f > 0 ∧ f < 256) ∨ f > s.lastKnownFrameId) →
        readWipeVoxelData buffer size startIdx f s = s := by
      intro hr
      simp only [readWipeVoxelData, hr, and_false, if_false]
    refine ⟨⟨fun hne => ?_, fun hr => ?_⟩, fun hr => ⟨hacc hr, ?_⟩, hrej⟩
    · by_contra hr
      exact hne (hrej hr)
    · rw [hacc hr]
      exact enqueue_ne _ _ _
    · rw [hacc hr]

/-- C2 witness: from `lastKnownFrameId = 500`, the id 5 is accepted and
`lastKnownFrameId` becomes 5, while the id 400 is rejected and leaves the state
as it was. -/
theorem frame_sequencer_rule_witness :
    (readFullVoxelData (fun _ => 9) 1536 0 5
        { exampleState with lastKnownFrameId := 500 }).lastKnownFrameId = 5 ∧
    (readFullVoxelData (fun _ => 9) 1536 0 5
        { exampleState with lastKnownFrameId := 500 }).queueCount = 1 ∧
    readFullVoxelData (fun _ => 9) 1536 0 400 { exampleState with lastKnownFrameId := 500 } =
      { exampleState with lastKnownFrameId := 500 } ∧
    readWipeVoxelData (fun _ => 9) 3 0 400 { exampleState with lastKnownFrameId := 500 } =
      { exampleState with lastKnownFrameId := 500 } := by
  have h5 := (frame_sequencer_rule (fun _ => 9) 1536 0 5
    { exampleState with lastKnownFrameId := 500 }).1 (by decide)
  have h400 := frame_sequencer_rule (fun _ => 9) 1536 0 400
    { exampleState with lastKnownFrameId := 500 }
  have hw := frame_sequencer_rule (fun _ => 9) 3 0 400
    { exampleState with lastKnownFrameId := 500 }
  refine ⟨(h5.2.1 (by decide)).2, ?_, (h400.1 (by decide)).2.2 (by decide),
    (hw.2 (by decide)).2.2 (by decide)⟩
  rw [(h5.2.1 (by decide)).1]
  decide

theorem toSizeT_of_lt (v : Int) (h0 : 0 ≤ v) (h1 : v < 4294967296) : ((toSizeT v : Nat) : Int) = v := by
  unfold toSizeT
  omega

theorem getFrameId_eq (buffer : Nat → Byte) (size : Nat) (h : 3 < size) :
    getFrameId buffer size = 256 * ((buffer 2).val : Int) + ((buffer 3).val : Int) := by
  have h2 := (buffer 2).isLt
  have h3 := (buffer 3).isLt
  simp only [getFrameId, gt_iff_lt, h, if_true, Nat.shiftLeft_eq]
  omega

/-- C3: full-frame decode.  A packet for this slave with the full-frame tag and
at least `3 * ledsPerModule` bytes after its 4-byte header (its size fitting an
`int`) is handed to `readFullVoxelData` with the big-endian frame id
`256 * byte2 + byte3`, which lies in `[0, 65535]`; if the sequencer rule accepts
that id, the slot `(queueStartIdx + queueCount) % 6` of the pre-state afterwards
holds the packet bytes `4 .. 4 + 3 * ledsPerModule - 1` in its first
`3 * ledsPerModule` positions and `lastKnownFrameId` is that id. -/
theorem full_frame_decode (cfg : Config) (buffer : Nat → Byte) (size : Nat) (s : State)
    (hid : ((buffer 0).val : Int) = MY_SLAVE_ID) (htag : buffer 1 = cfg.VOXEL_DATA_ALL_TYPE)
    (hhdr : 4 ≤ size) (hlen : 3 * s.ledsPerModule ≤ (size : Int) - 4)
    (hfit : size < 2147483648) :
    getFrameId buffer size = 256 * ((buffer 2).val : Int) + ((buffer 3).val : Int) ∧
    0 ≤ getFrameId buffer size ∧ getFrameId buffer size ≤ 65535 ∧
    onSerialPacketReceived cfg true buffer size s =
      readFullVoxelData buffer (size - 4) 4 (getFrameId buffer size) s ∧
    (((getFrameId buffer size > 0 ∧ getFrameId buffer size < 256) ∨
        getFrameId buffer size > s.lastKnownFrameId) →
      (onSerialPacketReceived cfg true buffer size s).lastKnownFrameId = getFrameId buffer size ∧
      ∀ k : Nat, (k : Int) < 3 * s.ledsPerModule →
        (onSerialPacketReceived cfg true buffer size s).tempLedBufferQueue
          (Int.tmod (s.queueStartIdx + s.queueCount) LED_BUFFER_QUEUE_SIZE) k = buffer (4 + k)) := by
  have hf := getFrameId_eq buffer size (by omega)
  have h2 := (buffer 2).isLt
  have h3 := (buffer 3).isLt
  have hsub : sizeSub size 4 = size - 4 := by
    unfold sizeSub toSizeT
    omega
  have hdisp : onSerialPacketReceived cfg true buffer size s =
      readFullVoxelData buffer (size - 4) 4 (getFrameId buffer size) s := by
    have hne : ¬ (cfg.VOXEL_DATA_ALL_TYPE = cfg.WELCOME_HEADER) := fun h => cfg.welcome_ne_all h.symm
    have hsz : size > 2 := by omega
    simp only [onSerialPacketReceived, hsz, hid, htag, hne, hsub, and_self, if_true, if_false,
      ne_eq, not_true_eq_false]
  refine ⟨hf, by omega, by omega, hdisp, ?_⟩
  intro hrule
  have hcond : toInt (size - 4) ≥ 3 * s.ledsPerModule := by
    unfold toInt
    have : (size - 4) % 4294967296 = size - 4 := Nat.mod_eq_of_lt (by omega)
    rw [this, if_pos (by omega)]
    omega
  rw [hdisp]
  have hrun := run_of_accepted (.full buffer (size - 4) 4 (getFrameId buffer size)) s ⟨hcond, hrule⟩
  simp only [FrameCall.run] at hrun
  rw [hrun]
  refine ⟨rfl, ?_⟩
  intro k hk
  have hk2 : k < toSizeT (3 * s.ledsPerModule) := by
    have := toSizeT_of_lt (3 * s.ledsPerModule) (by omega) (by omega)
    omega
  have hq : (enqueue s (FrameCall.written (.full buffer (size - 4) 4 (getFrameId buffer size)) s)).tempLedBufferQueue
      = setSlot s.tempLedBufferQueue (Int.tmod (s.queueStartIdx + s.queueCount) LED_BUFFER_QUEUE_SIZE)
          (FrameCall.written (.full buffer (size - 4) 4 (getFrameId buffer size)) s) := by
    unfold enqueue updateQueue
    dsimp only
    split <;> rfl
  show (enqueue s _).tempLedBufferQueue _ k = _
  rw [hq]
  simp only [setSlot, if_true, FrameCall.written, memcpy, hk2]

/-- C3 witness: the full-frame packet for slave 0 with frame id 7 and a
full-size payload, received while `lastKnownFrameId = -1`, is accepted:
`lastKnownFrameId` becomes 7 and slot 0 holds the payload unchanged. -/
theorem full_frame_decode_witness :
    (onSerialPacketReceived exampleConfig true exampleFullPacket 1540
        exampleState).lastKnownFrameId = 7 ∧
    ∀ k : Nat, (k : Int) < 3 * 512 →
      (onSerialPacketReceived exampleConfig true exampleFullPacket 1540
        exampleState).tempLedBufferQueue 0 k = exampleFullPacket (4 + k) := by
  have h := full_frame_decode exampleConfig exampleFullPacket 1540 exampleState
    (by decide) (by decide) (by decide) (by decide) (by decide)
  have hid : getFrameId exampleFullPacket 1540 = 7 := by decide
  rw [hid] at h
  exact h.2.2.2.2 (by decide)

/-- The bytes the wipe loop writes: from counter value `i` on, the offsets
below `i + 3 * ceil((ledsPerModule - i) / 3)` receive the colour triple, every
other offset keeps its byte. -/
theorem wipeLoop_spec (buffer : Nat → Byte) (startIdx : Nat) (ledsPerModule : Int) :
    ∀ (fuel i : Nat) (cur : Nat → Byte) (k : Nat), ledsPerModule - i ≤ 3 * fuel →
      wipeLoop buffer startIdx ledsPerModule fuel i cur k =
        if i ≤ k ∧ (k : Int) < i + 3 * ((ledsPerModule - i + 2) / 3)
        then buffer (startIdx + (k - i) % 3) else cur k := by
  intro fuel
  induction fuel with
  | zero =>
    intro i cur k h
    have : ¬ (i ≤ k ∧ (k : Int) < i + 3 * ((ledsPerModule - i + 2) / 3)) := by omega
    rw [if_neg this]
    rfl
  | succ fuel ih =>
    intro i cur k h
    unfold wipeLoop
    by_cases hlt : (i : Int) < ledsPerModule
    · rw [if_pos hlt]
      dsimp only
      rw [ih (i + 3) _ k (by push_cast; omega)]
      by_cases h3 : i + 3 ≤ k
      · by_cases hup : (k : Int) < ((i + 3 : Nat) : Int) + 3 * ((ledsPerModule - ((i + 3 : Nat) : Int) + 2) / 3)
        · rw [if_pos ⟨h3, hup⟩, if_pos ⟨by omega, by push_cast at hup; omega⟩]
          congr 1
          omega
        · rw [if_neg (fun hh => hup hh.2), if_neg (fun hh => hup (by push_cast; omega))]
          rw [if_neg (by omega), if_neg (by omega), if_neg (by omega)]
      · rw [if_neg (fun hh => h3 hh.1)]
        by_cases hk2 : k = i + 2
        · rw [if_pos hk2, if_pos ⟨by omega, by omega⟩]
          congr 1
          omega
        · rw [if_neg hk2]
          by_cases hk1 : k = i + 1
          · rw [if_pos hk1, if_pos ⟨by omega, by omega⟩]
            congr 1
            omega
          · rw [if_neg hk1]
            by_cases hk0 : k = i
            · rw [if_pos hk0, if_pos ⟨by omega, by omega⟩]
              congr 1
              omega
            · rw [if_neg hk0, if_neg (by omega)]
    · rw [if_neg hlt, if_neg (by omega)]

/-- An accepted wipe frame fills only the offsets below
`3 * ceil(ledsPerModule / 3)` of its slot with the colour triple; the bytes from
there up to `3 * ledsPerModule` keep what the slot held before. -/
theorem wipe_written (buffer : Nat → Byte) (size startIdx : Nat) (f : Int) (s : State)
    (k : Nat) :
    FrameCall.written (.wipe buffer size startIdx f) s k =
      if (k : Int) < 3 * ((s.ledsPerModule + 2) / 3) then buffer (startIdx + k % 3)
      else s.tempLedBufferQueue
        (Int.tmod (s.queueStartIdx + s.queueCount) LED_BUFFER_QUEUE_SIZE) k := by
  simp only [FrameCall.written]
  rw [wipeLoop_spec buffer startIdx s.ledsPerModule s.ledsPerModule.toNat 0 _ k (by omega)]
  simp

set_option maxRecDepth 100000 in
/-- C4 (evaluation at the failing input): under `exampleConfig` with
`ledsPerModule = 512`, the wipe packet with colour (255, 255, 255) and frame id
1 is accepted (`lastKnownFrameId` becomes 1, `queueCount` becomes 1), but in the
enqueued slot only the offsets `0 .. 512` carry the colour: the triple number
171 (offsets 513, 514, 515) and the last triple (offsets 1533, 1534, 1535)
still hold the old bytes 0. -/
theorem wipe_frame_partial_fill :
    exampleState.ledsPerModule = 512 ∧
    (onSerialPacketReceived exampleConfig true exampleWipePacket 7
      exampleState).lastKnownFrameId = 1 ∧
    (onSerialPacketReceived exampleConfig true exampleWipePacket 7 exampleState).queueCount = 1 ∧
    [0, 1, 2, 510, 511, 512, 513, 514, 515, 1533, 1534, 1535].map
      ((onSerialPacketReceived exampleConfig true exampleWipePacket 7
        exampleState).tempLedBufferQueue 0) =
      [255, 255, 255, 255, 255, 255, 0, 0, 0, 0, 0, 0] := by
  decide

/-- C5 (evaluation at the failing input): a wipe packet of total size 3 has no
frame id bytes and no colour bytes, yet `size - 4` wraps to `4294967295`, the
test `size > 2` of `readWipeVoxelData` passes, the frame id is taken as 0, and
with `lastKnownFrameId = -1` the frame is enqueued: `lastKnownFrameId` and
`queueCount` change. -/
theorem short_wipe_packet_accepted :
    sizeSub 3 4 = 4294967295 ∧
    exampleState.lastKnownFrameId = -1 ∧ exampleState.queueCount = 0 ∧
    (onSerialPacketReceived exampleConfig true exampleShortWipePacket 3
      exampleState).lastKnownFrameId = 0 ∧
    (onSerialPacketReceived exampleConfig true exampleShortWipePacket 3
      exampleState).queueCount = 1 := by
  decide

/-- The bad packets that do leave the state alone: an unknown tag, a full frame
with fewer than `3 * ledsPerModule` bytes after the header, and a wipe frame
with fewer than 3 bytes after the header unless the packet has exactly 3 bytes
while `lastKnownFrameId` is negative. -/
theorem bad_packet_no_change (cfg : Config) (sender : Bool) (buffer : Nat → Byte) (size : Nat)
    (s : State) (hsz : size < 4294967296)
    (hbad : (buffer 1 ≠ cfg.WELCOME_HEADER ∧ buffer 1 ≠ cfg.VOXEL_DATA_ALL_TYPE ∧
              buffer 1 ≠ cfg.VOXEL_DATA_CLEAR_TYPE) ∨
            (buffer 1 = cfg.VOXEL_DATA_ALL_TYPE ∧ ((size - 4 : Nat) : Int) < 3 * s.ledsPerModule) ∨
            (buffer 1 = cfg.VOXEL_DATA_CLEAR_TYPE ∧ size - 4 < 3 ∧
              (size ≠ 3 ∨ 0 ≤ s.lastKnownFrameId))) :
    onSerialPacketReceived cfg sender buffer size s = s := by
  unfold onSerialPacketReceived
  by_cases hguard : sender = true ∧ size > 2
  swap
  · rw [if_neg hguard]
  rw [if_pos hguard]
  dsimp only
  by_cases hid : ((buffer 0).val : Int) ≠ MY_SLAVE_ID
  · rw [if_pos hid]
  rw [if_neg hid]
  rcases hbad with ⟨hw, ha, hc⟩ | ⟨ha, hlen⟩ | ⟨hc, hlen, hex⟩
  · rw [if_neg hw, if_neg ha, if_neg hc]
  · have hw : buffer 1 ≠ cfg.WELCOME_HEADER := by
      rw [ha]
      exact fun h => cfg.welcome_ne_all h.symm
    rw [if_neg hw, if_pos ha]
    have hcond : ¬ (toInt (sizeSub size 4) ≥ 3 * s.ledsPerModule) := by
      unfold sizeSub toSizeT toInt
      split <;> omega
    rw [readFullVoxelData, if_neg (fun h => hcond h.1)]
  · have hw : buffer 1 ≠ cfg.WELCOME_HEADER := by
      rw [hc]
      exact fun h => cfg.welcome_ne_clear h.symm
    have ha : buffer 1 ≠ cfg.VOXEL_DATA_ALL_TYPE := by
      rw [hc]
      exact fun h => cfg.all_ne_clear h.symm
    rw [if_neg hw, if_neg ha, if_pos hc]
    by_cases h3 : size = 3
    · have hlast : 0 ≤ s.lastKnownFrameId := by
        rcases hex with h | h
        · exact absurd h3 h
        · exact h
      have hf : getFrameId buffer size = 0 := by
        simp [getFrameId, h3]
      have hrule : ¬ ((getFrameId buffer size > 0 ∧ getFrameId buffer size < 256) ∨
          getFrameId buffer size > s.lastKnownFrameId) := by
        rw [hf]
        omega
      rw [readWipeVoxelData, if_neg (fun h => hrule h.2)]
    · have hcond : ¬ (sizeSub size 4 > 2) := by
        unfold sizeSub toSizeT
        omega
      rw [readWipeVoxelData, if_neg (fun h => hcond h.1)]

/-- What `reinit` does to the globals: the sequencer and the queue are always
reset; the geometry is replaced exactly when the new y-size differs from the
current one and does not exceed `MAX_VOXEL_Y_SIZE`. -/
theorem reinit_fields (cfg : Config) (y : Byte) (s : State) :
    (reinit cfg y s).lastKnownFrameId = -1 ∧
    (reinit cfg y s).queueCount = 0 ∧
    (reinit cfg y s).queueStartIdx = 0 ∧
    (reinit cfg y s).tempLedBufferQueue = s.tempLedBufferQueue ∧
    (((y.val : Int) ≠ s.voxelModuleYSize ∧ y.val ≤ cfg.MAX_VOXEL_Y_SIZE) →
      (reinit cfg y s).voxelModuleYSize = (y.val : Int) ∧
      (reinit cfg y s).ledsPerStrip = (y.val : Int) * cfg.VOXEL_MODULE_Z_SIZE ∧
      (reinit cfg y s).ledsPerModule =
        cfg.VOXEL_MODULE_X_SIZE * (y.val : Int) * cfg.VOXEL_MODULE_Z_SIZE) ∧
    (¬ ((y.val : Int) ≠ s.voxelModuleYSize ∧ y.val ≤ cfg.MAX_VOXEL_Y_SIZE) →
      (reinit cfg y s).voxelModuleYSize = s.voxelModuleYSize ∧
      (reinit cfg y s).ledsPerStrip = s.ledsPerStrip ∧
      (reinit cfg y s).ledsPerModule = s.ledsPerModule) := by
  by_cases h : (y.val : Int) ≠ s.voxelModuleYSize ∧ y.val ≤ cfg.MAX_VOXEL_Y_SIZE
  · have key : reinit cfg y s = _ := if_pos h
    rw [key]
    exact ⟨rfl, rfl, rfl, rfl, fun _ => ⟨rfl, rfl, rfl⟩, fun hn => absurd h hn⟩
  · have key : reinit cfg y s = _ := if_neg h
    rw [key]
    exact ⟨rfl, rfl, rfl, rfl, fun hp => absurd hp h, fun _ => ⟨rfl, rfl, rfl⟩⟩

/-- What `readWelcomeHeader` does to the geometry: it is the geometry after
`reinit` when the header carries a non-zero y-size byte, and is unchanged
otherwise; the sequencer and the queue are reset in every case. -/
theorem readWelcomeHeader_fields (cfg : Config) (buffer : Nat → Byte) (size startIdx : Nat)
    (s : State) :
    (readWelcomeHeader cfg buffer size startIdx s).lastKnownFrameId = -1 ∧
    (readWelcomeHeader cfg buffer size startIdx s).queueCount = 0 ∧
    (readWelcomeHeader cfg buffer size startIdx s).queueStartIdx = 0 ∧
    ((size ≥ 1 ∧ (buffer startIdx).val > 0) →
      (readWelcomeHeader cfg buffer size startIdx s).voxelModuleYSize =
        (reinit cfg (buffer startIdx) s).voxelModuleYSize ∧
      (readWelcomeHeader cfg buffer size startIdx s).ledsPerStrip =
        (reinit cfg (buffer startIdx) s).ledsPerStrip ∧
      (readWelcomeHeader cfg buffer size startIdx s).ledsPerModule =
        (reinit cfg (buffer startIdx) s).ledsPerModule) ∧
    (¬ (size ≥ 1 ∧ (buffer startIdx).val > 0) →
      (readWelcomeHeader cfg buffer size startIdx s).voxelModuleYSize = s.voxelModuleYSize ∧
      (readWelcomeHeader cfg buffer size startIdx s).ledsPerStrip = s.ledsPerStrip ∧
      (readWelcomeHeader cfg buffer size startIdx s).ledsPerModule = s.ledsPerModule) := by
  refine ⟨rfl, rfl, rfl, fun h => ?_, fun h => ?_⟩
  · simp only [readWelcomeHeader, clearQueue, h.1, h.2, if_true, and_self]
  · by_cases h1 : size ≥ 1
    · have h2 : ¬ ((buffer startIdx).val > 0) := fun h2 => h ⟨h1, h2⟩
      simp only [readWelcomeHeader, clearQueue, h1, h2, if_true, if_false, and_self]
    · simp only [readWelcomeHeader, clearQueue, h1, if_false, and_self]

/-- C6 (counterexample): `reinit(0)` does not keep a non-zero
`voxelModuleYSize`: from `voxelModuleYSize = 8` it sets the y-size and both led
counts to 0. -/
theorem reinit_zero_overwrites :
    exampleState.voxelModuleYSize = 8 ∧
    ¬ (∀ (cfg : Config) (s : State),
        (reinit cfg 0 s).voxelModuleYSize = s.voxelModuleYSize ∧
        (reinit cfg 0 s).ledsPerStrip = s.ledsPerStrip ∧
        (reinit cfg 0 s).ledsPerModule = s.ledsPerModule) := by
  refine ⟨by decide, fun h => ?_⟩
  have h1 := (h exampleConfig exampleState).1
  revert h1
  decide

/-- C6 (amended): `reinit` has no zero test of its own.  `reinit(0)` keeps
`voxelModuleYSize`, `ledsPerStrip` and `ledsPerModule` when `voxelModuleYSize`
is already 0, and sets all three to 0 when it is not.  The zero y-size is
rejected one level up: `readWelcomeHeader` does not call `reinit` for a zero
y-size byte and leaves the three values as they were. -/
theorem reinit_zero_amended (cfg : Config) (s : State) :
    (s.voxelModuleYSize = 0 →
      (reinit cfg 0 s).voxelModuleYSize = s.voxelModuleYSize ∧
      (reinit cfg 0 s).ledsPerStrip = s.ledsPerStrip ∧
      (reinit cfg 0 s).ledsPerModule = s.ledsPerModule) ∧
    (s.voxelModuleYSize ≠ 0 →
      (reinit cfg 0 s).voxelModuleYSize = 0 ∧
      (reinit cfg 0 s).ledsPerStrip = 0 ∧
      (reinit cfg 0 s).ledsPerModule = 0) ∧
    (∀ (buffer : Nat → Byte) (size startIdx : Nat), (buffer startIdx).val = 0 →
      (readWelcomeHeader cfg buffer size startIdx s).voxelModuleYSize = s.voxelModuleYSize ∧
      (readWelcomeHeader cfg buffer size startIdx s).ledsPerStrip = s.ledsPerStrip ∧
      (readWelcomeHeader cfg buffer size startIdx s).ledsPerModule = s.ledsPerModule) := by
  obtain ⟨_, _, _, _, hpos, hneg⟩ := reinit_fields cfg 0 s
  refine ⟨fun h0 => hneg (fun h => h.1 (by rw [h0]; rfl)), fun hne => ?_,
    fun buffer size startIdx hb => ?_⟩
  · have h := hpos ⟨fun h => hne h.symm, Nat.zero_le _⟩
    simpa using h
  · exact (readWelcomeHeader_fields cfg buffer size startIdx s).2.2.2.2 (by omega)

/-- C6 witness of the amended statement: from `voxelModuleYSize = 8`,
`reinit(0)` yields the y-size 0, and a welcome header with y-size byte 0 keeps
the y-size 8. -/
theorem reinit_zero_amended_witness :
    (reinit exampleConfig 0 exampleState).voxelModuleYSize = 0 ∧
    (readWelcomeHeader exampleConfig (exampleWelcomePacket 0) 1 2 exampleState).voxelModuleYSize
      = 8 ∧
    (reinit exampleConfig 0 initState).voxelModuleYSize = initState.voxelModuleYSize := by
  have h := reinit_zero_amended exampleConfig exampleState
  have h0 := reinit_zero_amended exampleConfig initState
  exact ⟨(h.2.1 (by decide)).1, (h.2.2 (exampleWelcomePacket 0) 1 2 (by decide)).1,
    (h0.1 (by decide)).1⟩

/-- A welcome packet for this slave is handed to `readWelcomeHeader` with the
size `size - 2` and the start index 2. -/
theorem welcome_dispatch (cfg : Config) (buffer : Nat → Byte) (size : Nat) (s : State)
    (hsize : 2 < size) (hid : ((buffer 0).val : Int) = MY_SLAVE_ID)
    (htag : buffer 1 = cfg.WELCOME_HEADER) :
    onSerialPacketReceived cfg true buffer size s =
      readWelcomeHeader cfg buffer (sizeSub size 2) 2 s := by
  have hsz : size > 2 := hsize
  simp only [onSerialPacketReceived, hsz, hid, htag, and_self, if_true, if_false, ne_eq,
    not_true_eq_false]

/-- C7: valid reinit.  For a y-size `y` with `0 < y <= MAX_VOXEL_Y_SIZE` that
differs from `voxelModuleYSize`, after `reinit(y)`, and likewise after a welcome
packet for this slave that carries `y`, the geometry is that of `y`
(`voxelModuleYSize = y`, `ledsPerStrip = y * VOXEL_MODULE_Z_SIZE`,
`ledsPerModule = VOXEL_MODULE_X_SIZE * y * VOXEL_MODULE_Z_SIZE`), the queue is
empty (`queueCount = 0`, `queueStartIdx = 0`), `lastKnownFrameId = -1`, and
`updateLedsFromQueue` dequeues nothing. -/
theorem valid_reinit (cfg : Config) (y : Byte) (s : State) (hpos : 0 < y.val)
    (hmax : y.val ≤ cfg.MAX_VOXEL_Y_SIZE) (hne : (y.val : Int) ≠ s.voxelModuleYSize) :
    ((reinit cfg y s).voxelModuleYSize = (y.val : Int) ∧
      (reinit cfg y s).ledsPerStrip = (y.val : Int) * cfg.VOXEL_MODULE_Z_SIZE ∧
      (reinit cfg y s).ledsPerModule =
        cfg.VOXEL_MODULE_X_SIZE * (y.val : Int) * cfg.VOXEL_MODULE_Z_SIZE ∧
      (reinit cfg y s).queueCount = 0 ∧
      (reinit cfg y s).queueStartIdx = 0 ∧
      (reinit cfg y s).lastKnownFrameId = -1 ∧
      updateLedsFromQueue cfg (reinit cfg y s) = (reinit cfg y s, false)) ∧
    (∀ (buffer : Nat → Byte) (size : Nat), 2 < size → size < 4294967296 →
      ((buffer 0).val : Int) = MY_SLAVE_ID → buffer 1 = cfg.WELCOME_HEADER → buffer 2 = y →
      (onSerialPacketReceived cfg true buffer size s).voxelModuleYSize = (y.val : Int) ∧
      (onSerialPacketReceived cfg true buffer size s).ledsPerStrip =
        (y.val : Int) * cfg.VOXEL_MODULE_Z_SIZE ∧
      (onSerialPacketReceived cfg true buffer size s).ledsPerModule =
        cfg.VOXEL_MODULE_X_SIZE * (y.val : Int) * cfg.VOXEL_MODULE_Z_SIZE ∧
      (onSerialPacketReceived cfg true buffer size s).queueCount = 0 ∧
      (onSerialPacketReceived cfg true buffer size s).queueStartIdx = 0 ∧
      (onSerialPacketReceived cfg true buffer size s).lastKnownFrameId = -1 ∧
      updateLedsFromQueue cfg (onSerialPacketReceived cfg true buffer size s) =
        (onSerialPacketReceived cfg true buffer size s, false)) := by
  obtain ⟨hl, hc, hs, _, hgeo, _⟩ := reinit_fields cfg y s
  obtain ⟨g1, g2, g3⟩ := hgeo ⟨hne, hmax⟩
  have hempty : ∀ t : State, t.queueCount = 0 → updateLedsFromQueue cfg t = (t, false) := by
    intro t ht
    have : ¬ (t.queueCount > 0) := by omega
    simp only [updateLedsFromQueue, this, if_false]
  refine ⟨⟨g1, g2, g3, hc, hs, hl, hempty _ hc⟩, ?_⟩
  intro buffer size hsize hfit hid htag hy
  rw [welcome_dispatch cfg buffer size s hsize hid htag]
  obtain ⟨wl, wc, ws, wgeo, _⟩ := readWelcomeHeader_fields cfg buffer (sizeSub size 2) 2 s
  have hsub : sizeSub size 2 ≥ 1 := by
    unfold sizeSub toSizeT
    omega
  obtain ⟨w1, w2, w3⟩ := wgeo ⟨hsub, by rw [hy]; exact hpos⟩
  rw [hy] at w1 w2 w3
  exact ⟨w1.trans g1, w2.trans g2, w3.trans g3, wc, ws, wl, hempty _ wc⟩

/-- C7 witness: `reinit(5)` from `voxelModuleYSize = 8` under `exampleConfig`
gives `voxelModuleYSize = 5`, `ledsPerStrip = 40`, `ledsPerModule = 320`, an
empty queue and `lastKnownFrameId = -1`; so does the welcome packet carrying 5. -/
theorem valid_reinit_witness :
    ((reinit exampleConfig 5 exampleState).voxelModuleYSize = 5 ∧
      (reinit exampleConfig 5 exampleState).ledsPerStrip = 40 ∧
      (reinit exampleConfig 5 exampleState).ledsPerModule = 320 ∧
      (reinit exampleConfig 5 exampleState).queueCount = 0 ∧
      (reinit exampleConfig 5 exampleState).queueStartIdx = 0 ∧
      (reinit exampleConfig 5 exampleState).lastKnownFrameId = -1) ∧
    (onSerialPacketReceived exampleConfig true (exampleWelcomePacket 5) 3
      exampleState).voxelModuleYSize = 5 ∧
    (onSerialPacketReceived exampleConfig true (exampleWelcomePacket 5) 3
      exampleState).ledsPerModule = 320 := by
  have h := valid_reinit exampleConfig 5 exampleState (by decide) (by decide) (by decide)
  obtain ⟨⟨a1, a2, a3, a4, a5, a6, _⟩, hw⟩ := h
  obtain ⟨b1, _, b3, _⟩ := hw (exampleWelcomePacket 5) 3 (by decide) (by decide) (by decide)
    (by decide) (by decide)
  exact ⟨⟨a1, a2, a3, a4, a5, a6⟩, b1, b3⟩

/-- C8: welcome geometry errors.  A welcome packet for this slave whose y-size
byte is 0 or exceeds `MAX_VOXEL_Y_SIZE` leaves `voxelModuleYSize`,
`ledsPerStrip` and `ledsPerModule` unchanged, whatever its size and sender. -/
theorem welcome_geometry_error (cfg : Config) (sender : Bool) (buffer : Nat → Byte) (size : Nat)
    (s : State) (hid : ((buffer 0).val : Int) = MY_SLAVE_ID)
    (htag : buffer 1 = cfg.WELCOME_HEADER)
    (hy : (buffer 2).val = 0 ∨ (buffer 2).val > cfg.MAX_VOXEL_Y_SIZE) :
    (onSerialPacketReceived cfg sender buffer size s).voxelModuleYSize = s.voxelModuleYSize ∧
    (onSerialPacketReceived cfg sender buffer size s).ledsPerStrip = s.ledsPerStrip ∧
    (onSerialPacketReceived cfg sender buffer size s).ledsPerModule = s.ledsPerModule := by
  by_cases hguard : sender = true ∧ size > 2
  swap
  · have : onSerialPacketReceived cfg sender buffer size s = s := by
      unfold onSerialPacketReceived
      rw [if_neg hguard]
    rw [this]
    exact ⟨rfl, rfl, rfl⟩
  have hs : sender = true := hguard.1
  subst hs
  rw [welcome_dispatch cfg buffer size s hguard.2 hid htag]
  obtain ⟨_, _, _, wpos, wneg⟩ := readWelcomeHeader_fields cfg buffer (sizeSub size 2) 2 s
  by_cases hcall : sizeSub size 2 ≥ 1 ∧ (buffer 2).val > 0
  · obtain ⟨w1, w2, w3⟩ := wpos hcall
    have hbig : (buffer 2).val > cfg.MAX_VOXEL_Y_SIZE := by
      rcases hy with h | h
      · omega
      · exact h
    obtain ⟨r1, r2, r3⟩ := (reinit_fields cfg (buffer 2) s).2.2.2.2.2 (fun h => by omega)
    exact ⟨w1.trans r1, w2.trans r2, w3.trans r3⟩
  · exact wneg hcall

/-- C8 witness: under `exampleConfig` (`MAX_VOXEL_Y_SIZE = 32`) the welcome
packets carrying the y-sizes 0 and 33 leave the geometry of `exampleState`
(`voxelModuleYSize = 8`) as it was. -/
theorem welcome_geometry_error_witness :
    (onSerialPacketReceived exampleConfig true (exampleWelcomePacket 0) 3
      exampleState).voxelModuleYSize = 8 ∧
    (onSerialPacketReceived exampleConfig true (exampleWelcomePacket 33) 3
      exampleState).voxelModuleYSize = 8 ∧
    (onSerialPacketReceived exampleConfig true (exampleWelcomePacket 33) 3
      exampleState).ledsPerModule = 512 := by
  have h0 := welcome_geometry_error exampleConfig true (exampleWelcomePacket 0) 3 exampleState
    (by decide) (by decide) (by decide)
  have h33 := welcome_geometry_error exampleConfig true (exampleWelcomePacket 33) 3 exampleState
    (by decide) (by decide) (by decide)
  exact ⟨h0.1, h33.1, h33.2.2⟩

theorem and_ff (n : Nat) (h : n < 256) : n &&& 0x0000FF = n := by
  have h1 : n &&& 255 = n % 256 := Nat.and_pow_two_sub_one_eq_mod n 8
  rw [h1]
  exact Nat.mod_eq_of_lt h

theorem shiftMask_packed (r g b : Nat) (hr : r < 256) (hg : g < 256) (hb : b < 256) :
    shiftMask (((r <<< 16) + (g <<< 8) + b : Nat) : Int) 16 = r ∧
    shiftMask (((r <<< 16) + (g <<< 8) + b : Nat) : Int) 8 = g ∧
    shiftMask (((r <<< 16) + (g <<< 8) + b : Nat) : Int) 0 = b := by
  simp only [shiftMask, Nat.shiftLeft_eq]
  norm_num
  omega

/-- The colour `colourFromBuffer` computes from three consecutive bytes. -/
theorem colourFromBuffer_eq (buffer : Nat → Byte) (o : Nat) :
    colourFromBuffer buffer o =
      (((pgm_read_gamma8 (buffer o).val <<< 16) |||
        (pgm_read_gamma8 (buffer (o + 1)).val <<< 8) |||
         pgm_read_gamma8 (buffer (o + 2)).val : Nat) : Int) := by
  unfold colourFromBuffer gammaMapColour
  rw [and_ff _ (buffer o).isLt, and_ff _ (buffer (o + 1)).isLt, and_ff _ (buffer (o + 2)).isLt]
  obtain ⟨h1, h2, h3⟩ := shiftMask_packed (buffer o).val (buffer (o + 1)).val (buffer (o + 2)).val
    (buffer o).isLt (buffer (o + 1)).isLt (buffer (o + 2)).isLt
  rw [h1, h2, h3]

/-- Loop rule for the render loops: a `foldl` over `List.range n` of a step that
advances the buffer index by `d` per iteration.  `T j i` says that iteration `j`
may write pixel `i`; `R j b i v` says that iteration `j`, entered with buffer
index `b`, leaves the colour `v` at pixel `i`. -/
theorem render_loop_rule (step : Nat × Leds → Nat → Nat × Leds) (d N : Nat)
    (T : Nat → Int → Prop) (R : Nat → Nat → Int → Int → Prop)
    (hoff : ∀ acc j, j < N → (step acc j).1 = acc.1 + d)
    (hunt : ∀ acc j i, j < N → ¬ T j i → (step acc j).2.pixels i = acc.2.pixels i)
    (hval : ∀ acc j i v, j < N → R j acc.1 i v → (step acc j).2.pixels i = v) :
    ∀ n, n ≤ N → ∀ acc,
      ((List.range n).foldl step acc).1 = acc.1 + d * n ∧
      (∀ i, (∀ j, j < n → ¬ T j i) → ((List.range n).foldl step acc).2.pixels i = acc.2.pixels i) ∧
      (∀ j0 i v, j0 < n → R j0 (acc.1 + d * j0) i v → (∀ j, j < n → j ≠ j0 → ¬ T j i) →
        ((List.range n).foldl step acc).2.pixels i = v) := by
  intro n
  induction n with
  | zero =>
    intro _ acc
    refine ⟨by simp, fun i _ => by simp, fun j0 i v h => absurd h (Nat.not_lt_zero _)⟩
  | succ n ih =>
    intro hn acc
    obtain ⟨ih1, ih2, ih3⟩ := ih (by omega) acc
    rw [List.range_succ, List.foldl_append]
    simp only [List.foldl_cons, List.foldl_nil]
    refine ⟨?_, ?_, ?_⟩
    · rw [hoff _ n (by omega), ih1, Nat.mul_succ, Nat.add_assoc]
    · intro i hi
      rw [hunt _ n i (by omega) (hi n (by omega))]
      exact ih2 i (fun j hj => hi j (by omega))
    · intro j0 i v hj0 hR hothers
      rcases Nat.lt_or_ge j0 n with hlt | hge
      · rw [hunt _ n i (by omega) (hothers n (by omega) (by omega))]
        exact ih3 j0 i v hlt hR (fun j hj hne => hothers j (by omega) hne)
      · have hjn : j0 = n := by omega
        subst hjn
        apply hval _ j0 i v (by omega)
        rw [ih1]
        exact hR

theorem radix_inj (n a b a' b' : Nat) (hb : b < n) (hb' : b' < n)
    (h : a * n + b = a' * n + b') : a = a' ∧ b = b' := by
  have ha : a = a' := by
    rcases Nat.lt_trichotomy a a' with hlt | heq | hgt
    · have := Nat.mul_le_mul_right n (Nat.succ_le_of_lt hlt)
      rw [Nat.succ_mul] at this
      omega
    · exact heq
    · have := Nat.mul_le_mul_right n (Nat.succ_le_of_lt hgt)
      rw [Nat.succ_mul] at this
      omega
  subst ha
  exact ⟨rfl, by omega⟩

/-- The pixel index transform is injective on the voxel coordinates. -/
theorem pixel_index_inj (Y Z x y z x' y' z' : Nat) (hy : y < Y) (hy' : y' < Y)
    (hz : z < Z) (hz' : z' < Z)
    (h : x * Y * Z + z * Y + y = x' * Y * Z + z' * Y + y') : x = x' ∧ y = y' ∧ z = z' := by
  have hw : z * Y + y < Z * Y := by
    have := Nat.mul_le_mul_right Y (Nat.succ_le_of_lt hz)
    rw [Nat.succ_mul] at this
    omega
  have hw' : z' * Y + y' < Z * Y := by
    have := Nat.mul_le_mul_right Y (Nat.succ_le_of_lt hz')
    rw [Nat.succ_mul] at this
    omega
  have h2 : x * (Z * Y) + (z * Y + y) = x' * (Z * Y) + (z' * Y + y') := by
    have e1 : x * Y * Z = x * (Z * Y) := by ring
    have e2 : x' * Y * Z = x' * (Z * Y) := by ring
    omega
  obtain ⟨hx, hrest⟩ := radix_inj (Z * Y) x (z * Y + y) x' (z' * Y + y') hw hw' h2
  obtain ⟨hzz, hyy⟩ := radix_inj Y z y z' y' hy hy' hrest
  exact ⟨hx, hyy, hzz⟩

theorem pixel_index_cast (cfg : Config) (s : State) (Y : Nat) (hY : s.voxelModuleYSize = (Y : Int))
    (x y z : Nat) :
    (x : Int) * s.voxelModuleYSize * cfg.VOXEL_MODULE_Z_SIZE + (z : Int) * s.voxelModuleYSize + y
      = ((x * Y * cfg.VOXEL_MODULE_Z_SIZE + z * Y + y : Nat) : Int) := by
  rw [hY]
  push_cast
  ring

theorem pixel_index_ne (cfg : Config) (s : State) (x y z x' y' z' : Nat)
    (hy : (y : Int) < s.voxelModuleYSize) (hy' : (y' : Int) < s.voxelModuleYSize)
    (hz : z < cfg.VOXEL_MODULE_Z_SIZE) (hz' : z' < cfg.VOXEL_MODULE_Z_SIZE)
    (hne : ¬ (x = x' ∧ y = y' ∧ z = z')) :
    (x : Int) * s.voxelModuleYSize * cfg.VOXEL_MODULE_Z_SIZE + (z : Int) * s.voxelModuleYSize + y
      ≠ (x' : Int) * s.voxelModuleYSize * cfg.VOXEL_MODULE_Z_SIZE
          + (z' : Int) * s.voxelModuleYSize + y' := by
  have hY : s.voxelModuleYSize = ((s.voxelModuleYSize.toNat : Nat) : Int) := by omega
  rw [pixel_index_cast cfg s _ hY, pixel_index_cast cfg s _ hY]
  intro h
  have h' := Int.ofNat.inj h
  exact hne (pixel_index_inj s.voxelModuleYSize.toNat cfg.VOXEL_MODULE_Z_SIZE x y z x' y' z'
    (by omega) (by omega) hz hz' h')

/-- The `z` loop at `(x, y)`, entered with buffer index `acc.1`. -/
theorem renderZ_spec (cfg : Config) (s : State) (x y : Nat) (acc : Nat × Leds)
    (hy : (y : Int) < s.voxelModuleYSize) :
    (renderZ cfg s x acc y).1 = acc.1 + 3 * cfg.VOXEL_MODULE_Z_SIZE ∧
    (∀ i, (∀ z, z < cfg.VOXEL_MODULE_Z_SIZE →
        i ≠ (x : Int) * s.voxelModuleYSize * cfg.VOXEL_MODULE_Z_SIZE
              + (z : Int) * s.voxelModuleYSize + y) →
      (renderZ cfg s x acc y).2.pixels i = acc.2.pixels i) ∧
    (∀ z, z < cfg.VOXEL_MODULE_Z_SIZE →
      (renderZ cfg s x acc y).2.pixels
          ((x : Int) * s.voxelModuleYSize * cfg.VOXEL_MODULE_Z_SIZE
              + (z : Int) * s.voxelModuleYSize + y)
        = colourFromBuffer (s.tempLedBufferQueue s.queueStartIdx) (acc.1 + 3 * z)) := by
  obtain ⟨h1, h2, h3⟩ := render_loop_rule (renderVoxel cfg s x y) 3 cfg.VOXEL_MODULE_Z_SIZE
    (fun z i => i = (x : Int) * s.voxelModuleYSize * cfg.VOXEL_MODULE_Z_SIZE
              + (z : Int) * s.voxelModuleYSize + y)
    (fun z b i v => i = (x : Int) * s.voxelModuleYSize * cfg.VOXEL_MODULE_Z_SIZE
              + (z : Int) * s.voxelModuleYSize + y ∧
        v = colourFromBuffer (s.tempLedBufferQueue s.queueStartIdx) b)
    (fun acc j _ => rfl)
    (fun acc j i _ hT => by
      simp only [renderVoxel, Leds.setPixel]
      rw [if_neg hT])
    (fun acc j i v _ hR => by
      simp only [renderVoxel, Leds.setPixel]
      rw [if_pos hR.1, hR.2])
    cfg.VOXEL_MODULE_Z_SIZE (Nat.le_refl _) acc
  refine ⟨h1, h2, fun z hz => ?_⟩
  apply h3 z _ _ hz ⟨rfl, rfl⟩
  intro j hj hne
  exact pixel_index_ne cfg s x y z x y j hy hy hz hj (fun h => hne h.2.2.symm)

/-- The `y` loop at `x`, entered with buffer index `acc.1`. -/
theorem renderY_spec (cfg : Config) (s : State) (x : Nat) (acc : Nat × Leds) :
    (renderY cfg s acc x).1 =
      acc.1 + 3 * cfg.VOXEL_MODULE_Z_SIZE * s.voxelModuleYSize.toNat ∧
    (∀ i, (∀ y z : Nat, (y : Int) < s.voxelModuleYSize → z < cfg.VOXEL_MODULE_Z_SIZE →
        i ≠ (x : Int) * s.voxelModuleYSize * cfg.VOXEL_MODULE_Z_SIZE
              + (z : Int) * s.voxelModuleYSize + y) →
      (renderY cfg s acc x).2.pixels i = acc.2.pixels i) ∧
    (∀ y z : Nat, (y : Int) < s.voxelModuleYSize → z < cfg.VOXEL_MODULE_Z_SIZE →
      (renderY cfg s acc x).2.pixels
          ((x : Int) * s.voxelModuleYSize * cfg.VOXEL_MODULE_Z_SIZE
              + (z : Int) * s.voxelModuleYSize + y)
        = colourFromBuffer (s.tempLedBufferQueue s.queueStartIdx)
            (acc.1 + 3 * cfg.VOXEL_MODULE_Z_SIZE * y + 3 * z)) := by
  obtain ⟨h1, h2, h3⟩ := render_loop_rule (renderZ cfg s x) (3 * cfg.VOXEL_MODULE_Z_SIZE)
    s.voxelModuleYSize.toNat
    (fun y i => ∃ z, z < cfg.VOXEL_MODULE_Z_SIZE ∧
      i = (x : Int) * s.voxelModuleYSize * cfg.VOXEL_MODULE_Z_SIZE
              + (z : Int) * s.voxelModuleYSize + y)
    (fun y b i v => ∃ z, z < cfg.VOXEL_MODULE_Z_SIZE ∧
      i = (x : Int) * s.voxelModuleYSize * cfg.VOXEL_MODULE_Z_SIZE
              + (z : Int) * s.voxelModuleYSize + y ∧
      v = colourFromBuffer (s.tempLedBufferQueue s.queueStartIdx) (b + 3 * z))
    (fun acc j hj => (renderZ_spec cfg s x j acc (by omega)).1)
    (fun acc j i hj hT =>
      (renderZ_spec cfg s x j acc (by omega)).2.1 i (fun z hz h => hT ⟨z, hz, h⟩))
    (fun acc j i v hj hR => by
      obtain ⟨z, hz, hi, hv⟩ := hR
      rw [hi, hv]
      exact (renderZ_spec cfg s x j acc (by omega)).2.2 z hz)
    s.voxelModuleYSize.toNat (Nat.le_refl _) acc
  refine ⟨h1, fun i hi => ?_, fun y z hy hz => ?_⟩
  · apply h2 i
    rintro j hj ⟨z, hz, h⟩
    exact hi j z (by omega) hz h
  · apply h3 y _ _ (by omega) ⟨z, hz, rfl, rfl⟩
    rintro j hj hne ⟨z', hz', h⟩
    exact pixel_index_ne cfg s x y z x j z' hy (by omega) hz hz' (fun hh => hne hh.2.1.symm) h

/-- The whole render loop nest, from buffer index 0. -/
theorem renderX_spec (cfg : Config) (s : State) (x y z : Nat)
    (hx : x < cfg.VOXEL_MODULE_X_SIZE) (hy : (y : Int) < s.voxelModuleYSize)
    (hz : z < cfg.VOXEL_MODULE_Z_SIZE) :
    (renderX cfg s).2.pixels
        ((x : Int) * s.voxelModuleYSize * cfg.VOXEL_MODULE_Z_SIZE
            + (z : Int) * s.voxelModuleYSize + y)
      = colourFromBuffer (s.tempLedBufferQueue s.queueStartIdx)
          (3 * ((x * s.voxelModuleYSize.toNat + y) * cfg.VOXEL_MODULE_Z_SIZE + z)) := by
  obtain ⟨_, _, h3⟩ := render_loop_rule (renderY cfg s)
    (3 * cfg.VOXEL_MODULE_Z_SIZE * s.voxelModuleYSize.toNat) cfg.VOXEL_MODULE_X_SIZE
    (fun x i => ∃ y z : Nat, (y : Int) < s.voxelModuleYSize ∧ z < cfg.VOXEL_MODULE_Z_SIZE ∧
      i = (x : Int) * s.voxelModuleYSize * cfg.VOXEL_MODULE_Z_SIZE
              + (z : Int) * s.voxelModuleYSize + y)
    (fun x b i v => ∃ y z : Nat, (y : Int) < s.voxelModuleYSize ∧ z < cfg.VOXEL_MODULE_Z_SIZE ∧
      i = (x : Int) * s.voxelModuleYSize * cfg.VOXEL_MODULE_Z_SIZE
              + (z : Int) * s.voxelModuleYSize + y ∧
      v = colourFromBuffer (s.tempLedBufferQueue s.queueStartIdx)
            (b + 3 * cfg.VOXEL_MODULE_Z_SIZE * y + 3 * z))
    (fun acc j _ => (renderY_spec cfg s j acc).1)
    (fun acc j i _ hT =>
      (renderY_spec cfg s j acc).2.1 i (fun y z hy hz h => hT ⟨y, z, hy, hz, h⟩))
    (fun acc j i v _ hR => by
      obtain ⟨y, z, hy, hz, hi, hv⟩ := hR
      rw [hi, hv]
      exact (renderY_spec cfg s j acc).2.2 y z hy hz)
    cfg.VOXEL_MODULE_X_SIZE (Nat.le_refl _) (0, s.leds)
  have hoff : 3 * ((x * s.voxelModuleYSize.toNat + y) * cfg.VOXEL_MODULE_Z_SIZE + z)
      = (0, s.leds).1 + 3 * cfg.VOXEL_MODULE_Z_SIZE * s.voxelModuleYSize.toNat * x
          + 3 * cfg.VOXEL_MODULE_Z_SIZE * y + 3 * z := by
    simp only
    ring
  rw [hoff]
  apply h3 x _ _ hx ⟨y, z, hy, hz, rfl, rfl⟩
  rintro j hj hne ⟨y', z', hy', hz', h⟩
  exact pixel_index_ne cfg s x y z j y' z' hy hy' hz hz' (fun hh => hne hh.1.symm) h

/-- C9: render mapping.  When `updateLedsFromQueue` runs with `queueCount > 0`
it returns `true`, and for every voxel `(x, y, z)` with
`x < VOXEL_MODULE_X_SIZE`, `y < voxelModuleYSize`, `z < VOXEL_MODULE_Z_SIZE` the
pixel `x*ySize*zSize + z*ySize + y` holds afterwards the colour
`(gamma8[r] << 16) | (gamma8[g] << 8) | gamma8[b]`, with `r, g, b` the bytes of
the front slot `tempLedBufferQueue[queueStartIdx]` at the offsets `o, o+1, o+2`,
`o = 3*((x*ySize + y)*zSize + z)`; `queueCount` is decremented and
`queueStartIdx` becomes `(queueStartIdx + 1) % 6`. -/
theorem render_mapping (cfg : Config) (s : State) (hq : s.queueCount > 0) :
    (updateLedsFromQueue cfg s).2 = true ∧
    (updateLedsFromQueue cfg s).1.queueCount = s.queueCount - 1 ∧
    (updateLedsFromQueue cfg s).1.queueStartIdx =
      Int.tmod (s.queueStartIdx + 1) LED_BUFFER_QUEUE_SIZE ∧
    (0 ≤ s.queueStartIdx →
      (updateLedsFromQueue cfg s).1.queueStartIdx = (s.queueStartIdx + 1) % 6) ∧
    ∀ x y z : Nat, x < cfg.VOXEL_MODULE_X_SIZE → (y : Int) < s.voxelModuleYSize →
      z < cfg.VOXEL_MODULE_Z_SIZE →
      (updateLedsFromQueue cfg s).1.leds.pixels
          ((x : Int) * s.voxelModuleYSize * cfg.VOXEL_MODULE_Z_SIZE
            + (z : Int) * s.voxelModuleYSize + y)
        = (((pgm_read_gamma8 (s.tempLedBufferQueue s.queueStartIdx
                (3 * ((x * s.voxelModuleYSize.toNat + y) * cfg.VOXEL_MODULE_Z_SIZE + z))).val
              <<< 16) |||
            (pgm_read_gamma8 (s.tempLedBufferQueue s.queueStartIdx
                (3 * ((x * s.voxelModuleYSize.toNat + y) * cfg.VOXEL_MODULE_Z_SIZE + z) + 1)).val
              <<< 8) |||
            pgm_read_gamma8 (s.tempLedBufferQueue s.queueStartIdx
                (3 * ((x * s.voxelModuleYSize.toNat + y) * cfg.VOXEL_MODULE_Z_SIZE + z) + 2)).val
            : Nat) : Int) := by
  have hrun : updateLedsFromQueue cfg s =
      ({ s with leds := (renderX cfg s).2.show, queueCount := s.queueCount - 1,
                queueStartIdx := Int.tmod (s.queueStartIdx + 1) LED_BUFFER_QUEUE_SIZE }, true) := by
    simp only [updateLedsFromQueue, hq, if_true]
  rw [hrun]
  refine ⟨rfl, rfl, rfl, fun h0 => ?_, fun x y z hx hy hz => ?_⟩
  · exact tmod_six_of_nonneg _ (by omega)
  · rw [← colourFromBuffer_eq]
    exact renderX_spec cfg s x y z hx hy hz

set_option maxRecDepth 100000 in
/-- C9 witness: in `exampleQueuedState` (slot 0 holds the payload of
`exampleFullPacket`, byte `k` being `k % 251`) the voxel `(1, 2, 3)` reads the
bytes 249, 250, 0 at the offsets 249, 250, 251 and pixel `1*8*8 + 3*8 + 2 = 90`
receives `(239 << 16) | (241 << 8) | 0`; the queue becomes empty and
`queueStartIdx` moves from 0 to 1. -/
theorem render_mapping_witness :
    (updateLedsFromQueue exampleConfig exampleQueuedState).1.leds.pixels 90 = 15724800 ∧
    (updateLedsFromQueue exampleConfig exampleQueuedState).1.queueCount = 0 ∧
    (updateLedsFromQueue exampleConfig exampleQueuedState).1.queueStartIdx = 1 := by
  have h := render_mapping exampleConfig exampleQueuedState (by decide)
  obtain ⟨_, hc, _, hs, hp⟩ := h
  refine ⟨(hp 1 2 3 (by decide) (by decide) (by decide)).trans (by decide), hc.trans (by decide),
    (hs (by decide)).trans (by decide)⟩

theorem renderX_congr (cfg : Config) (s t : State)
    (hq : t.tempLedBufferQueue = s.tempLedBufferQueue) (hs : t.queueStartIdx = s.queueStartIdx)
    (hy : t.voxelModuleYSize = s.voxelModuleYSize) (hl : t.leds = s.leds) :
    renderX cfg t = renderX cfg s := by
  have hv : renderVoxel cfg t = renderVoxel cfg s := by
    funext x y acc z
    simp only [renderVoxel, hq, hs, hy]
  have hz : renderZ cfg t = renderZ cfg s := by
    funext x acc y
    simp only [renderZ, hv]
  have hY : renderY cfg t = renderY cfg s := by
    funext acc x
    simp only [renderY, hz, hy]
  simp only [renderX, hY, hl]

/-- The two outcomes of the render step of `loop`. -/
theorem loopRender_cases (cfg : Config) (dt : Nat) (s : State) :
    (((s.ledDrawTimeCounterMicroSecs + dt) % 4294967296 ≥ 33333 ∧ s.queueCount > 0) →
      loopRender cfg dt s =
        { s with ledDrawTimeCounterMicroSecs := 0, leds := (renderX cfg s).2.show,
                 queueCount := s.queueCount - 1,
                 queueStartIdx := Int.tmod (s.queueStartIdx + 1) LED_BUFFER_QUEUE_SIZE }) ∧
    (¬ ((s.ledDrawTimeCounterMicroSecs + dt) % 4294967296 ≥ 33333 ∧ s.queueCount > 0) →
      loopRender cfg dt s =
        { s with ledDrawTimeCounterMicroSecs :=
                   (s.ledDrawTimeCounterMicroSecs + dt) % 4294967296 }) := by
  have hN : numMicroSecsPerRefresh = 33333 := by decide
  have hr : renderX cfg { s with ledDrawTimeCounterMicroSecs :=
      (s.ledDrawTimeCounterMicroSecs + dt) % WORD } = renderX cfg s :=
    renderX_congr cfg s _ rfl rfl rfl rfl
  constructor
  · rintro ⟨ht, hq⟩
    have ht2 : (s.ledDrawTimeCounterMicroSecs + dt) % WORD ≥ numMicroSecsPerRefresh := by
      rw [hN]
      exact ht
    simp only [loopRender, ht2, if_true, updateLedsFromQueue, hq, Leds.show, hr]
  · intro hn
    by_cases ht : (s.ledDrawTimeCounterMicroSecs + dt) % WORD ≥ numMicroSecsPerRefresh
    · have hq : ¬ (s.queueCount > 0) := fun hq => hn ⟨by rw [hN] at ht; exact ht, hq⟩
      simp only [loopRender, ht, if_true, updateLedsFromQueue, hq, if_false, Bool.false_eq_true]
      rfl
    · simp only [loopRender, ht, if_false]
      rfl

theorem loopPing_keeps (dt : Nat) (s : State) :
    (loopPing dt s).ledDrawTimeCounterMicroSecs = s.ledDrawTimeCounterMicroSecs ∧
    (loopPing dt s).queueCount = s.queueCount ∧
    (loopPing dt s).queueStartIdx = s.queueStartIdx ∧
    (loopPing dt s).tempLedBufferQueue = s.tempLedBufferQueue ∧
    (loopPing dt s).leds = s.leds := by
  unfold loopPing
  dsimp only
  split <;> exact ⟨rfl, rfl, rfl, rfl, rfl⟩

/-- C10: render scheduler step.  With `t = (ledDrawTimeCounterMicroSecs + dt)
mod 2^32` and `numMicroSecsPerRefresh = 33333`: if `t >= 33333` and
`queueCount > 0` the render step of `loop` dequeues and draws one frame
(`queueCount` drops by one, `queueStartIdx` advances, the strip holds the
rendering of the front slot and is shown) and the counter becomes 0; otherwise
the counter becomes `t` and `queueCount`, `queueStartIdx`, the ring buffer and
the strip are unchanged.  `loop` as a whole has these values after delivering
the packets of the iteration. -/
theorem render_scheduler_step (cfg : Config) (dt : Nat) (s : State) :
    numMicroSecsPerRefresh = 33333 ∧
    (((s.ledDrawTimeCounterMicroSecs + dt) % 4294967296 ≥ 33333 ∧ s.queueCount > 0) →
      (loopRender cfg dt s).ledDrawTimeCounterMicroSecs = 0 ∧
      (loopRender cfg dt s).queueCount = s.queueCount - 1 ∧
      (loopRender cfg dt s).queueStartIdx =
        Int.tmod (s.queueStartIdx + 1) LED_BUFFER_QUEUE_SIZE ∧
      (loopRender cfg dt s).leds = (renderX cfg s).2.show) ∧
    (¬ ((s.ledDrawTimeCounterMicroSecs + dt) % 4294967296 ≥ 33333 ∧ s.queueCount > 0) →
      (loopRender cfg dt s).ledDrawTimeCounterMicroSecs =
        (s.ledDrawTimeCounterMicroSecs + dt) % 4294967296 ∧
      (loopRender cfg dt s).queueCount = s.queueCount ∧
      (loopRender cfg dt s).queueStartIdx = s.queueStartIdx ∧
      (loopRender cfg dt s).tempLedBufferQueue = s.tempLedBufferQueue ∧
      (loopRender cfg dt s).leds = s.leds) ∧
    (∀ (packets : List Packet) (firstReading currTimeMicroSecs : Nat) (s0 : State),
      s = packetSerialUpdate cfg packets s0 → dt = loopDt firstReading currTimeMicroSecs s →
      (loop cfg packets firstReading currTimeMicroSecs s0).ledDrawTimeCounterMicroSecs =
        (loopRender cfg dt s).ledDrawTimeCounterMicroSecs ∧
      (loop cfg packets firstReading currTimeMicroSecs s0).queueCount =
        (loopRender cfg dt s).queueCount ∧
      (loop cfg packets firstReading currTimeMicroSecs s0).queueStartIdx =
        (loopRender cfg dt s).queueStartIdx ∧
      (loop cfg packets firstReading currTimeMicroSecs s0).tempLedBufferQueue =
        (loopRender cfg dt s).tempLedBufferQueue ∧
      (loop cfg packets firstReading currTimeMicroSecs s0).leds = (loopRender cfg dt s).leds) := by
  obtain ⟨hfire, hwait⟩ := loopRender_cases cfg dt s
  refine ⟨by decide, fun h => ?_, fun h => ?_, ?_⟩
  · rw [hfire h]
    exact ⟨rfl, rfl, rfl, rfl⟩
  · rw [hwait h]
    exact ⟨rfl, rfl, rfl, rfl, rfl⟩
  · intro packets firstReading currTimeMicroSecs s0 hs hdt
    obtain ⟨p1, p2, p3, p4, p5⟩ := loopPing_keeps dt
      (loopRender cfg dt { s with lastTimeInMicroSecs := some currTimeMicroSecs })
    have hloop : loop cfg packets firstReading currTimeMicroSecs s0 =
        loopPing dt (loopRender cfg dt { s with lastTimeInMicroSecs := some currTimeMicroSecs }) := by
      rw [hs, hdt, hs]
      rfl
    rw [hloop, p1, p2, p3, p4, p5]
    obtain ⟨hfire2, hwait2⟩ := loopRender_cases cfg dt
      { s with lastTimeInMicroSecs := some currTimeMicroSecs }
    have hr : renderX cfg { s with lastTimeInMicroSecs := some currTimeMicroSecs } =
        renderX cfg s := renderX_congr cfg s _ rfl rfl rfl rfl
    by_cases h : (s.ledDrawTimeCounterMicroSecs + dt) % 4294967296 ≥ 33333 ∧ s.queueCount > 0
    · rw [hfire h, hfire2 h, hr]
      exact ⟨rfl, rfl, rfl, rfl, rfl⟩
    · rw [hwait h, hwait2 h]
      exact ⟨rfl, rfl, rfl, rfl, rfl⟩

set_option maxRecDepth 100000 in
/-- C10 witness: with one frame queued and `dt = 40000` the step fires
(counter 0, queue empty); with the queue empty and `dt = 40000` the counter
becomes 40000 and nothing else moves; one whole `loop` iteration that receives
`exampleFullPacket` and sees 40000 microseconds elapse draws that frame. -/
theorem render_scheduler_step_witness :
    ((loopRender exampleConfig 40000 exampleQueuedState).ledDrawTimeCounterMicroSecs = 0 ∧
      (loopRender exampleConfig 40000 exampleQueuedState).queueCount = 0) ∧
    ((loopRender exampleConfig 40000 exampleState).ledDrawTimeCounterMicroSecs = 40000 ∧
      (loopRender exampleConfig 40000 exampleState).queueCount = 0 ∧
      (loopRender exampleConfig 40000 exampleState).leds = exampleState.leds) ∧
    ((loop exampleConfig [⟨exampleFullPacket, 1540⟩] 0 40000
        exampleState).ledDrawTimeCounterMicroSecs = 0 ∧
      (loop exampleConfig [⟨exampleFullPacket, 1540⟩] 0 40000 exampleState).queueCount = 0) := by
  obtain ⟨_, hfire, _, hloop⟩ := render_scheduler_step exampleConfig 40000 exampleQueuedState
  obtain ⟨_, _, hwait, _⟩ := render_scheduler_step exampleConfig 40000 exampleState
  obtain ⟨f1, f2, _, _⟩ := hfire (by decide)
  obtain ⟨w1, w2, _, _, w5⟩ := hwait (by decide)
  obtain ⟨l1, l2, _, _, _⟩ := hloop [⟨exampleFullPacket, 1540⟩] 0 40000 exampleState rfl
    (by decide)
  exact ⟨⟨f1, f2.trans (by decide)⟩, ⟨w1.trans (by decide), w2.trans (by decide), w5⟩,
    ⟨l1.trans f1, l2.trans (f2.trans (by decide))⟩⟩

theorem queueInv_updateQueue (s : State) (h : QueueInv s) : QueueInv (updateQueue s) := by
  obtain ⟨h1, h2, h3, h4⟩ := h
  unfold updateQueue
  by_cases hc : s.queueCount + 1 > LED_BUFFER_QUEUE_SIZE
  · simp only [hc, if_true]
    refine ⟨?_, ?_, ?_, ?_⟩
    · show (0 : Int) ≤ LED_BUFFER_QUEUE_SIZE
      decide
    · show LED_BUFFER_QUEUE_SIZE ≤ (6 : Int)
      decide
    · show 0 ≤ Int.tmod (s.queueStartIdx + 1) LED_BUFFER_QUEUE_SIZE
      rw [tmod_six_of_nonneg _ (by omega)]
      omega
    · show Int.tmod (s.queueStartIdx + 1) LED_BUFFER_QUEUE_SIZE < 6
      rw [tmod_six_of_nonneg _ (by omega)]
      omega
  · simp only [hc, if_false]
    unfold LED_BUFFER_QUEUE_SIZE at hc
    exact ⟨by show 0 ≤ s.queueCount + 1; omega, by show s.queueCount + 1 ≤ 6; omega, h3, h4⟩

theorem queueInv_of_fields (s t : State) (hc : t.queueCount = s.queueCount)
    (hs : t.queueStartIdx = s.queueStartIdx) (h : QueueInv s) : QueueInv t := by
  unfold QueueInv at *
  rw [hc, hs]
  exact h

theorem queueInv_zero (t : State) (hc : t.queueCount = 0) (hs : t.queueStartIdx = 0) :
    QueueInv t := by
  unfold QueueInv
  rw [hc, hs]
  decide

theorem queueInv_readFull (buffer : Nat → Byte) (size startIdx : Nat) (f : Int) (s : State)
    (h : QueueInv s) : QueueInv (readFullVoxelData buffer size startIdx f s) := by
  unfold readFullVoxelData
  split
  · exact queueInv_of_fields (updateQueue _) _ rfl rfl
      (queueInv_updateQueue _ (queueInv_of_fields s _ rfl rfl h))
  · exact h

theorem queueInv_readWipe (buffer : Nat → Byte) (size startIdx : Nat) (f : Int) (s : State)
    (h : QueueInv s) : QueueInv (readWipeVoxelData buffer size startIdx f s) := by
  unfold readWipeVoxelData
  split
  · exact queueInv_of_fields (updateQueue _) _ rfl rfl
      (queueInv_updateQueue _ (queueInv_of_fields s _ rfl rfl h))
  · exact h

theorem queueInv_packet (cfg : Config) (sender : Bool) (buffer : Nat → Byte) (size : Nat)
    (s : State) (h : QueueInv s) : QueueInv (onSerialPacketReceived cfg sender buffer size s) := by
  unfold onSerialPacketReceived
  dsimp only
  split
  · split
    · exact h
    · split
      · obtain ⟨_, hc, hs, _⟩ := readWelcomeHeader_fields cfg buffer (sizeSub size 2) 2 s
        exact queueInv_zero _ hc hs
      · split
        · exact queueInv_readFull _ _ _ _ _ h
        · split
          · exact queueInv_readWipe _ _ _ _ _ h
          · exact h
  · exact h

theorem queueInv_updateLeds (cfg : Config) (s : State) (h : QueueInv s) :
    QueueInv (updateLedsFromQueue cfg s).1 := by
  obtain ⟨h1, h2, h3, h4⟩ := h
  unfold updateLedsFromQueue
  by_cases hq : s.queueCount > 0
  · simp only [hq, if_true]
    refine ⟨by show 0 ≤ s.queueCount - 1; omega, by show s.queueCount - 1 ≤ 6; omega, ?_, ?_⟩
    · show 0 ≤ Int.tmod (s.queueStartIdx + 1) LED_BUFFER_QUEUE_SIZE
      rw [tmod_six_of_nonneg _ (by omega)]
      omega
    · show Int.tmod (s.queueStartIdx + 1) LED_BUFFER_QUEUE_SIZE < 6
      rw [tmod_six_of_nonneg _ (by omega)]
      omega
  · simp only [hq, if_false]
    exact ⟨h1, h2, h3, h4⟩

theorem queueInv_op (cfg : Config) (op : SlaveOp) (s : State) (h : QueueInv s) :
    QueueInv (op.run cfg s) := by
  cases op with
  | clearQueue => exact queueInv_zero _ rfl rfl
  | updateQueue => exact queueInv_updateQueue s h
  | reinit y =>
    obtain ⟨_, hc, hs, _⟩ := reinit_fields cfg y s
    exact queueInv_zero _ hc hs
  | packet sender buffer size => exact queueInv_packet cfg sender buffer size s h
  | updateLedsFromQueue => exact queueInv_updateLeds cfg s h

theorem queueInv_runOps (cfg : Config) (ops : List SlaveOp) (s : State) (h : QueueInv s) :
    QueueInv (runOps cfg s ops) := by
  induction ops generalizing s with
  | nil => exact h
  | cons op ops ih => exact ih (op.run cfg s) (queueInv_op cfg op s h)

/-- C11: ring buffer index invariant.  `0 <= queueCount <= 6` and
`0 <= queueStartIdx < 6` hold after `clearQueue` and after `reinit`, and are
preserved by `updateQueue`, by every packet handled by `onSerialPacketReceived`
and by `updateLedsFromQueue`, hence after any sequence of these operations from
an emptied queue; under the invariant the slot index
`(queueStartIdx + queueCount) % 6` used for writing lies in `[0, 6)`, as does
the index `queueStartIdx` used for reading. -/
theorem ring_index_invariant (cfg : Config) (s : State) :
    QueueInv (clearQueue s) ∧
    (∀ y : Byte, QueueInv (reinit cfg y s)) ∧
    (QueueInv s → QueueInv (updateQueue s)) ∧
    (QueueInv s → ∀ (sender : Bool) (buffer : Nat → Byte) (size : Nat),
      QueueInv (onSerialPacketReceived cfg sender buffer size s)) ∧
    (QueueInv s → QueueInv (updateLedsFromQueue cfg s).1) ∧
    (∀ ops : List SlaveOp, QueueInv (runOps cfg (clearQueue s) ops)) ∧
    (QueueInv s →
      0 ≤ Int.tmod (s.queueStartIdx + s.queueCount) LED_BUFFER_QUEUE_SIZE ∧
      Int.tmod (s.queueStartIdx + s.queueCount) LED_BUFFER_QUEUE_SIZE < 6 ∧
      Int.tmod (s.queueStartIdx + s.queueCount) LED_BUFFER_QUEUE_SIZE =
        (s.queueStartIdx + s.queueCount) % 6 ∧
      0 ≤ s.queueStartIdx ∧ s.queueStartIdx < 6) := by
  refine ⟨queueInv_zero _ rfl rfl, fun y => ?_, queueInv_updateQueue s,
    fun h sender buffer size => queueInv_packet cfg sender buffer size s h,
    queueInv_updateLeds cfg s,
    fun ops => queueInv_runOps cfg ops _ (queueInv_zero _ rfl rfl), fun h => ?_⟩
  · obtain ⟨_, hc, hs, _⟩ := reinit_fields cfg y s
    exact queueInv_zero _ hc hs
  · obtain ⟨h1, h2, h3, h4⟩ := h
    rw [tmod_six_of_nonneg _ (by omega)]
    omega

set_option maxRecDepth 100000 in
/-- C11 witness: in `exampleQueuedState` (`queueCount = 1`, `queueStartIdx = 0`)
the invariant holds, the write index is 1, and it still holds after a further
full frame, a render and a welcome packet. -/
theorem ring_index_invariant_witness :
    QueueInv exampleQueuedState ∧
    Int.tmod (exampleQueuedState.queueStartIdx + exampleQueuedState.queueCount)
      LED_BUFFER_QUEUE_SIZE = 1 ∧
    QueueInv (onSerialPacketReceived exampleConfig true exampleFullPacket 1540
      exampleQueuedState) ∧
    QueueInv (updateLedsFromQueue exampleConfig exampleQueuedState).1 ∧
    QueueInv (runOps exampleConfig (clearQueue exampleState)
      [.packet true exampleFullPacket 1540, .updateLedsFromQueue,
       .packet true (exampleWelcomePacket 5) 3]) := by
  have hinv : QueueInv exampleQueuedState := by
    unfold QueueInv
    decide
  obtain ⟨_, _, _, hp, hl, _, hidx⟩ := ring_index_invariant exampleConfig exampleQueuedState
  obtain ⟨_, _, _, _, _, hops, _⟩ := ring_index_invariant exampleConfig exampleState
  refine ⟨hinv, ?_, hp hinv true exampleFullPacket 1540, hl hinv, hops _⟩
  rw [(hidx hinv).2.2.1]
  decide

theorem geometryInv_of_fields (cfg : Config) (s t : State)
    (hy : t.voxelModuleYSize = s.voxelModuleYSize) (hs : t.ledsPerStrip = s.ledsPerStrip)
    (hm : t.ledsPerModule = s.ledsPerModule) (h : GeometryInv cfg s) : GeometryInv cfg t := by
  unfold GeometryInv at *
  rw [hy, hs, hm]
  exact h

theorem geometryInv_reinit (cfg : Config) (y : Byte) (s : State) (h : GeometryInv cfg s) :
    GeometryInv cfg (reinit cfg y s) := by
  obtain ⟨_, _, _, _, hpos, hneg⟩ := reinit_fields cfg y s
  by_cases hc : (y.val : Int) ≠ s.voxelModuleYSize ∧ y.val ≤ cfg.MAX_VOXEL_Y_SIZE
  · obtain ⟨g1, g2, g3⟩ := hpos hc
    unfold GeometryInv
    rw [g1, g2, g3]
    exact ⟨by exact_mod_cast hc.2, rfl, rfl⟩
  · obtain ⟨g1, g2, g3⟩ := hneg hc
    exact geometryInv_of_fields cfg s _ g1 g2 g3 h

theorem geometry_readFull (buffer : Nat → Byte) (size startIdx : Nat) (f : Int) (s : State) :
    (readFullVoxelData buffer size startIdx f s).voxelModuleYSize = s.voxelModuleYSize ∧
    (readFullVoxelData buffer size startIdx f s).ledsPerStrip = s.ledsPerStrip ∧
    (readFullVoxelData buffer size startIdx f s).ledsPerModule = s.ledsPerModule := by
  unfold readFullVoxelData updateQueue
  dsimp only
  split
  · split <;> exact ⟨rfl, rfl, rfl⟩
  · exact ⟨rfl, rfl, rfl⟩

theorem geometry_readWipe (buffer : Nat → Byte) (size startIdx : Nat) (f : Int) (s : State) :
    (readWipeVoxelData buffer size startIdx f s).voxelModuleYSize = s.voxelModuleYSize ∧
    (readWipeVoxelData buffer size startIdx f s).ledsPerStrip = s.ledsPerStrip ∧
    (readWipeVoxelData buffer size startIdx f s).ledsPerModule = s.ledsPerModule := by
  unfold readWipeVoxelData updateQueue
  dsimp only
  split
  · split <;> exact ⟨rfl, rfl, rfl⟩
  · exact ⟨rfl, rfl, rfl⟩

theorem geometryInv_packet (cfg : Config) (sender : Bool) (buffer : Nat → Byte) (size : Nat)
    (s : State) (h : GeometryInv cfg s) :
    GeometryInv cfg (onSerialPacketReceived cfg sender buffer size s) := by
  unfold onSerialPacketReceived
  dsimp only
  split
  · split
    · exact h
    · split
      · obtain ⟨_, _, _, hpos, hneg⟩ := readWelcomeHeader_fields cfg buffer (sizeSub size 2) 2 s
        by_cases hc : sizeSub size 2 ≥ 1 ∧ (buffer 2).val > 0
        · obtain ⟨g1, g2, g3⟩ := hpos hc
          exact geometryInv_of_fields cfg _ _ g1 g2 g3 (geometryInv_reinit cfg _ s h)
        · obtain ⟨g1, g2, g3⟩ := hneg hc
          exact geometryInv_of_fields cfg s _ g1 g2 g3 h
      · split
        · obtain ⟨g1, g2, g3⟩ := geometry_readFull buffer (sizeSub size 4) 4
            (getFrameId buffer size) s
          exact geometryInv_of_fields cfg s _ g1 g2 g3 h
        · split
          · obtain ⟨g1, g2, g3⟩ := geometry_readWipe buffer (sizeSub size 4) 4
              (getFrameId buffer size) s
            exact geometryInv_of_fields cfg s _ g1 g2 g3 h
          · exact h
  · exact h

theorem geometryInv_op (cfg : Config) (op : SlaveOp) (s : State) (h : GeometryInv cfg s) :
    GeometryInv cfg (op.run cfg s) := by
  cases op with
  | clearQueue => exact geometryInv_of_fields cfg s _ rfl rfl rfl h
  | updateQueue =>
    refine geometryInv_of_fields cfg s _ ?_ ?_ ?_ h <;>
      (simp only [SlaveOp.run, updateQueue]; split <;> rfl)
  | reinit y => exact geometryInv_reinit cfg y s h
  | packet sender buffer size => exact geometryInv_packet cfg sender buffer size s h
  | updateLedsFromQueue =>
    refine geometryInv_of_fields cfg s _ ?_ ?_ ?_ h <;>
      (simp only [SlaveOp.run, updateLedsFromQueue]; split <;> rfl)

theorem geometryInv_runOps (cfg : Config) (ops : List SlaveOp) (s : State)
    (h : GeometryInv cfg s) : GeometryInv cfg (runOps cfg s ops) := by
  induction ops generalizing s with
  | nil => exact h
  | cons op ops ih => exact ih (op.run cfg s) (geometryInv_op cfg op s h)

theorem geometryInv_slot_bound (cfg : Config) (s : State) (h : GeometryInv cfg s) :
    3 * s.ledsPerModule ≤
      ((cfg.VOXEL_MODULE_X_SIZE * cfg.MAX_VOXEL_Y_SIZE * cfg.VOXEL_MODULE_Z_SIZE * 3 : Nat) : Int) := by
  obtain ⟨h1, _, h3⟩ := h
  rw [h3]
  push_cast
  have hx : (0 : Int) ≤ cfg.VOXEL_MODULE_X_SIZE := Int.ofNat_nonneg _
  have hz : (0 : Int) ≤ cfg.VOXEL_MODULE_Z_SIZE := Int.ofNat_nonneg _
  have h4 : (cfg.VOXEL_MODULE_X_SIZE : Int) * s.voxelModuleYSize
      ≤ cfg.VOXEL_MODULE_X_SIZE * cfg.MAX_VOXEL_Y_SIZE := mul_le_mul_of_nonneg_left h1 hx
  have h5 := mul_le_mul_of_nonneg_right h4 hz
  linarith

/-- C12: geometry invariant.  In the initial state (`voxelModuleYSize = 0`) and
after any sequence of `reinit` calls, packets handled by
`onSerialPacketReceived` and the queue operations,
`voxelModuleYSize <= MAX_VOXEL_Y_SIZE`,
`ledsPerStrip = voxelModuleYSize * VOXEL_MODULE_Z_SIZE` and
`ledsPerModule = VOXEL_MODULE_X_SIZE * voxelModuleYSize * VOXEL_MODULE_Z_SIZE`;
hence the `3 * ledsPerModule` bytes copied for a full frame never exceed the
slot size `VOXEL_MODULE_X_SIZE * MAX_VOXEL_Y_SIZE * VOXEL_MODULE_Z_SIZE * 3`. -/
theorem geometry_invariant (cfg : Config) (ops : List SlaveOp) :
    initState.voxelModuleYSize = 0 ∧
    GeometryInv cfg (runOps cfg initState ops) ∧
    3 * (runOps cfg initState ops).ledsPerModule ≤
      ((cfg.VOXEL_MODULE_X_SIZE * cfg.MAX_VOXEL_Y_SIZE * cfg.VOXEL_MODULE_Z_SIZE * 3 : Nat) : Int) ∧
    (∀ (y : Byte) (sender : Bool) (buffer : Nat → Byte) (size : Nat),
      GeometryInv cfg (reinit cfg y (runOps cfg initState ops)) ∧
      GeometryInv cfg (onSerialPacketReceived cfg sender buffer size
        (runOps cfg initState ops))) := by
  have h0 : GeometryInv cfg initState := by
    unfold GeometryInv initState
    simp
  have h := geometryInv_runOps cfg ops initState h0
  exact ⟨rfl, h, geometryInv_slot_bound cfg _ h,
    fun y sender buffer size => ⟨geometryInv_reinit cfg y _ h,
      geometryInv_packet cfg sender buffer size _ h⟩⟩

theorem shiftMask_lt (colour : Int) (k : Nat) : shiftMask colour k < 256 := by
  unfold shiftMask
  omega

set_option maxRecDepth 100000 in
/-- C18: gamma table totality and range.  `gamma8` has exactly 256 entries; for
every byte value `v` the lookup `gamma8[v]` is defined, is the value
`pgm_read_gamma8 v` the firmware reads, and lies in `[0, 255]`; the three
indices `gammaMapColour` uses (`colour >> 16 & 0xFF`, `colour >> 8 & 0xFF`,
`colour & 0xFF`) are below 256 for every `colour`, so its result is below
`2 ^ 24`; and `gammaMapColour` gives equal outputs on equal inputs. -/
theorem gamma_table_total :
    gamma8.length = 256 ∧
    (∀ v : Byte, gamma8[v.val]? = some (pgm_read_gamma8 v.val) ∧ pgm_read_gamma8 v.val ≤ 255) ∧
    (∀ colour : Int, shiftMask colour 16 < 256 ∧ shiftMask colour 8 < 256 ∧
      shiftMask colour 0 < 256) ∧
    (∀ colour : Int, 0 ≤ gammaMapColour colour ∧ gammaMapColour colour < 16777216) ∧
    (∀ c1 c2 : Int, c1 = c2 → gammaMapColour c1 = gammaMapColour c2) := by
  have hlen : gamma8.length = 256 := rfl
  have hall : ∀ x ∈ gamma8, x ≤ 255 := by decide
  have hrange : ∀ v : Byte, gamma8[v.val]? = some (pgm_read_gamma8 v.val) ∧
      pgm_read_gamma8 v.val ≤ 255 := by
    intro v
    have hv : v.val < gamma8.length := by
      rw [hlen]
      exact v.isLt
    have hget : pgm_read_gamma8 v.val = gamma8[v.val] := List.getD_eq_getElem _ _ hv
    rw [hget]
    exact ⟨List.getElem?_eq_getElem hv, hall _ (List.getElem_mem hv)⟩
  have hlt : ∀ i : Nat, i < 256 → pgm_read_gamma8 i ≤ 255 := fun i hi => (hrange ⟨i, hi⟩).2
  refine ⟨hlen, hrange, fun colour => ⟨shiftMask_lt _ _, shiftMask_lt _ _, shiftMask_lt _ _⟩,
    fun colour => ?_, fun c1 c2 h => by rw [h]⟩
  have h16 := hlt _ (shiftMask_lt colour 16)
  have h8 := hlt _ (shiftMask_lt colour 8)
  have h0 := hlt _ (shiftMask_lt colour 0)
  unfold gammaMapColour
  refine ⟨Int.ofNat_nonneg _, ?_⟩
  have hb : (pgm_read_gamma8 (shiftMask colour 16) <<< 16 |||
      pgm_read_gamma8 (shiftMask colour 8) <<< 8 |||
      pgm_read_gamma8 (shiftMask colour 0)) < 2 ^ 24 := by
    apply Nat.or_lt_two_pow
    · apply Nat.or_lt_two_pow
      · rw [Nat.shiftLeft_eq]
        omega
      · rw [Nat.shiftLeft_eq]
        omega
    · omega
  exact_mod_cast hb

set_option maxRecDepth 100000 in
/-- C18 witness: `gamma8[255] = 255`, and on the colour `0xFF8000` the three
table indices are 255, 128 and 0. -/
theorem gamma_table_total_witness :
    gamma8[255]? = some 255 ∧ shiftMask 16744448 16 = 255 ∧ shiftMask 16744448 8 = 128 ∧
    shiftMask 16744448 0 = 0 ∧
    gammaMapColour (16744448 + 0) = gammaMapColour 16744448 := by
  obtain ⟨_, hr, _, _, hdet⟩ := gamma_table_total
  exact ⟨(hr 255).1, by decide, by decide, by decide, hdet _ _ (by decide)⟩

/-- C20: every welcome packet resets the stream state.  For every packet of
size above 2 for this slave with the welcome tag, whatever its y-size byte,
after `onSerialPacketReceived` `lastKnownFrameId = -1`, `queueCount = 0` and
`queueStartIdx = 0`, and `updateLedsFromQueue` finds nothing to dequeue. -/
theorem welcome_resets_stream (cfg : Config) (buffer : Nat → Byte) (size : Nat) (s : State)
    (hsize : 2 < size) (hid : ((buffer 0).val : Int) = MY_SLAVE_ID)
    (htag : buffer 1 = cfg.WELCOME_HEADER) :
    (onSerialPacketReceived cfg true buffer size s).lastKnownFrameId = -1 ∧
    (onSerialPacketReceived cfg true buffer size s).queueCount = 0 ∧
    (onSerialPacketReceived cfg true buffer size s).queueStartIdx = 0 ∧
    updateLedsFromQueue cfg (onSerialPacketReceived cfg true buffer size s) =
      (onSerialPacketReceived cfg true buffer size s, false) := by
  rw [welcome_dispatch cfg buffer size s hsize hid htag]
  obtain ⟨hl, hc, hs, _⟩ := readWelcomeHeader_fields cfg buffer (sizeSub size 2) 2 s
  refine ⟨hl, hc, hs, ?_⟩
  have : ¬ ((readWelcomeHeader cfg buffer (sizeSub size 2) 2 s).queueCount > 0) := by
    rw [hc]
    decide
  simp only [updateLedsFromQueue, this, if_false]

set_option maxRecDepth 100000 in
/-- C20 witness: with one frame queued (`exampleQueuedState`,
`lastKnownFrameId = 7`, `voxelModuleYSize = 8`) the welcome packets carrying the
y-sizes 0, 33, 8 and 5 all leave `lastKnownFrameId = -1` and an empty queue. -/
theorem welcome_resets_stream_witness :
    exampleQueuedState.lastKnownFrameId = 7 ∧ exampleQueuedState.queueCount = 1 ∧
    (onSerialPacketReceived exampleConfig true (exampleWelcomePacket 0) 3
      exampleQueuedState).queueCount = 0 ∧
    (onSerialPacketReceived exampleConfig true (exampleWelcomePacket 33) 3
      exampleQueuedState).queueCount = 0 ∧
    (onSerialPacketReceived exampleConfig true (exampleWelcomePacket 8) 3
      exampleQueuedState).lastKnownFrameId = -1 ∧
    (onSerialPacketReceived exampleConfig true (exampleWelcomePacket 5) 3
      exampleQueuedState).lastKnownFrameId = -1 := by
  have h0 := welcome_resets_stream exampleConfig (exampleWelcomePacket 0) 3 exampleQueuedState
    (by decide) (by decide) (by decide)
  have h33 := welcome_resets_stream exampleConfig (exampleWelcomePacket 33) 3 exampleQueuedState
    (by decide) (by decide) (by decide)
  have h8 := welcome_resets_stream exampleConfig (exampleWelcomePacket 8) 3 exampleQueuedState
    (by decide) (by decide) (by decide)
  have h5 := welcome_resets_stream exampleConfig (exampleWelcomePacket 5) 3 exampleQueuedState
    (by decide) (by decide) (by decide)
  exact ⟨by decide, by decide, h0.2.1, h33.2.1, h8.1, h5.1⟩

/-- The tokenizer loop in closed form: the vector receives the bytes before the
first delimiter, the delimiter is dropped, the bytes after it stay unread. -/
theorem readUntilLoop_spec (d : Byte) (s acc : List Byte) :
    readUntilLoop d s acc =
      (acc ++ s.takeWhile (fun c => decide (c ≠ d)),
        (s.dropWhile (fun c => decide (c ≠ d))).tail) := by
  induction s generalizing acc with
  | nil => simp [readUntilLoop]
  | cons c rest ih =>
    unfold readUntilLoop
    by_cases hc : c = d
    · subst hc
      simp
    · have hne : ¬ ((acc ++ [c]).getLast? = some d) := by
        simp [hc]
      simp only [hne, if_false, ih]
      simp [hc]

theorem readUntil_eq (u : Udp) (buffer : List Byte) (d : Byte) :
    readUntil u buffer d =
      ({ u with rx := (u.rx.dropWhile (fun c => decide (c ≠ d))).tail },
        u.rx.takeWhile (fun c => decide (c ≠ d))) := by
  simp [readUntil, vectorClear, readUntilLoop_spec]

theorem takeWhile_token (d : Byte) (t r : List Byte) (h : d ∉ t) :
    (t ++ d :: r).takeWhile (fun c => decide (c ≠ d)) = t ∧
    (t ++ d :: r).dropWhile (fun c => decide (c ≠ d)) = d :: r := by
  have hall : ∀ a ∈ t, (fun c => decide (c ≠ d)) a = true := by
    intro a ha
    simp only [decide_eq_true_eq]
    exact fun hx => h (hx ▸ ha)
  rw [List.takeWhile_append_of_pos hall, List.dropWhile_append_of_pos hall]
  simp

theorem takeWhile_no_delim (d : Byte) (t : List Byte) (h : d ∉ t) :
    t.takeWhile (fun c => decide (c ≠ d)) = t ∧
    t.dropWhile (fun c => decide (c ≠ d)) = [] := by
  have hall : ∀ a ∈ t, (fun c => decide (c ≠ d)) a = true := by
    intro a ha
    simp only [decide_eq_true_eq]
    exact fun hx => h (hx ▸ ha)
  exact ⟨List.takeWhile_eq_self_iff.mpr hall, List.dropWhile_eq_nil_iff.mpr hall⟩

theorem split_at_delim (d : Byte) (s : List Byte) (h : d ∈ s) :
    ∃ t r, s = t ++ d :: r ∧ d ∉ t := by
  induction s with
  | nil => simp at h
  | cons c rest ih =>
    by_cases hc : c = d
    · exact ⟨[], rest, by simp [hc], by simp⟩
    · have hr : d ∈ rest := by
        rcases List.mem_cons.mp h with h1 | h1
        · exact absurd h1.symm hc
        · exact h1
      obtain ⟨t, r, hs, ht⟩ := ih hr
      refine ⟨c :: t, r, by simp [hs], ?_⟩
      intro hmem
      rcases List.mem_cons.mp hmem with h1 | h1
      · exact hc h1.symm
      · exact ht h1

/-- C19: field tokenizer `readUntil`.  On the unread bytes `s` with delimiter
`d`, whatever the output vector held before, the token returned is the longest
prefix of `s` without `d`: it contains no `d`, and every prefix of `s` without
`d` is a prefix of it.  If `d` occurs in `s`, the delimiter is consumed:
`token ++ [d] ++ rest = s` for the bytes `rest` left unread; otherwise the token
is all of `s` and nothing is left.  A second call continues with `rest`, so two
calls on `t1 ++ [d] ++ t2 ++ [d] ++ r` (no `d` in `t1`, `t2`) return `t1`, then
`t2`, and leave `r`. -/
theorem readUntil_tokenizer (u : Udp) (buffer : List Byte) (d : Byte) :
    d ∉ (readUntil u buffer d).2 ∧
    (readUntil u buffer d).2 <+: u.rx ∧
    (∀ p : List Byte, p <+: u.rx → d ∉ p → p <+: (readUntil u buffer d).2) ∧
    (d ∈ u.rx → (readUntil u buffer d).2 ++ [d] ++ (readUntil u buffer d).1.rx = u.rx) ∧
    (d ∉ u.rx → (readUntil u buffer d).2 = u.rx ∧ (readUntil u buffer d).1.rx = []) ∧
    (∀ buffer2 : List Byte, readUntil u buffer2 d = readUntil u buffer d) ∧
    (readUntil u buffer d).1.incoming = u.incoming ∧
    (readUntil u buffer d).1.remote = u.remote ∧
    (∀ t1 t2 r : List Byte, d ∉ t1 → d ∉ t2 → u.rx = t1 ++ [d] ++ t2 ++ [d] ++ r →
      (readUntil u buffer d).2 = t1 ∧
      (readUntil (readUntil u buffer d).1 (readUntil u buffer d).2 d).2 = t2 ∧
      (readUntil (readUntil u buffer d).1 (readUntil u buffer d).2 d).1.rx = r) := by
  rw [readUntil_eq]
  have hnotin : d ∉ u.rx.takeWhile (fun c => decide (c ≠ d)) := by
    intro hmem
    have := List.mem_takeWhile_imp hmem
    simp at this
  refine ⟨hnotin, List.takeWhile_prefix _, ?_, ?_, ?_, ?_, rfl, rfl, ?_⟩
  · rintro p ⟨r, hr⟩ hp
    rw [← hr]
    have hall : ∀ a ∈ p, (fun c => decide (c ≠ d)) a = true := by
      intro a ha
      simp only [decide_eq_true_eq]
      exact fun hx => hp (hx ▸ ha)
    rw [List.takeWhile_append_of_pos hall]
    exact List.prefix_append _ _
  · intro hmem
    obtain ⟨t, r, hs, ht⟩ := split_at_delim d u.rx hmem
    obtain ⟨h1, h2⟩ := takeWhile_token d t r ht
    rw [hs, h1, h2]
    simp
  · intro hno
    obtain ⟨h1, h2⟩ := takeWhile_no_delim d u.rx hno
    rw [h1, h2]
    exact ⟨rfl, rfl⟩
  · intro buffer2
    rw [readUntil_eq]
  · intro t1 t2 r h1 h2 hs
    have hs2 : u.rx = t1 ++ d :: (t2 ++ d :: r) := by
      rw [hs]
      simp
    obtain ⟨a1, a2⟩ := takeWhile_token d t1 (t2 ++ d :: r) h1
    obtain ⟨b1, b2⟩ := takeWhile_token d t2 r h2
    rw [readUntil_eq]
    simp only [hs2, a1, a2, List.tail_cons, b1, b2]
    exact ⟨trivial, trivial, trivial⟩

/-- C19 witness: on the unread bytes `10 20 30` with the delimiter space and an
output vector that held three other bytes, the first call returns `10` and
leaves `20 30`; the second call returns `20` and leaves `30`. -/
theorem readUntil_tokenizer_witness :
    (readUntil ⟨[], ascii "10 20 30", exampleServerIP⟩ [1, 2, 3] 32).2 = ascii "10" ∧
    (readUntil ⟨[], ascii "10 20 30", exampleServerIP⟩ [1, 2, 3] 32).1.rx = ascii "20 30" ∧
    (readUntil (readUntil ⟨[], ascii "10 20 30", exampleServerIP⟩ [1, 2, 3] 32).1
      (readUntil ⟨[], ascii "10 20 30", exampleServerIP⟩ [1, 2, 3] 32).2 32).2 = ascii "20" ∧
    (readUntil (readUntil ⟨[], ascii "10 20 30", exampleServerIP⟩ [1, 2, 3] 32).1
      (readUntil ⟨[], ascii "10 20 30", exampleServerIP⟩ [1, 2, 3] 32).2 32).1.rx = ascii "30" := by
  obtain ⟨_, _, _, hsplit, _, _, _, _, htwo⟩ :=
    readUntil_tokenizer ⟨[], ascii "10 20 30", exampleServerIP⟩ [1, 2, 3] 32
  obtain ⟨h1, h2, h3⟩ := htwo (ascii "10") (ascii "20") (ascii "30") (by decide) (by decide)
    (by decide)
  have h4 := hsplit (by decide)
  rw [h1] at h4
  exact ⟨h1, List.append_cancel_left h4, h2, h3⟩

theorem setState_state {R : Type} (rl : Relay R) (nextState : StateType) (m : MasterClient R) :
    (setState rl nextState m).state = nextState := by
  cases nextState <;> rfl

/-- C17: state re-entry effects of `setState`.  From every prior state:
`setState(DISCOVERING)` leaves `state = DISCOVERING`,
`discoveryPacketTimerMicroSecs = 0` and the TCP socket not connected (stopped
if it was connected, untouched otherwise); `setState(CONNECTED)` leaves
`state = CONNECTED` with the packet reader reset; `setState(CONNECTING)` only
sets `state = CONNECTING`; `serverAddr` and `serverPort` are unchanged in all
three cases. -/
theorem setState_effects {R : Type} (rl : Relay R) (m : MasterClient R) :
    ((setState rl .DISCOVERING m).state = .DISCOVERING ∧
      (setState rl .DISCOVERING m).discoveryPacketTimerMicroSecs = 0 ∧
      (setState rl .DISCOVERING m).tcp.connected = false ∧
      (m.tcp.connected = true → (setState rl .DISCOVERING m).tcp = m.tcp.stop) ∧
      (m.tcp.connected = false → (setState rl .DISCOVERING m).tcp = m.tcp) ∧
      (setState rl .DISCOVERING m).serverAddr = m.serverAddr ∧
      (setState rl .DISCOVERING m).serverPort = m.serverPort) ∧
    ((setState rl .CONNECTED m).state = .CONNECTED ∧
      (setState rl .CONNECTED m).relay = rl.reset m.relay ∧
      (setState rl .CONNECTED m).serverAddr = m.serverAddr ∧
      (setState rl .CONNECTED m).serverPort = m.serverPort) ∧
    (setState rl .CONNECTING m = { m with state := .CONNECTING } ∧
      (setState rl .CONNECTING m).state = .CONNECTING ∧
      (setState rl .CONNECTING m).serverAddr = m.serverAddr ∧
      (setState rl .CONNECTING m).serverPort = m.serverPort) := by
  refine ⟨?_, ⟨rfl, rfl, rfl, rfl⟩, ⟨rfl, rfl, rfl, rfl⟩⟩
  by_cases hc : m.tcp.connected = true
  · have hrun : setState rl .DISCOVERING m =
        { m with discoveryPacketTimerMicroSecs := 0, tcp := m.tcp.stop,
                 state := .DISCOVERING } := by
      simp only [setState, hc, if_true]
    rw [hrun]
    exact ⟨rfl, rfl, rfl, fun _ => rfl, fun h => by rw [hc] at h; exact absurd h (by decide),
      rfl, rfl⟩
  · have hf : m.tcp.connected = false := by
      cases h : m.tcp.connected
      · rfl
      · exact absurd h hc
    have hrun : setState rl .DISCOVERING m =
        { m with discoveryPacketTimerMicroSecs := 0, state := .DISCOVERING } := by
      simp only [setState, hf, Bool.false_eq_true, if_false]
    rw [hrun]
    exact ⟨rfl, rfl, hf, fun h => absurd h hc, fun _ => rfl, rfl, rfl⟩

/-- C17 witness: an example client whose TCP socket is connected and whose
timer holds 500 re-enters `DISCOVERING` with the socket stopped and the timer
0; entering `CONNECTED` resets the reader state 7 to 0. -/
theorem setState_effects_witness :
    (setState exampleRelay .DISCOVERING
        { exampleMaster [] with state := .CONNECTED,
                                tcp := { connected := true, status := true } }).tcp
      = { connected := false, status := false } ∧
    (setState exampleRelay .DISCOVERING
        { exampleMaster [] with state := .CONNECTED,
                                tcp := { connected := true, status := true } }
      ).discoveryPacketTimerMicroSecs = 0 ∧
    (setState exampleRelay .CONNECTED (exampleMaster [])).relay = 0 ∧
    (setState exampleRelay .CONNECTED (exampleMaster [])).state = .CONNECTED := by
  obtain ⟨⟨_, h2, _, h4, _⟩, _⟩ := setState_effects exampleRelay
    { exampleMaster [] with state := .CONNECTED, tcp := { connected := true, status := true } }
  obtain ⟨_, ⟨c1, c2, _⟩, _⟩ := setState_effects exampleRelay (exampleMaster [])
  exact ⟨h4 rfl, h2, c2, c1⟩

/-- C16: connection state transitions on transport outcome.
`initiateConnectionWithServer` called in state `CONNECTING` ends in `CONNECTED`
with the packet reader reset when the TCP connect succeeds, and in
`DISCOVERING` when it fails; called in any other state it changes nothing.
`receiveServerPacket` called in state `CONNECTED` ends in `CONNECTING` when
`status()` and `connected()` are both false, and otherwise leaves the state
`CONNECTED`; it keeps `serverAddr` and `serverPort` in both cases, and changes
nothing when called in another state. -/
theorem connection_transitions {R : Type} (rl : Relay R) (m : MasterClient R) :
    (m.state = .CONNECTING →
      (initiateConnectionWithServer rl true m).state = .CONNECTED ∧
      (initiateConnectionWithServer rl true m).relay = rl.reset (rl.reset m.relay) ∧
      (initiateConnectionWithServer rl false m).state = .DISCOVERING) ∧
    (m.state ≠ .CONNECTING → ∀ ok : Bool, initiateConnectionWithServer rl ok m = m) ∧
    (m.state = .CONNECTED → ∀ dt : Nat,
      (m.tcp.status = false ∧ m.tcp.connected = false →
        (receiveServerPacket rl dt m).state = .CONNECTING) ∧
      (¬ (m.tcp.status = false ∧ m.tcp.connected = false) →
        (receiveServerPacket rl dt m).state = .CONNECTED) ∧
      (receiveServerPacket rl dt m).serverAddr = m.serverAddr ∧
      (receiveServerPacket rl dt m).serverPort = m.serverPort) ∧
    (m.state ≠ .CONNECTED → ∀ dt : Nat, receiveServerPacket rl dt m = m) := by
  refine ⟨fun hs => ?_, fun hs ok => ?_, fun hs dt => ?_, fun hs dt => ?_⟩
  · have hne : ¬ (m.state ≠ .CONNECTING) := fun h => h hs
    refine ⟨?_, ?_, ?_⟩
    · simp only [initiateConnectionWithServer, hne, if_false, Tcp.connect, if_true]
      rfl
    · simp only [initiateConnectionWithServer, hne, if_false, Tcp.connect, if_true]
      rfl
    · simp only [initiateConnectionWithServer, hne, if_false, Tcp.connect,
        Bool.false_eq_true]
      exact setState_state rl _ _
  · simp only [initiateConnectionWithServer, hs, if_true, ne_eq, not_false_eq_true]
  · have hne : ¬ (m.state ≠ .CONNECTED) := fun h => h hs
    by_cases hclosed : m.tcp.status = false ∧ m.tcp.connected = false
    · have hrun : receiveServerPacket rl dt m = setState rl .CONNECTING m := by
        simp only [receiveServerPacket, hne, if_false, hclosed, and_self, if_true]
      rw [hrun]
      exact ⟨fun _ => rfl, fun h => absurd hclosed h, rfl, rfl⟩
    · have hrun : receiveServerPacket rl dt m =
          { m with relay := (rl.readUDP m.relay m.udp dt).2.1,
                   udp := (rl.readUDP m.relay m.udp dt).2.2 } := by
        simp only [receiveServerPacket, hne, if_false, hclosed]
      rw [hrun]
      exact ⟨fun h => absurd h hclosed, fun _ => hs, rfl, rfl⟩
  · simp only [receiveServerPacket, hs, if_true, ne_eq, not_false_eq_true]

/-- C16 witness: the example client in state `CONNECTING` becomes `CONNECTED`
with the reader state reset to 0 when the connect succeeds and `DISCOVERING`
when it fails; in state `CONNECTED` with the socket closed it falls back to
`CONNECTING` and keeps `serverPort`, with the socket open it stays `CONNECTED`. -/
theorem connection_transitions_witness :
    (initiateConnectionWithServer exampleRelay true
      { exampleMaster [] with state := .CONNECTING }).state = .CONNECTED ∧
    (initiateConnectionWithServer exampleRelay true
      { exampleMaster [] with state := .CONNECTING }).relay = 0 ∧
    (initiateConnectionWithServer exampleRelay false
      { exampleMaster [] with state := .CONNECTING }).state = .DISCOVERING ∧
    (receiveServerPacket exampleRelay 100
      { exampleMaster [] with state := .CONNECTED, serverPort := 20001 }).state = .CONNECTING ∧
    (receiveServerPacket exampleRelay 100
      { exampleMaster [] with state := .CONNECTED, serverPort := 20001 }).serverPort = 20001 ∧
    (receiveServerPacket exampleRelay 100
      { exampleMaster [] with state := .CONNECTED,
                              tcp := { connected := true, status := true } }).state
      = .CONNECTED := by
  obtain ⟨hc, _, _, _⟩ := connection_transitions exampleRelay
    { exampleMaster [] with state := .CONNECTING }
  obtain ⟨_, _, hr, _⟩ := connection_transitions exampleRelay
    { exampleMaster [] with state := .CONNECTED, serverPort := 20001 }
  obtain ⟨_, _, ho, _⟩ := connection_transitions exampleRelay
    { exampleMaster [] with state := .CONNECTED, tcp := { connected := true, status := true } }
  obtain ⟨c1, c2, c3⟩ := hc rfl
  obtain ⟨r1, _, _, r4⟩ := hr rfl 100
  obtain ⟨_, o2, _, _⟩ := ho rfl 100
  exact ⟨c1, c2, c3, r1 (by decide), r4, o2 (by decide)⟩

theorem toChar_val (c : Byte) : toChar (c.val : Int) = c := by
  apply Fin.ext
  have := c.isLt
  simp only [toChar, Fin.ofNat, Fin.val_mk]
  omega

theorem digit_bounds (c : Byte) (h : isDigit c = true) : 48 ≤ c.val ∧ c.val ≤ 57 := by
  simpa [isDigit] using h

/-- Reading digits never lowers a non-negative accumulator. -/
theorem foldl_digits_ge (t : List Byte) (hd : ∀ c ∈ t, isDigit c = true) :
    ∀ acc : Int, 0 ≤ acc → acc ≤ t.foldl (fun acc c => acc * 10 + ((c.val : Int) - 48)) acc := by
  induction t with
  | nil => exact fun acc _ => Int.le_refl _
  | cons c rest ih =>
    intro acc h0
    obtain ⟨h1, h2⟩ := digit_bounds c (hd c (List.mem_cons_self _ _))
    have hstep : acc ≤ acc * 10 + ((c.val : Int) - 48) := by omega
    exact Int.le_trans hstep
      (ih (fun x hx => hd x (List.mem_cons_of_mem _ hx)) _ (by omega))

/-- While the digits read stay within `limit`, the digit loop returns their
decimal value. -/
theorem atoiDigits_in_range (limit : Int) (t : List Byte) (hd : ∀ c ∈ t, isDigit c = true) :
    ∀ acc : Int, 0 ≤ acc →
      t.foldl (fun acc c => acc * 10 + ((c.val : Int) - 48)) acc ≤ limit →
      atoiDigits limit t acc = t.foldl (fun acc c => acc * 10 + ((c.val : Int) - 48)) acc := by
  induction t with
  | nil => exact fun acc _ _ => rfl
  | cons c rest ih =>
    intro acc h0 hle
    have hc := hd c (List.mem_cons_self _ _)
    obtain ⟨h1, h2⟩ := digit_bounds c hc
    have hrest : ∀ x ∈ rest, isDigit x = true := fun x hx => hd x (List.mem_cons_of_mem _ hx)
    have hnn : 0 ≤ acc * 10 + ((c.val : Int) - 48) := by omega
    have hge := foldl_digits_ge rest hrest _ hnn
    simp only [List.foldl_cons] at hle ⊢
    have hmin : min limit (acc * 10 + ((c.val : Int) - 48)) = acc * 10 + ((c.val : Int) - 48) :=
      min_eq_right (Int.le_trans hge hle)
    simp only [atoiDigits, hc, if_true, hmin]
    exact ih hrest _ hnn hle

/-- Once the digit loop has reached `limit` it stays there. -/
theorem atoiDigits_limit (limit : Int) (h0 : 0 ≤ limit) (t : List Byte)
    (hd : ∀ c ∈ t, isDigit c = true) : atoiDigits limit t limit = limit := by
  induction t with
  | nil => rfl
  | cons c rest ih =>
    have hc := hd c (List.mem_cons_self _ _)
    obtain ⟨h1, h2⟩ := digit_bounds c hc
    have hmin : min limit (limit * 10 + ((c.val : Int) - 48)) = limit :=
      min_eq_left (by omega)
    simp only [atoiDigits, hc, if_true, hmin]
    exact ih (fun x hx => hd x (List.mem_cons_of_mem _ hx))

/-- When the digits read exceed `limit`, the digit loop returns `limit`. -/
theorem atoiDigits_saturated (limit : Int) (t : List Byte) (hd : ∀ c ∈ t, isDigit c = true) :
    ∀ acc : Int, 0 ≤ acc → acc ≤ limit →
      limit < t.foldl (fun acc c => acc * 10 + ((c.val : Int) - 48)) acc →
      atoiDigits limit t acc = limit := by
  induction t with
  | nil =>
    intro acc _ hle hlt
    simp only [List.foldl_nil] at hlt
    omega
  | cons c rest ih =>
    intro acc h0 hle hlt
    have hc := hd c (List.mem_cons_self _ _)
    obtain ⟨h1, h2⟩ := digit_bounds c hc
    have hrest : ∀ x ∈ rest, isDigit x = true := fun x hx => hd x (List.mem_cons_of_mem _ hx)
    simp only [List.foldl_cons] at hlt
    simp only [atoiDigits, hc, if_true]
    rcases Int.lt_or_le limit (acc * 10 + ((c.val : Int) - 48)) with hbig | hsmall
    · rw [min_eq_left (Int.le_of_lt hbig)]
      exact atoiDigits_limit limit (by omega) rest hrest
    · rw [min_eq_right hsmall]
      exact ih hrest _ (by omega) hsmall hlt

/-- The cast to `int` keeps a value of the non-negative `int` range. -/
theorem longToInt_of_range (v : Int) (h0 : 0 ≤ v) (h1 : v < 2147483648) : longToInt v = v := by
  unfold longToInt toInt
  have e : (v % 4294967296).toNat % 4294967296 = v.toNat := by omega
  rw [e]
  split <;> omega

/-- Cutting to 16 bits after the cast to `int` is cutting to 16 bits. -/
theorem toUInt16_longToInt (v : Int) : toUInt16 (longToInt v) = toUInt16 v := by
  unfold toUInt16 longToInt toInt
  split <;> omega

/-- The low bits of `LONG_MAX` are all ones. -/
theorem long_max_low_bits (longBits : Nat) (h : 32 ≤ longBits) :
    toUInt16 (LONG_MAX longBits) = 65535 ∧ toUInt8 (LONG_MAX longBits) = 255 ∧
    2147483647 ≤ LONG_MAX longBits := by
  obtain ⟨k, hk, hk1⟩ : ∃ k : Nat, 2 ^ (longBits - 1) = 2147483648 * k ∧ 1 ≤ k := by
    refine ⟨2 ^ (longBits - 32), ?_, Nat.one_le_two_pow⟩
    have e : longBits - 1 = 31 + (longBits - 32) := by omega
    rw [e, Nat.pow_add]
  unfold LONG_MAX
  rw [hk]
  refine ⟨?_, ?_, ?_⟩
  · unfold toUInt16
    push_cast
    omega
  · have e : ∀ a : Int, a % 256 = 255 → (Fin.ofNat (a % 256).toNat : Byte) = 255 :=
      fun a h => by rw [h]; rfl
    unfold toUInt8
    apply e
    push_cast
    omega
  · push_cast
    omega

/-- On a decimal field `atoi` runs the digit loop on the whole field. -/
theorem atoi_of_decimal (longBits : Nat) (t : List Byte) (h : IsDecimal t) :
    atoi longBits t = longToInt (atoiDigits (LONG_MAX longBits) t 0) := by
  obtain ⟨hne, hd⟩ := h
  cases t with
  | nil => exact absurd rfl hne
  | cons c rest =>
    obtain ⟨h1, h2⟩ := digit_bounds c (hd c (List.mem_cons_self _ _))
    have hsp : isSpace c = false := by
      simp only [isSpace, Bool.or_eq_false_iff, decide_eq_false_iff_not, Bool.and_eq_false_iff]
      omega
    have hdrop : (c :: rest).dropWhile isSpace = c :: rest := by
      simp [List.dropWhile_cons, hsp]
    unfold atoi
    rw [hdrop]
    simp only
    rw [if_neg (by omega), if_neg (by omega)]

/-- On a decimal field whose value fits a `long`, `atoi` returns the value cut
to the 32 bits of `int`. -/
theorem atoi_decimal_long (longBits : Nat) (t : List Byte) (h : IsDecimal t)
    (hr : decimalValue t ≤ LONG_MAX longBits) :
    atoi longBits t = longToInt (decimalValue t) := by
  rw [atoi_of_decimal longBits t h, atoiDigits_in_range _ t h.2 0 (Int.le_refl 0) hr]
  rfl

/-- On a decimal field whose value fits an `int`, `atoi` returns its decimal
value. -/
theorem atoi_decimal (longBits : Nat) (h32 : 32 ≤ longBits) (t : List Byte) (h : IsDecimal t)
    (hr : decimalValue t < 2147483648) : atoi longBits t = decimalValue t := by
  have hmax := (long_max_low_bits longBits h32).2.2
  have hnn : 0 ≤ decimalValue t := foldl_digits_ge t h.2 0 (Int.le_refl 0)
  rw [atoi_decimal_long longBits t h (by omega)]
  exact longToInt_of_range _ hnn hr

/-- On a decimal field whose value does not fit a `long`, `atoi` returns
`LONG_MAX` cut to the 32 bits of `int`. -/
theorem atoi_decimal_saturated (longBits : Nat) (h32 : 32 ≤ longBits) (t : List Byte)
    (h : IsDecimal t) (hr : LONG_MAX longBits < decimalValue t) :
    atoi longBits t = longToInt (LONG_MAX longBits) := by
  have hmax := (long_max_low_bits longBits h32).2.2
  rw [atoi_of_decimal longBits t h,
    atoiDigits_saturated _ t h.2 0 (Int.le_refl 0) (by omega) hr]

theorem decimal_no_delim (t : List Byte) (h : IsDecimal t) : (32 : Byte) ∉ t ∧ (59 : Byte) ∉ t := by
  constructor <;>
  · intro hmem
    have := digit_bounds _ (h.2 _ hmem)
    revert this
    decide

theorem readUntil_token (u : Udp) (buffer : List Byte) (d : Byte) (t rest : List Byte)
    (ht : d ∉ t) (hrx : u.rx = t ++ d :: rest) :
    readUntil u buffer d = ({ u with rx := rest }, t) := by
  obtain ⟨h1, h2⟩ := takeWhile_token d t rest ht
  rw [readUntil_eq, hrx, h1, h2]
  rfl

theorem readUntil_last (u : Udp) (buffer : List Byte) (d : Byte) (ht : d ∉ u.rx) :
    readUntil u buffer d = ({ u with rx := [] }, u.rx) := by
  obtain ⟨h1, h2⟩ := takeWhile_no_delim d u.rx ht
  rw [readUntil_eq, h1, h2]
  rfl

theorem readUntil_empty (u : Udp) (buffer : List Byte) (d : Byte)
    (h : u.rx = [] ∨ ∃ r, u.rx = d :: r) : (readUntil u buffer d).2 = [] := by
  rw [readUntil_eq]
  rcases h with h | ⟨r, h⟩
  · rw [h]
    rfl
  · rw [h]
    simp

theorem readAddressLoop_step (lb n i : Nat) (u : Udp) (tempBuffer : List Byte)
    (parts : Nat → Byte) (t rest : List Byte) (hf : IsField t) (hrx : u.rx = t ++ 32 :: rest) :
    readAddressLoop lb (n + 1) i u tempBuffer parts =
      readAddressLoop lb n (i + 1) { u with rx := rest } t
        (fun k => if k = i then toUInt8 (atoi lb t) else parts k) := by
  rw [readAddressLoop, readUntil_token u tempBuffer 32 t rest hf.2 hrx]
  simp only [ne_eq, hf.1, not_false_eq_true, if_true]

/-- The address loop on four fields: the array holds the four converted
octets. -/
theorem readAddressLoop_four (lb : Nat) (u : Udp) (tempBuffer : List Byte)
    (ta tb tc td rest : List Byte)
    (ha : IsField ta) (hb : IsField tb) (hc : IsField tc) (hd : IsField td)
    (hrx : u.rx = spaced [ta, tb, tc, td] ++ rest) :
    ∃ parts : Nat → Byte,
      readAddressLoop lb 4 0 u tempBuffer (fun _ => 0)
        = (some parts, { u with rx := rest }, td) ∧
      IPAddress.ofParts parts =
        ⟨toUInt8 (atoi lb ta), toUInt8 (atoi lb tb), toUInt8 (atoi lb tc),
          toUInt8 (atoi lb td)⟩ := by
  have hrx1 : u.rx = ta ++ 32 :: (spaced [tb, tc, td] ++ rest) := by
    simpa [spaced] using hrx
  have hrx2 : spaced [tb, tc, td] ++ rest = tb ++ 32 :: (spaced [tc, td] ++ rest) := by
    simp [spaced]
  have hrx3 : spaced [tc, td] ++ rest = tc ++ 32 :: (spaced [td] ++ rest) := by
    simp [spaced]
  have hrx4 : spaced [td] ++ rest = td ++ 32 :: rest := by
    simp [spaced]
  refine ⟨fun k => if k = 3 then toUInt8 (atoi lb td) else if k = 2 then toUInt8 (atoi lb tc)
    else if k = 1 then toUInt8 (atoi lb tb) else if k = 0 then toUInt8 (atoi lb ta) else 0,
    ?_, ?_⟩
  · rw [readAddressLoop_step lb 3 0 u tempBuffer _ ta _ ha hrx1,
      readAddressLoop_step lb 2 1 _ ta _ tb _ hb hrx2,
      readAddressLoop_step lb 1 2 _ tb _ tc _ hc hrx3,
      readAddressLoop_step lb 0 3 _ tc _ td _ hd hrx4]
    rfl
  · simp [IPAddress.ofParts]

theorem three_reads (u : Udp) :
    (u.read.2.read.2.read.2).rx = u.rx.drop 3 ∧
    (3 ≤ u.rx.length →
      [toChar u.read.1, toChar u.read.2.read.1, toChar u.read.2.read.2.read.1] = u.rx.take 3) := by
  obtain ⟨inc, rx, rem⟩ := u
  cases rx with
  | nil => exact ⟨rfl, fun h => absurd h (by simp)⟩
  | cons c1 r1 =>
    cases r1 with
    | nil => exact ⟨rfl, fun h => absurd h (by simp)⟩
    | cons c2 r2 =>
      cases r2 with
      | nil => exact ⟨rfl, fun h => absurd h (by simp)⟩
      | cons c3 r3 =>
        refine ⟨rfl, fun _ => ?_⟩
        simp [Udp.read, toChar_val]

/-- Without the separating space after the header, nothing but the socket
changes. -/
theorem readAckBody_no_space {R : Type} (cfg : MasterConfig) (net : LocalNet) (rl : Relay R)
    (tempBuffer : List Byte) (m : MasterClient R) (h : m.udp.rx.head? ≠ some 32) :
    ∃ u : Udp, readAckBody cfg net rl tempBuffer m = { m with udp := u } := by
  have hcond : ¬ (m.udp.available ≠ 0 ∧ m.udp.read.1 = 32) := by
    rintro ⟨_, h2⟩
    apply h
    cases hrx : m.udp.rx with
    | nil =>
      simp [Udp.read, hrx] at h2
    | cons c r =>
      simp only [Udp.read, hrx] at h2
      have h3 : ((c.val : Nat) : Int) = 32 := h2
      have hv : c.val = 32 := by omega
      have hc : c = 32 := Fin.ext hv
      rw [hc]
      rfl
  exact ⟨_, by rw [readAckBody, if_neg hcond]⟩

theorem readAckBody_space {R : Type} (cfg : MasterConfig) (net : LocalNet) (rl : Relay R)
    (tempBuffer : List Byte) (m : MasterClient R) (rest : List Byte)
    (hrx : m.udp.rx = 32 :: rest) :
    readAckBody cfg net rl tempBuffer m =
      readAckFields cfg net rl tempBuffer { m with udp := { m.udp with rx := rest } } := by
  have h1 : m.udp.available ≠ 0 := by
    simp only [Udp.available, hrx, List.length_cons]
    omega
  have h2 : m.udp.read = (32, { m.udp with rx := rest }) := by
    simp only [Udp.read, hrx]
    rfl
  rw [readAckBody, if_pos ⟨h1, by rw [h2]⟩, h2]

/-- A packet whose header differs from `DISCOVERY_ACK`, or that has no space
after the header, changes nothing but the socket. -/
theorem ack_rejected_early {R : Type} (cfg : MasterConfig) (net : LocalNet) (rl : Relay R)
    (m : MasterClient R) (d : Datagram) (ds : List Datagram)
    (hinc : m.udp.incoming = d :: ds)
    (hrej : d.data.take 3 ≠ cfg.DISCOVERY_ACK ∨ (d.data.drop 3).head? ≠ some 32 ∨
      ¬ ((d.data.length : Int) ≥ cfg.DISCOVERY_ACK_PACKET_MIN_SIZE)) :
    ∃ u : Udp, receiveDiscoveryAck cfg net rl m = { m with udp := u } := by
  unfold receiveDiscoveryAck
  split
  · exact ⟨m.udp, rfl⟩
  · have hp : m.udp.parsePacket =
        ((d.data.length : Int), { incoming := ds, rx := d.data, remote := d.remoteIP }) := by
      simp only [Udp.parsePacket, hinc]
    rw [hp]
    dsimp only
    split
    · rename_i hmin
      obtain ⟨hrx, htake⟩ := three_reads { incoming := ds, rx := d.data, remote := d.remoteIP }
      split
      · rename_i hhdr
        have hnospace : (d.data.drop 3).head? ≠ some 32 := by
          rcases hrej with h | h | h
          · by_cases hlen : 3 ≤ d.data.length
            · exact absurd ((htake hlen).symm.trans hhdr) h
            · have : d.data.drop 3 = [] := List.drop_eq_nil_of_le (by omega)
              rw [this]
              simp
          · exact h
          · exact absurd hmin h
        obtain ⟨u, hu⟩ := readAckBody_no_space cfg net rl _
          { m with udp := (Udp.read (Udp.read (Udp.read
              { incoming := ds, rx := d.data, remote := d.remoteIP }).2).2).2 }
          (by
            show (Udp.read (Udp.read (Udp.read
              { incoming := ds, rx := d.data, remote := d.remoteIP }).2).2).2.rx.head? ≠ some 32
            rw [hrx]
            exact hnospace)
        exact ⟨u, hu⟩
      · exact ⟨_, rfl⟩
    · exact ⟨_, rfl⟩

/-- A well-headed packet is handed to the field reader with the four header
bytes consumed. -/
theorem ack_dispatch {R : Type} (cfg : MasterConfig) (net : LocalNet) (rl : Relay R)
    (m : MasterClient R) (d : Datagram) (ds : List Datagram) (rest : List Byte)
    (hst : m.state = .DISCOVERING) (hinc : m.udp.incoming = d :: ds)
    (hmin : (d.data.length : Int) ≥ cfg.DISCOVERY_ACK_PACKET_MIN_SIZE)
    (hlen : cfg.DISCOVERY_ACK.length = 3)
    (hdata : d.data = cfg.DISCOVERY_ACK ++ 32 :: rest) :
    receiveDiscoveryAck cfg net rl m =
      readAckFields cfg net rl cfg.DISCOVERY_ACK
        { m with udp := { incoming := ds, rx := rest, remote := d.remoteIP } } := by
  obtain ⟨c1, c2, c3, hack⟩ : ∃ c1 c2 c3, cfg.DISCOVERY_ACK = [c1, c2, c3] := by
    match h : cfg.DISCOVERY_ACK, hlen with
    | [c1, c2, c3], _ => exact ⟨c1, c2, c3, rfl⟩
  rw [hack] at hdata ⊢
  have hne : ¬ (m.state ≠ .DISCOVERING) := fun h => h hst
  have hp : m.udp.parsePacket =
      ((d.data.length : Int), { incoming := ds, rx := d.data, remote := d.remoteIP }) := by
    simp only [Udp.parsePacket, hinc]
  unfold receiveDiscoveryAck
  rw [if_neg hne, hp]
  dsimp only
  rw [if_pos hmin, hack]
  simp only [hdata, List.cons_append, List.nil_append, Udp.read, toChar_val, if_true]
  rw [readAckBody_space cfg net rl _ _ rest rfl]

/-- The field reader after four address fields: what is left to decide is the
discovery port token, the comparison, and the server port token. -/
theorem readAckFields_parsed {R : Type} (cfg : MasterConfig) (net : LocalNet) (rl : Relay R)
    (tempBuffer : List Byte) (m : MasterClient R) (ta tb tc td rest : List Byte)
    (ha : IsField ta) (hb : IsField tb) (hc : IsField tc) (hd : IsField td)
    (hrx : m.udp.rx = spaced [ta, tb, tc, td] ++ rest) :
    readAckFields cfg net rl tempBuffer m =
      if (readUntil { m.udp with rx := rest } td 32).2 ≠ [] then
        if ((⟨toUInt8 (atoi cfg.LONG_BITS ta), toUInt8 (atoi cfg.LONG_BITS tb),
               toUInt8 (atoi cfg.LONG_BITS tc), toUInt8 (atoi cfg.LONG_BITS td)⟩ :
                IPAddress) = net.wifiLocalIP ∨
              (⟨toUInt8 (atoi cfg.LONG_BITS ta), toUInt8 (atoi cfg.LONG_BITS tb),
                 toUInt8 (atoi cfg.LONG_BITS tc), toUInt8 (atoi cfg.LONG_BITS td)⟩ :
                IPAddress) = net.ethernetLocalIP) ∧
            ((toUInt16 (atoi cfg.LONG_BITS (readUntil { m.udp with rx := rest } td 32).2) : Nat) : Int)
              = cfg.UDP_DISCOVERY_PORT then
          if (readUntil (readUntil { m.udp with rx := rest } td 32).1
                (readUntil { m.udp with rx := rest } td 32).2 59).2 ≠ [] then
            setState rl .CONNECTING
              { m with
                udp := (readUntil (readUntil { m.udp with rx := rest } td 32).1
                  (readUntil { m.udp with rx := rest } td 32).2 59).1,
                serverAddr := m.udp.remote,
                serverPort := toUInt16 (atoi cfg.LONG_BITS (readUntil
                  (readUntil { m.udp with rx := rest } td 32).1
                  (readUntil { m.udp with rx := rest } td 32).2 59).2) }
          else
            { m with udp := (readUntil (readUntil { m.udp with rx := rest } td 32).1
                (readUntil { m.udp with rx := rest } td 32).2 59).1 }
        else { m with udp := (readUntil { m.udp with rx := rest } td 32).1 }
      else { m with udp := (readUntil { m.udp with rx := rest } td 32).1 } := by
  obtain ⟨parts, hloop, hparts⟩ := readAddressLoop_four cfg.LONG_BITS m.udp tempBuffer ta tb tc td rest
    ha hb hc hd hrx
  unfold readAckFields
  simp only [hloop, hparts]
  split
  · split
    · split
      · simp only [readUntil_eq]
      · rfl
    · rfl
  · rfl

/-- An ack is accepted whenever its four address fields and its discovery port
field, converted by `atoi`, give a local address and `UDP_DISCOVERY_PORT`, and a
non-empty server port field follows the discovery port field and its space. -/
theorem ack_accept {R : Type} (cfg : MasterConfig) (net : LocalNet) (rl : Relay R)
    (m : MasterClient R) (d : Datagram) (ds : List Datagram)
    (ta tb tc td tp ts tail : List Byte)
    (hst : m.state = .DISCOVERING) (hinc : m.udp.incoming = d :: ds)
    (hlen : cfg.DISCOVERY_ACK.length = 3)
    (hmin : (d.data.length : Int) ≥ cfg.DISCOVERY_ACK_PACKET_MIN_SIZE)
    (hdata : d.data = cfg.DISCOVERY_ACK ++ 32 :: (spaced [ta, tb, tc, td, tp] ++ ts ++ tail))
    (ha : IsField ta) (hb : IsField tb) (hc : IsField tc) (hd : IsField td) (hp : IsField tp)
    (hs : ts ≠ [] ∧ (59 : Byte) ∉ ts) (htail : tail = [] ∨ ∃ r, tail = 59 :: r)
    (haddr : (⟨toUInt8 (atoi cfg.LONG_BITS ta), toUInt8 (atoi cfg.LONG_BITS tb),
                toUInt8 (atoi cfg.LONG_BITS tc), toUInt8 (atoi cfg.LONG_BITS td)⟩ :
        IPAddress) = net.wifiLocalIP ∨
      (⟨toUInt8 (atoi cfg.LONG_BITS ta), toUInt8 (atoi cfg.LONG_BITS tb),
         toUInt8 (atoi cfg.LONG_BITS tc), toUInt8 (atoi cfg.LONG_BITS td)⟩ :
        IPAddress) = net.ethernetLocalIP)
    (hport : ((toUInt16 (atoi cfg.LONG_BITS tp) : Nat) : Int) = cfg.UDP_DISCOVERY_PORT) :
    (receiveDiscoveryAck cfg net rl m).state = .CONNECTING ∧
    (receiveDiscoveryAck cfg net rl m).serverAddr = d.remoteIP ∧
    (receiveDiscoveryAck cfg net rl m).serverPort = toUInt16 (atoi cfg.LONG_BITS ts) := by
  have hrest : spaced [ta, tb, tc, td, tp] ++ ts ++ tail
      = spaced [ta, tb, tc, td] ++ (tp ++ 32 :: (ts ++ tail)) := by
    simp [spaced]
  rw [ack_dispatch cfg net rl m d ds _ hst hinc hmin hlen hdata,
    readAckFields_parsed cfg net rl _ _ ta tb tc td _ ha hb hc hd hrest]
  have hq : readUntil { incoming := ds, rx := ts ++ tail, remote := d.remoteIP } tp 59 =
      ({ incoming := ds, rx := tail.tail, remote := d.remoteIP }, ts) := by
    rcases htail with h | ⟨r, h⟩
    · subst h
      rw [readUntil_last _ _ _ (by simpa using hs.2)]
      simp
    · subst h
      rw [readUntil_token _ _ _ ts r hs.2 rfl]
      rfl
  have hpt : readUntil { incoming := ds, rx := tp ++ 32 :: (ts ++ tail), remote := d.remoteIP }
      td 32 = ({ incoming := ds, rx := ts ++ tail, remote := d.remoteIP }, tp) :=
    readUntil_token _ td 32 tp (ts ++ tail) hp.2 rfl
  simp only [hpt, hq]
  rw [if_pos hp.1, if_pos ⟨haddr, hport⟩, if_pos hs.1]
  exact ⟨rfl, rfl, rfl⟩

theorem decimalValue_nonneg (t : List Byte) (h : ∀ c ∈ t, isDigit c = true) :
    0 ≤ decimalValue t := by
  have key : ∀ (l : List Byte) (acc : Int), (∀ c ∈ l, isDigit c = true) → 0 ≤ acc →
      0 ≤ l.foldl (fun acc c => acc * 10 + ((c.val : Int) - 48)) acc := by
    intro l
    induction l with
    | nil => exact fun acc _ h0 => h0
    | cons c rest ih =>
      intro acc hd h0
      have := digit_bounds c (hd c (List.mem_cons_self _ _))
      have hstep : 0 ≤ acc * 10 + ((c.val : Int) - 48) := by omega
      exact ih _ (fun x hx => hd x (List.mem_cons_of_mem _ hx)) hstep
  exact key t 0 h (Int.le_refl 0)

theorem decimal_isField (t : List Byte) (h : IsDecimal t) : IsField t :=
  ⟨h.1, (decimal_no_delim t h).1⟩

theorem toUInt8_val (c : Byte) (v : Int) (h : v = (c.val : Int)) : toUInt8 v = c := by
  rw [h]
  exact toChar_val c

/-- The wire format with a semicolon between the two ports is never accepted:
the discovery port token then runs to the end of the packet, nothing is left
for the server port, and the call returns with the connection state and the
server fields unchanged. -/
theorem semicolon_format_rejected {R : Type} (cfg : MasterConfig) (net : LocalNet)
    (rl : Relay R) (m : MasterClient R) (d : Datagram) (ds : List Datagram)
    (ta tb tc td tp ts : List Byte)
    (hst : m.state = .DISCOVERING) (hinc : m.udp.incoming = d :: ds)
    (hlen : cfg.DISCOVERY_ACK.length = 3)
    (hdata : d.data = cfg.DISCOVERY_ACK ++ 32 :: (spaced [ta, tb, tc, td] ++ tp ++ 59 :: ts))
    (ha : IsDecimal ta) (hb : IsDecimal tb) (hc : IsDecimal tc) (hd : IsDecimal td)
    (hp : IsDecimal tp) (hs : IsDecimal ts) :
    (receiveDiscoveryAck cfg net rl m).state = .DISCOVERING ∧
    (receiveDiscoveryAck cfg net rl m).serverAddr = m.serverAddr ∧
    (receiveDiscoveryAck cfg net rl m).serverPort = m.serverPort := by
  by_cases hmin : (d.data.length : Int) ≥ cfg.DISCOVERY_ACK_PACKET_MIN_SIZE
  swap
  · obtain ⟨u, hu⟩ := ack_rejected_early cfg net rl m d ds hinc (Or.inr (Or.inr hmin))
    rw [hu]
    exact ⟨hst, rfl, rfl⟩
  have hrest : spaced [ta, tb, tc, td] ++ tp ++ 59 :: ts
      = spaced [ta, tb, tc, td] ++ (tp ++ 59 :: ts) := by
    simp
  rw [ack_dispatch cfg net rl m d ds _ hst hinc hmin hlen hdata,
    readAckFields_parsed cfg net rl _ _ ta tb tc td _ (decimal_isField _ ha)
      (decimal_isField _ hb) (decimal_isField _ hc) (decimal_isField _ hd) hrest]
  have hno : (32 : Byte) ∉ tp ++ 59 :: ts := by
    intro hmem
    rcases List.mem_append.mp hmem with h | h
    · exact (decimal_no_delim tp hp).1 h
    · rcases List.mem_cons.mp h with h1 | h1
      · exact absurd h1 (by decide)
      · exact (decimal_no_delim ts hs).1 h1
  have hlast := readUntil_last { incoming := ds, rx := tp ++ 59 :: ts, remote := d.remoteIP }
    td 32 hno
  simp only [hlast]
  have hq : (readUntil { incoming := ds, rx := [], remote := d.remoteIP }
      (tp ++ 59 :: ts) 59).2 = [] := readUntil_empty _ _ _ (Or.inl rfl)
  split
  · split
    · rw [if_neg (by rw [hq]; simp)]
      exact ⟨hst, rfl, rfl⟩
    · exact ⟨hst, rfl, rfl⟩
  · exact ⟨hst, rfl, rfl⟩

/-- C13 (counterexample): the ack `ACK 10 0 0 5 20000;20001`, in the wire format
with a semicolon between the ports, addressed to the local address 10.0.0.5 and
the discovery port 20000 and longer than the minimum size, leaves the client in
`DISCOVERING` with `serverPort` still 0: the discovery port token is read up to
the next space, so it swallows `;20001` and no server port is left. -/
theorem discovery_semicolon_format_fails :
    exampleNet.wifiLocalIP = ⟨10, 0, 0, 5⟩ ∧
    exampleMasterConfig.UDP_DISCOVERY_PORT = 20000 ∧
    ((ascii "ACK 10 0 0 5 20000;20001").length : Int)
      ≥ exampleMasterConfig.DISCOVERY_ACK_PACKET_MIN_SIZE ∧
    (receiveDiscoveryAck exampleMasterConfig exampleNet exampleRelay
      (exampleMaster (ascii "ACK 10 0 0 5 20000;20001"))).state = .DISCOVERING ∧
    (receiveDiscoveryAck exampleMasterConfig exampleNet exampleRelay
      (exampleMaster (ascii "ACK 10 0 0 5 20000;20001"))).serverPort = 0 := by
  decide

/-- C13 (amended): successful discovery.  For every ack packet
`DISCOVERY_ACK ' ' a ' ' b ' ' c ' ' d ' ' discoveryPort ' ' serverPort`,
the server port ending the packet or followed by `;`, all fields decimal, the
packet at least `DISCOVERY_ACK_PACKET_MIN_SIZE` bytes, whose address `a.b.c.d`
is the WiFi or the Ethernet address of the device and whose `discoveryPort` is
`UDP_DISCOVERY_PORT`, `receiveDiscoveryAck` called in state `DISCOVERING` ends
in state `CONNECTING` with `serverAddr` the sender of the packet and
`serverPort` the server port field converted by `atoi` and cut to 16 bits: the
value of the field modulo `2^16` when it fits a `long` (the value itself when
it is below 65536), and 65535 when it does not fit a `long`, where `atoi`
saturates. -/
theorem discovery_success {R : Type} (cfg : MasterConfig) (net : LocalNet) (rl : Relay R)
    (m : MasterClient R) (d : Datagram) (ds : List Datagram)
    (ta tb tc td tp ts tail : List Byte) (addr : IPAddress)
    (hst : m.state = .DISCOVERING) (hinc : m.udp.incoming = d :: ds)
    (hlen : cfg.DISCOVERY_ACK.length = 3)
    (hmin : (d.data.length : Int) ≥ cfg.DISCOVERY_ACK_PACKET_MIN_SIZE)
    (hdata : d.data = cfg.DISCOVERY_ACK ++ 32 :: (spaced [ta, tb, tc, td, tp] ++ ts ++ tail))
    (ha : IsDecimal ta) (hb : IsDecimal tb) (hc : IsDecimal tc) (hd : IsDecimal td)
    (hp : IsDecimal tp) (hs : IsDecimal ts) (htail : tail = [] ∨ ∃ r, tail = 59 :: r)
    (hlocal : addr = net.wifiLocalIP ∨ addr = net.ethernetLocalIP)
    (h0 : decimalValue ta = (addr.o0.val : Int)) (h1 : decimalValue tb = (addr.o1.val : Int))
    (h2 : decimalValue tc = (addr.o2.val : Int)) (h3 : decimalValue td = (addr.o3.val : Int))
    (hport : decimalValue tp = cfg.UDP_DISCOVERY_PORT) (hrange : cfg.UDP_DISCOVERY_PORT < 65536) :
    (receiveDiscoveryAck cfg net rl m).state = .CONNECTING ∧
    (receiveDiscoveryAck cfg net rl m).serverAddr = d.remoteIP ∧
    (receiveDiscoveryAck cfg net rl m).serverPort = toUInt16 (atoi cfg.LONG_BITS ts) ∧
    (decimalValue ts ≤ LONG_MAX cfg.LONG_BITS →
      (receiveDiscoveryAck cfg net rl m).serverPort = toUInt16 (decimalValue ts)) ∧
    (decimalValue ts < 65536 →
      ((receiveDiscoveryAck cfg net rl m).serverPort : Int) = decimalValue ts) ∧
    (LONG_MAX cfg.LONG_BITS < decimalValue ts →
      (receiveDiscoveryAck cfg net rl m).serverPort = 65535) := by
  have hb0 := addr.o0.isLt
  have hb1 := addr.o1.isLt
  have hb2 := addr.o2.isLt
  have hb3 := addr.o3.isLt
  have haddr : (⟨toUInt8 (atoi cfg.LONG_BITS ta), toUInt8 (atoi cfg.LONG_BITS tb),
      toUInt8 (atoi cfg.LONG_BITS tc), toUInt8 (atoi cfg.LONG_BITS td)⟩ : IPAddress) = addr := by
    rw [toUInt8_val addr.o0 _
        ((atoi_decimal cfg.LONG_BITS cfg.long_bits_ge ta ha (by omega)).trans h0),
      toUInt8_val addr.o1 _
        ((atoi_decimal cfg.LONG_BITS cfg.long_bits_ge tb hb (by omega)).trans h1),
      toUInt8_val addr.o2 _
        ((atoi_decimal cfg.LONG_BITS cfg.long_bits_ge tc hc (by omega)).trans h2),
      toUInt8_val addr.o3 _
        ((atoi_decimal cfg.LONG_BITS cfg.long_bits_ge td hd (by omega)).trans h3)]
  have hpnn := decimalValue_nonneg tp hp.2
  have hp16 : ((toUInt16 (atoi cfg.LONG_BITS tp) : Nat) : Int) = cfg.UDP_DISCOVERY_PORT := by
    rw [atoi_decimal cfg.LONG_BITS cfg.long_bits_ge tp hp (by omega), hport]
    rw [hport] at hpnn
    unfold toUInt16
    omega
  obtain ⟨r1, r2, r3⟩ := ack_accept cfg net rl m d ds ta tb tc td tp ts tail hst hinc hlen hmin
    hdata (decimal_isField _ ha) (decimal_isField _ hb) (decimal_isField _ hc)
    (decimal_isField _ hd) (decimal_isField _ hp) ⟨hs.1, (decimal_no_delim ts hs).2⟩ htail
    (by rw [haddr]; exact hlocal) hp16
  have hmax := long_max_low_bits cfg.LONG_BITS cfg.long_bits_ge
  have hsnn := decimalValue_nonneg ts hs.2
  refine ⟨r1, r2, r3, fun hfit => ?_, fun hlt => ?_, fun hbig => ?_⟩
  · rw [r3, atoi_decimal_long cfg.LONG_BITS ts hs hfit, toUInt16_longToInt]
  · rw [r3, atoi_decimal_long cfg.LONG_BITS ts hs (by omega), toUInt16_longToInt]
    unfold toUInt16
    omega
  · rw [r3, atoi_decimal_saturated cfg.LONG_BITS cfg.long_bits_ge ts hs hbig,
      toUInt16_longToInt]
    exact hmax.1

set_option maxRecDepth 100000 in
/-- C13 witness of the amended statement: the ack `ACK 10 0 0 5 20000 20001;`
from 10.0.0.1 takes the example client to `CONNECTING` with `serverPort = 20001`
and `serverAddr = 10.0.0.1`. -/
theorem discovery_success_witness :
    (receiveDiscoveryAck exampleMasterConfig exampleNet exampleRelay
      (exampleMaster (ascii "ACK 10 0 0 5 20000 20001;"))).state = .CONNECTING ∧
    (receiveDiscoveryAck exampleMasterConfig exampleNet exampleRelay
      (exampleMaster (ascii "ACK 10 0 0 5 20000 20001;"))).serverAddr = exampleServerIP ∧
    (receiveDiscoveryAck exampleMasterConfig exampleNet exampleRelay
      (exampleMaster (ascii "ACK 10 0 0 5 20000 20001;"))).serverPort = 20001 := by
  have h := discovery_success exampleMasterConfig exampleNet exampleRelay
    (exampleMaster (ascii "ACK 10 0 0 5 20000 20001;"))
    ⟨exampleServerIP, ascii "ACK 10 0 0 5 20000 20001;"⟩ []
    (ascii "10") (ascii "0") (ascii "0") (ascii "5") (ascii "20000") (ascii "20001") (ascii ";")
    ⟨10, 0, 0, 5⟩ rfl rfl (by decide) (by decide) (by decide)
    ⟨by decide, by decide⟩ ⟨by decide, by decide⟩ ⟨by decide, by decide⟩
    ⟨by decide, by decide⟩ ⟨by decide, by decide⟩ ⟨by decide, by decide⟩
    (Or.inr ⟨[], by decide⟩) (Or.inl (by decide)) (by decide) (by decide) (by decide)
    (by decide) (by decide) (by decide)
  exact ⟨h.1, h.2.1, (h.2.2.2.1 (by decide)).trans (by decide)⟩

set_option maxRecDepth 100000 in
/-- Acks with fields beyond the range of `long`, on a platform with a 32-bit
`long` and on one with a 64-bit `long` alike: the server port field
`10000000000000020001` is stored as 65535; the address field
`10000000000000000010` is read as octet 255, so the ack is not for the device
10.0.0.5 and the client stays in `DISCOVERING`; the address field
`-99999999999999999999` is read as octet 0, so `ACK 10 -99999999999999999999 0 5
20000 20001;` is for the device 10.0.0.5 and is accepted. -/
theorem saturated_ack_fields :
    (receiveDiscoveryAck exampleMasterConfig exampleNet exampleRelay
      (exampleMaster (ascii "ACK 10 0 0 5 20000 10000000000000020001;"))).serverPort = 65535 ∧
    (receiveDiscoveryAck exampleHostConfig exampleNet exampleRelay
      (exampleMaster (ascii "ACK 10 0 0 5 20000 10000000000000020001;"))).serverPort = 65535 ∧
    toUInt8 (atoi 32 (ascii "10000000000000000010")) = 255 ∧
    toUInt8 (atoi 64 (ascii "10000000000000000010")) = 255 ∧
    (receiveDiscoveryAck exampleMasterConfig exampleNet exampleRelay
      (exampleMaster (ascii "ACK 10000000000000000010 0 0 5 20000 20001;"))).state
      = .DISCOVERING ∧
    (receiveDiscoveryAck exampleHostConfig exampleNet exampleRelay
      (exampleMaster (ascii "ACK 10000000000000000010 0 0 5 20000 20001;"))).state
      = .DISCOVERING ∧
    toUInt8 (atoi 32 (ascii "-99999999999999999999")) = 0 ∧
    toUInt8 (atoi 64 (ascii "-99999999999999999999")) = 0 ∧
    (receiveDiscoveryAck exampleMasterConfig exampleNet exampleRelay
      (exampleMaster (ascii "ACK 10 -99999999999999999999 0 5 20000 20001;"))).state
      = .CONNECTING ∧
    (receiveDiscoveryAck exampleHostConfig exampleNet exampleRelay
      (exampleMaster (ascii "ACK 10 -99999999999999999999 0 5 20000 20001;"))).state
      = .CONNECTING ∧
    atoi 32 (ascii "2147483647") = 2147483647 ∧
    atoi 32 (ascii "2147483648") = 2147483647 ∧
    atoi 64 (ascii "2147483648") = -2147483648 ∧
    atoi 32 (ascii "-2147483649") = -2147483648 ∧
    atoi 32 (ascii " +12x") = 12 := by
  decide

/-- C14: rejected acks change nothing.  Called in a state other than
`DISCOVERING`, `receiveDiscoveryAck` changes nothing at all.  Called in state
`DISCOVERING` on a packet whose first three bytes are not `DISCOVERY_ACK`, or
that has no space after them, or whose four address fields and discovery port
field were read and, converted by `atoi` and cut to 8 and 16 bits as the code
does, give an address that is neither local address or a port other than
`UDP_DISCOVERY_PORT`, it leaves the state `DISCOVERING` and `serverAddr` and
`serverPort` as they were. -/
theorem rejected_ack_unchanged {R : Type} (cfg : MasterConfig) (net : LocalNet) (rl : Relay R)
    (m : MasterClient R) :
    (m.state ≠ .DISCOVERING → receiveDiscoveryAck cfg net rl m = m) ∧
    (m.state = .DISCOVERING → ∀ (d : Datagram) (ds : List Datagram),
      m.udp.incoming = d :: ds →
      (d.data.take 3 ≠ cfg.DISCOVERY_ACK ∨
        (d.data.drop 3).head? ≠ some 32 ∨
        (∃ hdr ta tb tc td tp tail : List Byte,
          hdr.length = 3 ∧
          d.data = hdr ++ 32 :: (spaced [ta, tb, tc, td] ++ tp ++ tail) ∧
          IsField ta ∧ IsField tb ∧ IsField tc ∧ IsField td ∧ IsField tp ∧
          (tail = [] ∨ ∃ r, tail = 32 :: r) ∧
          (((⟨toUInt8 (atoi cfg.LONG_BITS ta), toUInt8 (atoi cfg.LONG_BITS tb),
               toUInt8 (atoi cfg.LONG_BITS tc), toUInt8 (atoi cfg.LONG_BITS td)⟩ :
                IPAddress) ≠ net.wifiLocalIP ∧
              (⟨toUInt8 (atoi cfg.LONG_BITS ta), toUInt8 (atoi cfg.LONG_BITS tb),
                 toUInt8 (atoi cfg.LONG_BITS tc), toUInt8 (atoi cfg.LONG_BITS td)⟩ :
                IPAddress) ≠ net.ethernetLocalIP) ∨
            ((toUInt16 (atoi cfg.LONG_BITS tp) : Nat) : Int) ≠ cfg.UDP_DISCOVERY_PORT))) →
      (receiveDiscoveryAck cfg net rl m).state = .DISCOVERING ∧
      (receiveDiscoveryAck cfg net rl m).serverAddr = m.serverAddr ∧
      (receiveDiscoveryAck cfg net rl m).serverPort = m.serverPort) := by
  constructor
  · intro hst
    simp only [receiveDiscoveryAck, hst, if_true, ne_eq, not_false_eq_true]
  · intro hst d ds hinc hrej
    have early : ∀ h : d.data.take 3 ≠ cfg.DISCOVERY_ACK ∨ (d.data.drop 3).head? ≠ some 32 ∨
        ¬ ((d.data.length : Int) ≥ cfg.DISCOVERY_ACK_PACKET_MIN_SIZE),
        (receiveDiscoveryAck cfg net rl m).state = .DISCOVERING ∧
        (receiveDiscoveryAck cfg net rl m).serverAddr = m.serverAddr ∧
        (receiveDiscoveryAck cfg net rl m).serverPort = m.serverPort := by
      intro h
      obtain ⟨u, hu⟩ := ack_rejected_early cfg net rl m d ds hinc h
      rw [hu]
      exact ⟨hst, rfl, rfl⟩
    rcases hrej with h | h | ⟨hdr, ta, tb, tc, td, tp, tail, hlen, hdata, ha, hb, hc, hd, hp,
      htail, hmis⟩
    · exact early (Or.inl h)
    · exact early (Or.inr (Or.inl h))
    · have htake : d.data.take 3 = hdr := by
        rw [hdata, List.take_append_of_le_length (by omega), List.take_of_length_le (by omega)]
      by_cases hhdr : hdr = cfg.DISCOVERY_ACK
      swap
      · exact early (Or.inl (by rw [htake]; exact hhdr))
      by_cases hmin : (d.data.length : Int) ≥ cfg.DISCOVERY_ACK_PACKET_MIN_SIZE
      swap
      · exact early (Or.inr (Or.inr hmin))
      have hrest : spaced [ta, tb, tc, td] ++ tp ++ tail
          = spaced [ta, tb, tc, td] ++ (tp ++ tail) := by
        simp
      rw [hhdr] at hdata hlen
      rw [ack_dispatch cfg net rl m d ds _ hst hinc hmin hlen hdata,
        readAckFields_parsed cfg net rl _ _ ta tb tc td _ ha hb hc hd hrest]
      have hpt : (readUntil { incoming := ds, rx := tp ++ tail, remote := d.remoteIP }
          td 32).2 = tp := by
        rcases htail with h | ⟨r, h⟩
        · subst h
          rw [readUntil_last _ _ _ (by simpa using hp.2)]
          simp
        · subst h
          rw [readUntil_token _ _ _ tp r hp.2 rfl]
      simp only [hpt]
      rw [if_pos hp.1, if_neg (fun hh => by
        rcases hmis with h | h
        · rcases hh.1 with h1 | h1
          · exact h.1 h1
          · exact h.2 h1
        · exact h hh.2)]
      exact ⟨hst, rfl, rfl⟩

set_option maxRecDepth 100000 in
/-- C14 witness: the example client keeps state `DISCOVERING`, `serverAddr`
0.0.0.0 and `serverPort` 0 on the packet `NAK 10 0 0 5 20000 20001;` (wrong
header) and on `ACK 10 0 0 6 20000 20001;` (address 10.0.0.6 is not the local
address 10.0.0.5) and on `ACK 10000000000000000010 0 0 5 20000 20001;` (the
first field is beyond the range of `long` and is read as octet 255); a client
in state `CONNECTED` is not changed at all. -/
theorem rejected_ack_unchanged_witness :
    (receiveDiscoveryAck exampleMasterConfig exampleNet exampleRelay
      (exampleMaster (ascii "NAK 10 0 0 5 20000 20001;"))).state = .DISCOVERING ∧
    (receiveDiscoveryAck exampleMasterConfig exampleNet exampleRelay
      (exampleMaster (ascii "ACK 10000000000000000010 0 0 5 20000 20001;"))).state
      = .DISCOVERING ∧
    (receiveDiscoveryAck exampleMasterConfig exampleNet exampleRelay
      (exampleMaster (ascii "ACK 10 0 0 6 20000 20001;"))).state = .DISCOVERING ∧
    (receiveDiscoveryAck exampleMasterConfig exampleNet exampleRelay
      (exampleMaster (ascii "ACK 10 0 0 6 20000 20001;"))).serverPort = 0 ∧
    receiveDiscoveryAck exampleMasterConfig exampleNet exampleRelay
        { exampleMaster (ascii "ACK 10 0 0 5 20000 20001;") with state := .CONNECTED }
      = { exampleMaster (ascii "ACK 10 0 0 5 20000 20001;") with state := .CONNECTED } := by
  have hnak := (rejected_ack_unchanged exampleMasterConfig exampleNet exampleRelay
    (exampleMaster (ascii "NAK 10 0 0 5 20000 20001;"))).2 rfl _ _ rfl (Or.inl (by decide))
  have haddr := (rejected_ack_unchanged exampleMasterConfig exampleNet exampleRelay
    (exampleMaster (ascii "ACK 10 0 0 6 20000 20001;"))).2 rfl _ _ rfl
    (Or.inr (Or.inr ⟨ascii "ACK", ascii "10", ascii "0", ascii "0", ascii "6", ascii "20000",
      ascii " 20001;", by decide, by decide, ⟨by decide, by decide⟩, ⟨by decide, by decide⟩,
      ⟨by decide, by decide⟩, ⟨by decide, by decide⟩, ⟨by decide, by decide⟩,
      Or.inr ⟨ascii "20001;", by decide⟩, Or.inl ⟨by decide, by decide⟩⟩))
  have hsat := (rejected_ack_unchanged exampleMasterConfig exampleNet exampleRelay
    (exampleMaster (ascii "ACK 10000000000000000010 0 0 5 20000 20001;"))).2 rfl _ _ rfl
    (Or.inr (Or.inr ⟨ascii "ACK", ascii "10000000000000000010", ascii "0", ascii "0", ascii "5",
      ascii "20000", ascii " 20001;", by decide, by decide, ⟨by decide, by decide⟩,
      ⟨by decide, by decide⟩, ⟨by decide, by decide⟩, ⟨by decide, by decide⟩,
      ⟨by decide, by decide⟩, Or.inr ⟨ascii "20001;", by decide⟩,
      Or.inl ⟨by decide, by decide⟩⟩))
  have hconn := (rejected_ack_unchanged exampleMasterConfig exampleNet exampleRelay
    { exampleMaster (ascii "ACK 10 0 0 5 20000 20001;") with state := .CONNECTED }).1
    (by decide)
  exact ⟨hnak.1, hsat.1, haddr.1, haddr.2.2, hconn⟩

theorem run_fields {R : Type} (rl : Relay R) (dt : Nat) (m : MasterClient R) :
    (m.run rl dt).state = m.state ∧
    (m.run rl dt).serverAddr = m.serverAddr ∧
    (m.run rl dt).serverPort = m.serverPort ∧
    (m.run rl dt).discoveryPacketTimerMicroSecs = m.discoveryPacketTimerMicroSecs ∧
    (m.run rl dt).tcp = m.tcp :=
  ⟨rfl, rfl, rfl, rfl, rfl⟩

theorem masterLoops_fields {R : Type} (rl : Relay R) (firstReading : Nat)
    (readings : List Nat) (sk : MasterSketch R) :
    (masterLoops rl firstReading readings sk).client.state = sk.client.state ∧
    (masterLoops rl firstReading readings sk).client.serverAddr = sk.client.serverAddr ∧
    (masterLoops rl firstReading readings sk).client.serverPort = sk.client.serverPort ∧
    (masterLoops rl firstReading readings sk).client.discoveryPacketTimerMicroSecs =
      sk.client.discoveryPacketTimerMicroSecs ∧
    (masterLoops rl firstReading readings sk).client.tcp = sk.client.tcp := by
  induction readings generalizing sk with
  | nil => exact ⟨rfl, rfl, rfl, rfl, rfl⟩
  | cons t ts ih =>
    obtain ⟨h1, h2, h3, h4, h5⟩ := ih (masterLoop rl firstReading t sk)
    exact ⟨h1, h2, h3, h4, h5⟩

/-- C22: the master's run step never changes the connection state.  For every
client and every `dtMicroSecs`, `MasterClient::run` changes only the packet
reader side and the UDP socket (it is the call of `readUDP` and nothing else):
`state`, `serverAddr`, `serverPort`, `discoveryPacketTimerMicroSecs` and the TCP
socket are unchanged.  `begin` sets `state = DISCOVERING` and keeps the other
four; so after `setup` the state is `DISCOVERING` after any number of `loop`
iterations, with the server fields, the timer and the TCP socket still those
from before `setup`. -/
theorem run_keeps_connection_state {R : Type} (rl : Relay R) (us : UdpSetup)
    (m : MasterClient R) :
    (∀ dt : Nat,
      m.run rl dt = { m with relay := (rl.readUDP m.relay m.udp dt).2.1,
                             udp := (rl.readUDP m.relay m.udp dt).2.2 } ∧
      (m.run rl dt).state = m.state ∧
      (m.run rl dt).serverAddr = m.serverAddr ∧
      (m.run rl dt).serverPort = m.serverPort ∧
      (m.run rl dt).discoveryPacketTimerMicroSecs = m.discoveryPacketTimerMicroSecs ∧
      (m.run rl dt).tcp = m.tcp) ∧
    ((m.begin us).state = .DISCOVERING ∧
      (m.begin us).serverAddr = m.serverAddr ∧
      (m.begin us).serverPort = m.serverPort ∧
      (m.begin us).discoveryPacketTimerMicroSecs = m.discoveryPacketTimerMicroSecs ∧
      (m.begin us).tcp = m.tcp) ∧
    (∀ (dts : List Nat),
      (dts.foldl (fun st dt => st.run rl dt) (m.begin us)).state = .DISCOVERING) ∧
    (∀ (firstReading : Nat) (readings : List Nat) (last : Option Nat),
      (masterLoops rl firstReading readings (masterSetup us ⟨m, last⟩)).client.state
        = .DISCOVERING ∧
      (masterLoops rl firstReading readings (masterSetup us ⟨m, last⟩)).client.serverAddr
        = m.serverAddr ∧
      (masterLoops rl firstReading readings (masterSetup us ⟨m, last⟩)).client.serverPort
        = m.serverPort ∧
      (masterLoops rl firstReading readings
        (masterSetup us ⟨m, last⟩)).client.discoveryPacketTimerMicroSecs
        = m.discoveryPacketTimerMicroSecs ∧
      (masterLoops rl firstReading readings (masterSetup us ⟨m, last⟩)).client.tcp = m.tcp) := by
  refine ⟨fun dt => ⟨rfl, rfl, rfl, rfl, rfl, rfl⟩, ⟨rfl, rfl, rfl, rfl, rfl⟩, fun dts => ?_,
    fun firstReading readings last => ?_⟩
  · have key : ∀ (l : List Nat) (c : MasterClient R),
        (l.foldl (fun st dt => st.run rl dt) c).state = c.state := by
      intro l
      induction l with
      | nil => exact fun c => rfl
      | cons dt l ih => exact fun c => ih (c.run rl dt)
    exact key dts (m.begin us)
  · obtain ⟨h1, h2, h3, h4, h5⟩ := masterLoops_fields rl firstReading readings
      (masterSetup us ⟨m, last⟩)
    exact ⟨h1, h2, h3, h4, h5⟩

set_option maxRecDepth 100000 in
/-- C22 illustration: with the valid ack `ACK 10 0 0 5 20000 20001;` waiting in
the socket, `receiveDiscoveryAck` would take the example client to
`CONNECTING`, but `setup` followed by three `loop` iterations leaves it in
`DISCOVERING` with `serverPort = 0` and the timer still 500; a client in state
`CONNECTING` also stays there under `run`. -/
theorem run_keeps_connection_state_example :
    (receiveDiscoveryAck exampleMasterConfig exampleNet exampleRelay
      (exampleMaster (ascii "ACK 10 0 0 5 20000 20001;"))).state = .CONNECTING ∧
    (masterLoops exampleRelay 0 [10, 40, 90]
      (masterSetup exampleUdpSetup
        ⟨exampleMaster (ascii "ACK 10 0 0 5 20000 20001;"), none⟩)).client.state
      = .DISCOVERING ∧
    (masterLoops exampleRelay 0 [10, 40, 90]
      (masterSetup exampleUdpSetup
        ⟨exampleMaster (ascii "ACK 10 0 0 5 20000 20001;"), none⟩)).client.serverPort = 0 ∧
    (masterLoops exampleRelay 0 [10, 40, 90]
      (masterSetup exampleUdpSetup
        ⟨exampleMaster (ascii "ACK 10 0 0 5 20000 20001;"), none⟩)
      ).client.discoveryPacketTimerMicroSecs = 500 ∧
    (MasterClient.run exampleRelay 10
      { exampleMaster [] with state := .CONNECTING }).state = .CONNECTING := by
  obtain ⟨_, _, _, hloops⟩ := run_keeps_connection_state exampleRelay exampleUdpSetup
    (exampleMaster (ascii "ACK 10 0 0 5 20000 20001;"))
  obtain ⟨hrun, _⟩ := run_keeps_connection_state exampleRelay exampleUdpSetup
    { exampleMaster [] with state := .CONNECTING }
  obtain ⟨l1, _, l3, l4, _⟩ := hloops 0 [10, 40, 90] none
  exact ⟨by decide, l1, l3, l4, (hrun 10).2.1⟩

/-- `renderVoxel` stores at `pixelIndex`. -/
theorem renderVoxel_eq (cfg : Config) (s : State) (x y : Nat) (acc : Nat × Leds) (z : Nat) :
    renderVoxel cfg s x y acc z =
      (acc.1 + 3, acc.2.setPixel (pixelIndex cfg s x y z)
        (colourFromBuffer (s.tempLedBufferQueue s.queueStartIdx) acc.1)) := rfl

/-- Two folds over the same list whose steps respect a relation between the
accumulators end in related accumulators. -/
theorem foldl_rel {α β γ : Type} (Rel : α → β → Prop) (f : α → γ → α) (g : β → γ → β)
    (h : ∀ a b c, Rel a b → Rel (f a c) (g b c)) :
    ∀ (l : List γ) (a : α) (b : β), Rel a b → Rel (l.foldl f a) (l.foldl g b) := by
  intro l
  induction l with
  | nil => exact fun a b hab => hab
  | cons c l ih => exact fun a b hab => ih _ _ (h a b c hab)

/-- A fold preserves an invariant of its step. -/
theorem foldl_inv {β γ : Type} (P : β → Prop) (g : β → γ → β)
    (h : ∀ b c, P b → P (g b c)) : ∀ (l : List γ) (b : β), P b → P (l.foldl g b) := by
  intro l
  induction l with
  | nil => exact fun b hb => hb
  | cons c l ih => exact fun b hb => ih _ (h b c hb)

/-- The render loops perform exactly the recorded calls: the final `bufferIdx`
is the recorded one and the strip driver is the replay of the trace. -/
theorem renderX_replay (cfg : Config) (s : State) :
    renderX cfg s =
      ((traceX cfg s).1,
       replay (s.tempLedBufferQueue s.queueStartIdx) s.leds (renderTrace cfg s)) := by
  have hv : ∀ x y (a : Nat × Leds) (b : Nat × List RenderCall) (z : Nat),
      (a.1 = b.1 ∧ a.2 = replay (s.tempLedBufferQueue s.queueStartIdx) s.leds b.2) →
      ((renderVoxel cfg s x y a z).1 = (traceVoxel cfg s x y b z).1 ∧
       (renderVoxel cfg s x y a z).2 =
         replay (s.tempLedBufferQueue s.queueStartIdx) s.leds (traceVoxel cfg s x y b z).2) := by
    intro x y a b z hab
    obtain ⟨h1, h2⟩ := hab
    refine ⟨?_, ?_⟩
    · simp only [renderVoxel, traceVoxel, h1]
    · simp only [renderVoxel_eq, traceVoxel, replay, List.foldl_append, List.foldl_cons,
        List.foldl_nil]
      rw [h1, h2]
      rfl
  have hz : ∀ x (a : Nat × Leds) (b : Nat × List RenderCall) (y : Nat),
      (a.1 = b.1 ∧ a.2 = replay (s.tempLedBufferQueue s.queueStartIdx) s.leds b.2) →
      ((renderZ cfg s x a y).1 = (traceZ cfg s x b y).1 ∧
       (renderZ cfg s x a y).2 =
         replay (s.tempLedBufferQueue s.queueStartIdx) s.leds (traceZ cfg s x b y).2) :=
    fun x a b y hab => foldl_rel
      (fun (a : Nat × Leds) (b : Nat × List RenderCall) =>
        a.1 = b.1 ∧ a.2 = replay (s.tempLedBufferQueue s.queueStartIdx) s.leds b.2)
      _ _ (fun a b z h => hv x y a b z h) _ a b hab
  have hy : ∀ (a : Nat × Leds) (b : Nat × List RenderCall) (x : Nat),
      (a.1 = b.1 ∧ a.2 = replay (s.tempLedBufferQueue s.queueStartIdx) s.leds b.2) →
      ((renderY cfg s a x).1 = (traceY cfg s b x).1 ∧
       (renderY cfg s a x).2 =
         replay (s.tempLedBufferQueue s.queueStartIdx) s.leds (traceY cfg s b x).2) :=
    fun a b x hab => foldl_rel
      (fun (a : Nat × Leds) (b : Nat × List RenderCall) =>
        a.1 = b.1 ∧ a.2 = replay (s.tempLedBufferQueue s.queueStartIdx) s.leds b.2)
      _ _ (fun a b y h => hz x a b y h) _ a b hab
  have hx := foldl_rel
      (fun (a : Nat × Leds) (b : Nat × List RenderCall) =>
        a.1 = b.1 ∧ a.2 = replay (s.tempLedBufferQueue s.queueStartIdx) s.leds b.2)
      _ _ hy (List.range cfg.VOXEL_MODULE_X_SIZE) (0, s.leds) (0, []) ⟨rfl, rfl⟩
  exact Prod.ext hx.1 hx.2

/-- Loop rule for the recording loops: a `foldl` over `List.range n` of a step
that advances the buffer index by `d` and appends the calls `f j b` when
entered with buffer index `b`. -/
theorem trace_loop_rule (step : Nat × List RenderCall → Nat → Nat × List RenderCall)
    (d N : Nat) (f : Nat → Nat → List RenderCall)
    (hstep : ∀ acc j, j < N → step acc j = (acc.1 + d, acc.2 ++ f j acc.1)) :
    ∀ n, n ≤ N → ∀ acc,
      (List.range n).foldl step acc =
        (acc.1 + d * n, acc.2 ++ (List.range n).flatMap (fun j => f j (acc.1 + d * j))) := by
  intro n
  induction n with
  | zero => intro _ acc; simp
  | succ n ih =>
    intro hn acc
    rw [List.range_succ, List.foldl_append, ih (by omega) acc]
    simp only [List.foldl_cons, List.foldl_nil]
    rw [hstep _ n (by omega), List.flatMap_append, List.flatMap_singleton, List.append_assoc,
      Nat.mul_succ, Nat.add_assoc]

/-- The `z` loop, recorded. -/
theorem traceZ_eq (cfg : Config) (s : State) (x y : Nat) (acc : Nat × List RenderCall) :
    traceZ cfg s x acc y =
      (acc.1 + 3 * cfg.VOXEL_MODULE_Z_SIZE,
       acc.2 ++ (List.range cfg.VOXEL_MODULE_Z_SIZE).flatMap
         (fun z => [⟨pixelIndex cfg s x y z, acc.1 + 3 * z⟩])) :=
  trace_loop_rule (traceVoxel cfg s x y) 3 cfg.VOXEL_MODULE_Z_SIZE
    (fun z b => [⟨pixelIndex cfg s x y z, b⟩]) (fun _ _ _ => rfl)
    cfg.VOXEL_MODULE_Z_SIZE (Nat.le_refl _) acc

/-- The `y` loop, recorded. -/
theorem traceY_eq (cfg : Config) (s : State) (x : Nat) (acc : Nat × List RenderCall) :
    traceY cfg s acc x =
      (acc.1 + 3 * cfg.VOXEL_MODULE_Z_SIZE * s.voxelModuleYSize.toNat,
       acc.2 ++ (List.range s.voxelModuleYSize.toNat).flatMap (fun y =>
         (List.range cfg.VOXEL_MODULE_Z_SIZE).flatMap
           (fun z => [⟨pixelIndex cfg s x y z,
             acc.1 + 3 * cfg.VOXEL_MODULE_Z_SIZE * y + 3 * z⟩]))) :=
  trace_loop_rule (traceZ cfg s x) (3 * cfg.VOXEL_MODULE_Z_SIZE) s.voxelModuleYSize.toNat
    (fun y b => (List.range cfg.VOXEL_MODULE_Z_SIZE).flatMap
      (fun z => [⟨pixelIndex cfg s x y z, b + 3 * z⟩]))
    (fun acc y _ => traceZ_eq cfg s x y acc)
    s.voxelModuleYSize.toNat (Nat.le_refl _) acc

/-- The whole loop nest, recorded. -/
theorem traceX_eq (cfg : Config) (s : State) :
    traceX cfg s =
      (3 * cfg.VOXEL_MODULE_Z_SIZE * s.voxelModuleYSize.toNat * cfg.VOXEL_MODULE_X_SIZE,
       (List.range cfg.VOXEL_MODULE_X_SIZE).flatMap (fun x =>
         (List.range s.voxelModuleYSize.toNat).flatMap (fun y =>
           (List.range cfg.VOXEL_MODULE_Z_SIZE).flatMap
             (fun z => [⟨pixelIndex cfg s x y z,
               3 * cfg.VOXEL_MODULE_Z_SIZE * s.voxelModuleYSize.toNat * x
                 + 3 * cfg.VOXEL_MODULE_Z_SIZE * y + 3 * z⟩])))) := by
  have h := trace_loop_rule (traceY cfg s)
    (3 * cfg.VOXEL_MODULE_Z_SIZE * s.voxelModuleYSize.toNat) cfg.VOXEL_MODULE_X_SIZE
    (fun x b => (List.range s.voxelModuleYSize.toNat).flatMap (fun y =>
         (List.range cfg.VOXEL_MODULE_Z_SIZE).flatMap
           (fun z => [⟨pixelIndex cfg s x y z, b + 3 * cfg.VOXEL_MODULE_Z_SIZE * y + 3 * z⟩])))
    (fun acc x _ => traceY_eq cfg s x acc)
    cfg.VOXEL_MODULE_X_SIZE (Nat.le_refl _) (0, [])
  simp only [Nat.zero_add, List.nil_append] at h
  exact h

/-- The calls of one render: one per voxel. -/
theorem mem_renderTrace (cfg : Config) (s : State) (c : RenderCall) :
    c ∈ renderTrace cfg s ↔
      ∃ x y z : Nat, x < cfg.VOXEL_MODULE_X_SIZE ∧ y < s.voxelModuleYSize.toNat ∧
        z < cfg.VOXEL_MODULE_Z_SIZE ∧
        c = ⟨pixelIndex cfg s x y z,
             3 * cfg.VOXEL_MODULE_Z_SIZE * s.voxelModuleYSize.toNat * x
               + 3 * cfg.VOXEL_MODULE_Z_SIZE * y + 3 * z⟩ := by
  rw [renderTrace, traceX_eq]
  simp only [List.mem_flatMap, List.mem_range, List.mem_singleton]
  constructor
  · rintro ⟨x, hx, y, hy, z, hz, hc⟩
    exact ⟨x, y, z, hx, hy, hz, hc⟩
  · rintro ⟨x, y, z, hx, hy, hz, hc⟩
    exact ⟨x, hx, y, hy, z, hz, hc⟩

/-- Reading three bytes per call at the offsets `0, 3, 6, ...` reads the bytes
`0, 1, 2, ...` in order. -/
theorem reads_range (k : Nat) :
    ((List.range k).map (fun j => 3 * j)).flatMap colourFromBufferReads = List.range (3 * k) := by
  induction k with
  | zero => rfl
  | succ k ih =>
    rw [List.range_succ, List.map_append, List.flatMap_append, ih]
    have h3 : 3 * (k + 1) = ((3 * k).succ).succ.succ := by omega
    rw [h3, List.range_succ, List.range_succ, List.range_succ]
    simp [colourFromBufferReads]

/-- The buffer indices of the recorded calls are `0, 3, 6, ...`, and the final
`bufferIdx` is three times their number. -/
theorem traceX_offsets (cfg : Config) (s : State) :
    ∃ k, (traceX cfg s).1 = 3 * k ∧
      (traceX cfg s).2.map (fun c => c.startIdx) = (List.range k).map (fun j => 3 * j) := by
  have hv : ∀ x y (b : Nat × List RenderCall) (z : Nat),
      (∃ k, b.1 = 3 * k ∧ b.2.map (fun c => c.startIdx) = (List.range k).map (fun j => 3 * j)) →
      (∃ k, (traceVoxel cfg s x y b z).1 = 3 * k ∧
        (traceVoxel cfg s x y b z).2.map (fun c => c.startIdx)
          = (List.range k).map (fun j => 3 * j)) := by
    rintro x y b z ⟨k, h1, h2⟩
    refine ⟨k + 1, ?_, ?_⟩
    · simp only [traceVoxel, h1]
      omega
    · simp only [traceVoxel, List.map_append, List.map_cons, List.map_nil, h2, List.range_succ, h1]
  have hz : ∀ x (b : Nat × List RenderCall) (y : Nat),
      (∃ k, b.1 = 3 * k ∧ b.2.map (fun c => c.startIdx) = (List.range k).map (fun j => 3 * j)) →
      (∃ k, (traceZ cfg s x b y).1 = 3 * k ∧
        (traceZ cfg s x b y).2.map (fun c => c.startIdx)
          = (List.range k).map (fun j => 3 * j)) :=
    fun x b y hb => foldl_inv
      (fun (b : Nat × List RenderCall) => ∃ k, b.1 = 3 * k ∧
        b.2.map (fun c => c.startIdx) = (List.range k).map (fun j => 3 * j))
      _ (fun b z h => hv x y b z h) _ b hb
  have hy : ∀ (b : Nat × List RenderCall) (x : Nat),
      (∃ k, b.1 = 3 * k ∧ b.2.map (fun c => c.startIdx) = (List.range k).map (fun j => 3 * j)) →
      (∃ k, (traceY cfg s b x).1 = 3 * k ∧
        (traceY cfg s b x).2.map (fun c => c.startIdx)
          = (List.range k).map (fun j => 3 * j)) :=
    fun b x hb => foldl_inv
      (fun (b : Nat × List RenderCall) => ∃ k, b.1 = 3 * k ∧
        b.2.map (fun c => c.startIdx) = (List.range k).map (fun j => 3 * j))
      _ (fun b y h => hz x b y h) _ b hb
  exact foldl_inv
      (fun (b : Nat × List RenderCall) => ∃ k, b.1 = 3 * k ∧
        b.2.map (fun c => c.startIdx) = (List.range k).map (fun j => 3 * j))
      _ hy (List.range cfg.VOXEL_MODULE_X_SIZE) (0, []) ⟨0, rfl, rfl⟩

/-- One render makes `X * Y * Z` calls, at the buffer indices `0, 3, 6, ...`. -/
theorem renderTrace_offsets (cfg : Config) (s : State) :
    (renderTrace cfg s).map (fun c => c.startIdx) =
      (List.range (cfg.VOXEL_MODULE_X_SIZE * s.voxelModuleYSize.toNat * cfg.VOXEL_MODULE_Z_SIZE)).map
        (fun j => 3 * j) := by
  obtain ⟨k, h1, h2⟩ := traceX_offsets cfg s
  have h3 : (traceX cfg s).1 =
      3 * cfg.VOXEL_MODULE_Z_SIZE * s.voxelModuleYSize.toNat * cfg.VOXEL_MODULE_X_SIZE := by
    rw [traceX_eq]
  have hk : k = cfg.VOXEL_MODULE_X_SIZE * s.voxelModuleYSize.toNat * cfg.VOXEL_MODULE_Z_SIZE := by
    have h4 : 3 * k = 3 * (cfg.VOXEL_MODULE_X_SIZE * s.voxelModuleYSize.toNat
        * cfg.VOXEL_MODULE_Z_SIZE) := by
      rw [← h1, h3]
      ring
    omega
  rw [renderTrace, h2, hk]

/-- The number of calls of one render. -/
theorem renderTrace_length (cfg : Config) (s : State) :
    (renderTrace cfg s).length =
      cfg.VOXEL_MODULE_X_SIZE * s.voxelModuleYSize.toNat * cfg.VOXEL_MODULE_Z_SIZE := by
  have h := congrArg List.length (renderTrace_offsets cfg s)
  simpa using h

/-- The bytes one render reads. -/
theorem bytesRead_eq (cfg : Config) (s : State) :
    bytesRead cfg s =
      List.range (3 * (cfg.VOXEL_MODULE_X_SIZE * s.voxelModuleYSize.toNat
        * cfg.VOXEL_MODULE_Z_SIZE)) := by
  rw [← reads_range, ← renderTrace_offsets, List.flatMap_map]
  rfl

/-- The pixel index as a natural number. -/
theorem pixelIndex_cast (cfg : Config) (s : State) (x y z : Nat) (h0 : 0 ≤ s.voxelModuleYSize) :
    pixelIndex cfg s x y z =
      ((x * s.voxelModuleYSize.toNat * cfg.VOXEL_MODULE_Z_SIZE + z * s.voxelModuleYSize.toNat + y
        : Nat) : Int) :=
  pixel_index_cast cfg s _ (by omega) x y z

/-- Every index below `X * Y * Z` is the pixel index of a voxel. -/
theorem pixel_index_surj (X Y Z i : Nat) (hi : i < X * Y * Z) :
    ∃ x y z : Nat, x < X ∧ y < Y ∧ z < Z ∧ x * Y * Z + z * Y + y = i := by
  have hY : 0 < Y := by
    rcases Nat.eq_zero_or_pos Y with h | h
    · subst h; simp at hi
    · exact h
  have hZ : 0 < Z := by
    rcases Nat.eq_zero_or_pos Z with h | h
    · subst h; simp at hi
    · exact h
  have hYZ : 0 < Y * Z := Nat.mul_pos hY hZ
  refine ⟨i / (Y * Z), (i % (Y * Z)) % Y, (i % (Y * Z)) / Y, ?_, Nat.mod_lt _ hY, ?_, ?_⟩
  · rw [Nat.div_lt_iff_lt_mul hYZ, ← Nat.mul_assoc]
    exact hi
  · rw [Nat.div_lt_iff_lt_mul hY, Nat.mul_comm Z Y]
    exact Nat.mod_lt _ hYZ
  · have h1 := Nat.div_add_mod i (Y * Z)
    have h2 := Nat.div_add_mod (i % (Y * Z)) Y
    calc i / (Y * Z) * Y * Z + i % (Y * Z) / Y * Y + i % (Y * Z) % Y
        = Y * Z * (i / (Y * Z)) + (Y * (i % (Y * Z) / Y) + i % (Y * Z) % Y) := by ring
      _ = i := by rw [h2, h1]

/-- The pixel index of a voxel is below `X * Y * Z`. -/
theorem pixel_index_lt (X Y Z x y z : Nat) (hx : x < X) (hy : y < Y) (hz : z < Z) :
    x * Y * Z + z * Y + y < X * Y * Z := by
  have h1 : z * Y + y < Z * Y := by
    calc z * Y + y < z * Y + Y := by omega
      _ = (z + 1) * Y := by ring
      _ ≤ Z * Y := Nat.mul_le_mul_right _ hz
  calc x * Y * Z + z * Y + y = x * (Z * Y) + (z * Y + y) := by ring
    _ < x * (Z * Y) + Z * Y := by omega
    _ = (x + 1) * (Z * Y) := by ring
    _ ≤ X * (Z * Y) := Nat.mul_le_mul_right _ hx
    _ = X * Y * Z := by ring

/-- The pixel indices one render writes are the indices of the voxels. -/
theorem mem_pixelsWritten (cfg : Config) (s : State) (h0 : 0 ≤ s.voxelModuleYSize) (i : Int) :
    i ∈ pixelsWritten cfg s ↔
      0 ≤ i ∧ i < ((cfg.VOXEL_MODULE_X_SIZE * s.voxelModuleYSize.toNat * cfg.VOXEL_MODULE_Z_SIZE
        : Nat) : Int) := by
  simp only [pixelsWritten, List.mem_map, mem_renderTrace]
  constructor
  · rintro ⟨c, ⟨x, y, z, hx, hy, hz, rfl⟩, rfl⟩
    simp only
    rw [pixelIndex_cast cfg s x y z h0]
    have := pixel_index_lt _ _ _ x y z hx hy hz
    constructor
    · exact Int.ofNat_nonneg _
    · exact_mod_cast this
  · rintro ⟨hi0, hi⟩
    obtain ⟨n, rfl⟩ := Int.eq_ofNat_of_zero_le hi0
    have hn : n < cfg.VOXEL_MODULE_X_SIZE * s.voxelModuleYSize.toNat * cfg.VOXEL_MODULE_Z_SIZE := by
      exact_mod_cast hi
    obtain ⟨x, y, z, hx, hy, hz, h⟩ := pixel_index_surj _ _ _ n hn
    refine ⟨_, ⟨x, y, z, hx, hy, hz, rfl⟩, ?_⟩
    simp only
    rw [pixelIndex_cast cfg s x y z h0, h]

/-- The pixel indices one render writes are a rearrangement of
`0, 1, ..., X*Y*Z - 1`. -/
theorem pixelsWritten_perm (cfg : Config) (s : State) (h0 : 0 ≤ s.voxelModuleYSize) :
    ((List.range (cfg.VOXEL_MODULE_X_SIZE * s.voxelModuleYSize.toNat
        * cfg.VOXEL_MODULE_Z_SIZE)).map (fun n : Nat => (n : Int))).Perm (pixelsWritten cfg s) := by
  apply List.Subperm.perm_of_length_le
  · apply List.subperm_of_subset
    · exact List.Nodup.map (fun a b h => Int.ofNat.inj h) (List.nodup_range _)
    · intro i hi
      rw [List.mem_map] at hi
      obtain ⟨n, hn, rfl⟩ := hi
      rw [List.mem_range] at hn
      rw [mem_pixelsWritten cfg s h0]
      exact ⟨Int.ofNat_nonneg _, by exact_mod_cast hn⟩
  · simp only [pixelsWritten, List.length_map, List.length_range, renderTrace_length]
    exact Nat.le_refl _

/-- Replaying calls leaves the pixels that no call names as they were. -/
theorem replay_untouched (buffer : Nat → Byte) (i : Int) :
    ∀ (calls : List RenderCall) (l : Leds), i ∉ calls.map (fun c => c.num) →
      (replay buffer l calls).pixels i = l.pixels i := by
  intro calls
  induction calls with
  | nil => exact fun l _ => rfl
  | cons c cs ih =>
    intro l hi
    simp only [List.map_cons, List.mem_cons, not_or] at hi
    have h := ih (l.setPixel c.num (colourFromBuffer buffer c.startIdx)) hi.2
    simp only [replay, List.foldl_cons] at h ⊢
    rw [h]
    simp only [Leds.setPixel, if_neg hi.1]

/-- The colour `colourFromBuffer` computes depends on the three bytes it reads
only. -/
theorem colourFromBuffer_congr (b1 b2 : Nat → Byte) (o : Nat)
    (h : ∀ k ∈ colourFromBufferReads o, b1 k = b2 k) :
    colourFromBuffer b1 o = colourFromBuffer b2 o := by
  have h0 := h o (by simp [colourFromBufferReads])
  have h1 := h (o + 1) (by simp [colourFromBufferReads])
  have h2 := h (o + 2) (by simp [colourFromBufferReads])
  simp only [colourFromBuffer, h0, h1, h2]

/-- Replaying calls depends on the bytes the calls read only. -/
theorem replay_congr (b1 b2 : Nat → Byte) :
    ∀ (calls : List RenderCall) (l : Leds),
      (∀ k ∈ calls.flatMap (fun c => colourFromBufferReads c.startIdx), b1 k = b2 k) →
      replay b1 l calls = replay b2 l calls := by
  intro calls
  induction calls with
  | nil =>
    intro l _
    simp only [replay, List.foldl_nil]
  | cons c cs ih =>
    intro l h
    simp only [List.flatMap_cons, List.mem_append] at h
    have hc := colourFromBuffer_congr b1 b2 c.startIdx (fun k hk => h k (Or.inl hk))
    have := ih (l.setPixel c.num (colourFromBuffer b2 c.startIdx)) (fun k hk => h k (Or.inr hk))
    simp only [replay, List.foldl_cons] at this ⊢
    rw [hc]
    exact this

/-- The recorded calls depend on the module geometry only. -/
theorem renderTrace_congr (cfg : Config) (s t : State)
    (hy : t.voxelModuleYSize = s.voxelModuleYSize) : renderTrace cfg t = renderTrace cfg s := by
  have hv : traceVoxel cfg t = traceVoxel cfg s := by
    funext x y acc z
    simp only [traceVoxel, pixelIndex, hy]
  have hz : traceZ cfg t = traceZ cfg s := by
    funext x acc y
    simp only [traceZ, hv]
  have hY : traceY cfg t = traceY cfg s := by
    funext acc x
    simp only [traceY, hz, hy]
  simp only [renderTrace, traceX, hY]

/-- C21: the pixel index transform is a bijection, and one render covers the
module exactly.  Let `0 ≤ voxelModuleYSize` (the claim's `ySize ≥ 1` is a
special case) and `ledsPerModule = VOXEL_MODULE_X_SIZE * voxelModuleYSize *
VOXEL_MODULE_Z_SIZE`.  Then (1) the map `(x, y, z) ↦ x*ySize*zSize + z*ySize + y`
is injective on `y < ySize`, `z < zSize`; (2) its image on `x < xSize`,
`y < ySize`, `z < zSize` is exactly `{0, ..., ledsPerModule - 1}`; (3) the
render loops perform exactly the recorded calls; (4) every pixel index below
`ledsPerModule` is written exactly once and no other index is written; (5) the
pixels outside `0 .. ledsPerModule - 1` keep their colour; (6) the bytes read
from the front slot are `0, 1, ..., 3*ledsPerModule - 1`, each once and in this
order; (7) the result of the render does not depend on any other byte of the
slot. -/
theorem pixel_index_bijection (cfg : Config) (s : State) (h0 : 0 ≤ s.voxelModuleYSize)
    (hm : s.ledsPerModule
      = cfg.VOXEL_MODULE_X_SIZE * s.voxelModuleYSize * cfg.VOXEL_MODULE_Z_SIZE) :
    (∀ x y z x' y' z' : Nat, (y : Int) < s.voxelModuleYSize → (y' : Int) < s.voxelModuleYSize →
      z < cfg.VOXEL_MODULE_Z_SIZE → z' < cfg.VOXEL_MODULE_Z_SIZE →
      pixelIndex cfg s x y z = pixelIndex cfg s x' y' z' → x = x' ∧ y = y' ∧ z = z') ∧
    (∀ i : Int,
      (∃ x y z : Nat, x < cfg.VOXEL_MODULE_X_SIZE ∧ (y : Int) < s.voxelModuleYSize ∧
        z < cfg.VOXEL_MODULE_Z_SIZE ∧ pixelIndex cfg s x y z = i)
      ↔ (0 ≤ i ∧ i < s.ledsPerModule)) ∧
    (renderX cfg s).2
      = replay (s.tempLedBufferQueue s.queueStartIdx) s.leds (renderTrace cfg s) ∧
    (∀ i : Int, List.count i (pixelsWritten cfg s)
      = if 0 ≤ i ∧ i < s.ledsPerModule then 1 else 0) ∧
    (∀ i : Int, ¬ (0 ≤ i ∧ i < s.ledsPerModule) →
      (renderX cfg s).2.pixels i = s.leds.pixels i) ∧
    bytesRead cfg s = List.range (3 * s.ledsPerModule.toNat) ∧
    (∀ t : State, t.voxelModuleYSize = s.voxelModuleYSize → t.leds = s.leds →
      (∀ k : Nat, (k : Int) < 3 * s.ledsPerModule →
        t.tempLedBufferQueue t.queueStartIdx k = s.tempLedBufferQueue s.queueStartIdx k) →
      renderX cfg t = renderX cfg s) := by
  have hY : s.voxelModuleYSize = ((s.voxelModuleYSize.toNat : Nat) : Int) := by omega
  have hN : s.ledsPerModule = ((cfg.VOXEL_MODULE_X_SIZE * s.voxelModuleYSize.toNat
      * cfg.VOXEL_MODULE_Z_SIZE : Nat) : Int) := by
    rw [hm]
    nth_rewrite 1 [hY]
    push_cast
    rfl
  have hsim : (renderX cfg s).2
      = replay (s.tempLedBufferQueue s.queueStartIdx) s.leds (renderTrace cfg s) :=
    congrArg Prod.snd (renderX_replay cfg s)
  have hmem : ∀ i : Int, i ∈ pixelsWritten cfg s ↔ (0 ≤ i ∧ i < s.ledsPerModule) := by
    intro i
    rw [hN]
    exact mem_pixelsWritten cfg s h0 i
  have hnodup : (pixelsWritten cfg s).Nodup :=
    (pixelsWritten_perm cfg s h0).nodup_iff.mp
      (List.Nodup.map (fun a b h => Int.ofNat.inj h) (List.nodup_range _))
  have hbytes : bytesRead cfg s = List.range (3 * s.ledsPerModule.toNat) := by
    rw [bytesRead_eq, hN, Int.toNat_ofNat]
  refine ⟨?_, ?_, hsim, ?_, ?_, hbytes, ?_⟩
  · intro x y z x' y' z' hy hy' hz hz' h
    rw [pixelIndex_cast cfg s x y z h0, pixelIndex_cast cfg s x' y' z' h0] at h
    exact pixel_index_inj s.voxelModuleYSize.toNat cfg.VOXEL_MODULE_Z_SIZE x y z x' y' z'
      (by omega) (by omega) hz hz' (Int.ofNat.inj h)
  · intro i
    rw [← hmem i]
    simp only [pixelsWritten, List.mem_map, mem_renderTrace]
    constructor
    · rintro ⟨x, y, z, hx, hy, hz, hi⟩
      exact ⟨_, ⟨x, y, z, hx, by omega, hz, rfl⟩, hi⟩
    · rintro ⟨c, ⟨x, y, z, hx, hy, hz, rfl⟩, hi⟩
      exact ⟨x, y, z, hx, by omega, hz, hi⟩
  · intro i
    by_cases hi : 0 ≤ i ∧ i < s.ledsPerModule
    · rw [if_pos hi]
      exact List.count_eq_one_of_mem hnodup ((hmem i).mpr hi)
    · rw [if_neg hi]
      exact List.count_eq_zero_of_not_mem (fun h => hi ((hmem i).mp h))
  · intro i hi
    rw [hsim]
    exact replay_untouched _ i _ _ (fun h => hi ((hmem i).mp h))
  · intro t hy hl hb
    have h1 : (traceX cfg t).1 = (traceX cfg s).1 := by
      rw [traceX_eq, traceX_eq, hy]
    rw [renderX_replay cfg t, renderX_replay cfg s, h1, renderTrace_congr cfg s t hy, hl]
    refine Prod.ext rfl ?_
    apply replay_congr
    intro k hk
    apply hb k
    have hk' : k ∈ bytesRead cfg s := hk
    rw [hbytes, List.mem_range] at hk'
    omega

set_option maxRecDepth 100000 in
/-- C21 witness: in `exampleQueuedState` (an 8 x 8 x 8 module, `ledsPerModule =
512`) one render writes pixel 90 exactly once, pixel 511 exactly once, never
pixel 512 or pixel -1, leaves pixel 512 as it was, and reads the bytes
`0 .. 1535` of the front slot. -/
theorem pixel_index_bijection_witness :
    (0 ≤ exampleQueuedState.voxelModuleYSize ∧
      exampleQueuedState.ledsPerModule = 512) ∧
    List.count 90 (pixelsWritten exampleConfig exampleQueuedState) = 1 ∧
    List.count 511 (pixelsWritten exampleConfig exampleQueuedState) = 1 ∧
    List.count 512 (pixelsWritten exampleConfig exampleQueuedState) = 0 ∧
    List.count (-1) (pixelsWritten exampleConfig exampleQueuedState) = 0 ∧
    (renderX exampleConfig exampleQueuedState).2.pixels 512
      = exampleQueuedState.leds.pixels 512 ∧
    bytesRead exampleConfig exampleQueuedState = List.range 1536 := by
  obtain ⟨_, _, _, hcount, hkeep, hread, _⟩ :=
    pixel_index_bijection exampleConfig exampleQueuedState (by decide) (by decide)
  exact ⟨⟨by decide, by decide⟩, (hcount 90).trans (by decide), (hcount 511).trans (by decide),
    (hcount 512).trans (by decide), (hcount (-1)).trans (by decide), hkeep 512 (by decide),
    hread.trans (congrArg (fun n => List.range (3 * n))
      (show exampleQueuedState.ledsPerModule.toNat = 512 by decide))⟩

/-- C21 illustration: on a 2 x 2 x 2 module one render writes the pixels in the
order 0, 2, 1, 3, 4, 6, 5, 7 and reads the bytes 0 .. 23 in order. -/
theorem small_render_trace :
    smallState.ledsPerModule = 8 ∧
    pixelsWritten smallConfig smallState = [0, 2, 1, 3, 4, 6, 5, 7] ∧
    bytesRead smallConfig smallState = List.range 24 := by
  decide

end Led3d
